import Mathlib

/-!
# Spartan RHI: swapchain, semaphore and buffer bookkeeping

A shallow embedding of the Vulkan back end of the Spartan engine
(`runtime/RHI/Vulkan/Vulkan_SwapChain.cpp` and its neighbours).

* Handles (`void*`) are natural numbers, `0` being `nullptr`.
* `uint32_t` values are natural numbers; arithmetic that can wrap is written
  with an explicit `% 2 ^ 32`.
* Every call into the driver or into the device service is recorded, in order,
  in a list of `Call`s; what the driver answers is a parameter of the
  operation that asks.
* An operation ends in one of three ways: it returns, an `SP_ASSERT` fires, or
  it steps outside defined C++ behaviour (subscript past the end of a
  `std::array`, null dereference, division by zero).
-/

namespace Spartan

/-! ## Constants and enumerations -/

/-- The value of `numeric_limits<uint32_t>::max()`, used as "nothing acquired". -/
def uint32_max : Nat := 2 ^ 32 - 1

/-- The capacity of the per-slot arrays. `destroy` takes the image views as
`array<void*, 3>&` and is handed `m_rhi_backbuffer_srv`, an
`array<void*, max_buffer_count>`, which fixes the constant. -/
def max_buffer_count : Nat := 3

/-- The cpu-side state of a semaphore. -/
inductive RHI_Sync_State where
  | Idle
  | Submitted
  deriving DecidableEq, Repr

/-- Image layouts; the three named ones are those the swapchain code mentions. -/
inductive RHI_Image_Layout where
  | Undefined
  | Color_Attachment_Optimal
  | Present_Src
  | Other (tag : Nat)
  deriving DecidableEq, Repr

/-- Pixel formats; the three named ones are those the swapchain code mentions. -/
inductive RHI_Format where
  | RHI_Format_R8G8B8A8_Unorm
  | RHI_Format_B8R8G8A8_Unorm
  | RHI_Format_R10G10B10A2_Unorm
  | Other (tag : Nat)
  deriving DecidableEq, Repr

/-- The colour spaces returned by `get_color_space`. -/
inductive VkColorSpaceKHR where
  | VK_COLOR_SPACE_SRGB_NONLINEAR_KHR
  | VK_COLOR_SPACE_HDR10_ST2084_EXT
  | Other (tag : Nat)
  deriving DecidableEq, Repr

/-- The present modes named by `get_present_mode`. -/
inductive VkPresentModeKHR where
  | VK_PRESENT_MODE_IMMEDIATE_KHR
  | VK_PRESENT_MODE_MAILBOX_KHR
  | VK_PRESENT_MODE_FIFO_KHR
  | VK_PRESENT_MODE_FIFO_RELAXED_KHR
  | VK_PRESENT_MODE_SHARED_DEMAND_REFRESH_KHR
  | VK_PRESENT_MODE_SHARED_CONTINUOUS_REFRESH_KHR
  deriving DecidableEq, Repr

/-! ## Fixed-capacity arrays -/

/-- A `std::array<α, max_buffer_count>`. -/
structure Slots (α : Type) where
  slot0 : α
  slot1 : α
  slot2 : α
  deriving DecidableEq, Repr

namespace Slots

variable {α : Type}

/-- The method `std::array::fill`. -/
def fill (v : α) : Slots α := ⟨v, v, v⟩

/-- A subscript read; `none` when the index is past the end of the array. -/
def get? (a : Slots α) : Nat → Option α
  | 0 => some a.slot0
  | 1 => some a.slot1
  | 2 => some a.slot2
  | _ => none

/-- A subscript write; only used after the index has been checked. -/
def set (a : Slots α) (i : Nat) (v : α) : Slots α :=
  match i with
  | 0 => { a with slot0 := v }
  | 1 => { a with slot1 := v }
  | 2 => { a with slot2 := v }
  | _ => a

/-- The elements in index order, as a range-for visits them. -/
def toList (a : Slots α) : List α := [a.slot0, a.slot1, a.slot2]

end Slots

/-! ## Semaphores -/

/-- The fields of `RHI_Semaphore`. -/
structure RHI_Semaphore where
  m_resource : Nat
  m_is_timeline : Bool
  m_cpu_state : RHI_Sync_State
  m_name : String
  deriving DecidableEq, Repr

/-- The setter `RHI_Semaphore::SetCpuState`. -/
def RHI_Semaphore.SetCpuState (sem : RHI_Semaphore) (state : RHI_Sync_State) : RHI_Semaphore :=
  { sem with m_cpu_state := state }

/-! ## Calls and results -/

/-- A surface format as the driver lists it: the Vulkan format and the colour space. -/
structure VkSurfaceFormatKHR where
  format : Nat
  colorSpace : VkColorSpaceKHR
  deriving DecidableEq, Repr

/-- The calls the embedded code makes into the driver, SDL, the engine's device
service, its timer and the immediate-mode GUI. -/
inductive Call where
  | vkAcquireNextImageKHR (swapchain : Nat) (signal_semaphore : Nat)
  | QueuePresent (swapchain : Nat) (image_index : Nat) (wait_semaphores : List (Option RHI_Semaphore))
  | AddToDeletionQueue_texture_view (image_view : Nat)
  | QueueWaitAll
  | vkDestroySwapchainKHR (swapchain : Nat)
  | vkDestroySurfaceKHR (surface : Nat)
  | vkDestroySemaphore (semaphore : Nat)
  | vkCreateSemaphore (is_timeline : Bool)
  | SDL_Vulkan_CreateSurface (sdl_window : Nat)
  | vkCreateSwapchainKHR (surface : Nat) (minImageCount : Nat) (imageFormat : Nat)
      (imageColorSpace : VkColorSpaceKHR) (width height : Nat) (presentMode : VkPresentModeKHR)
  | ImmediateBegin
  | ImmediateSubmit (cmd_list : Nat)
  | image_set_layout (cmd_list : Nat) (image : Nat) (layout_old layout_new : RHI_Image_Layout)
  | image_view_create (image : Nat) (format : Nat)
  | set_object_name (object : Nat) (name : String)
  | vkWaitSemaphores (semaphore : Nat) (value : Nat) (timeout : Nat)
  | vkSignalSemaphore (semaphore : Nat) (value : Nat)
  | vkGetSemaphoreCounterValue (semaphore : Nat)
  | AddToDeletionQueue_buffer (buffer : Nat)
  | CreateBuffer (size : Nat) (usage : Nat) (memory_property_flags : Nat) (data : Nat)
  | GetMappedDataFromBuffer (buffer : Nat)
  | ImmediateBegin_Copy
  | vkCmdCopyBuffer (cmd_buffer : Nat) (source destination : Nat) (size : Nat)
  | DestroyBuffer (buffer : Nat)
  | Timer_SetFpsLimit (fps_limit : Nat)
  | ImGui_BeginCombo (label preview_value : String)
  | ImGui_Selectable (label : String) (selected : Bool)
  | ImGui_SetItemDefaultFocus
  | ImGui_EndCombo
  deriving DecidableEq, Repr

/-- How an operation on a state of type `σ` ends, with the state it leaves and
the calls it made up to that point. -/
inductive Result (σ α : Type) where
  | ok (value : α) (state : σ) (calls : List Call)
  | assert_failed (msg : String) (state : σ) (calls : List Call)
  | undefined (state : σ) (calls : List Call)
  deriving DecidableEq, Repr

namespace Result

variable {σ α β : Type}

/-- The calls made before the operation ended. -/
def calls : Result σ α → List Call
  | ok _ _ c => c
  | assert_failed _ _ c => c
  | undefined _ c => c

/-- The state the operation left. -/
def state : Result σ α → σ
  | ok _ s _ => s
  | assert_failed _ s _ => s
  | undefined s _ => s

/-- The same result, after `pre` had already been called. -/
def after (pre : List Call) : Result σ α → Result σ α
  | ok v s c => ok v s (pre ++ c)
  | assert_failed m s c => assert_failed m s (pre ++ c)
  | undefined s c => undefined s (pre ++ c)

/-- Sequencing: the rest of the function body runs only if the first part returned. -/
def andThen (r : Result σ α) (f : α → σ → Result σ β) : Result σ β :=
  match r with
  | ok v s c => (f v s).after c
  | assert_failed m s c => assert_failed m s c
  | undefined s c => undefined s c

/-- The operation returned. -/
def returned : Result σ α → Bool
  | ok _ _ _ => true
  | _ => false

end Result

/-! ## Semaphore construction and destruction -/

/-- Modelled from the spec: the member initialisers of `RHI_Semaphore.h`, a header
that is not part of this unit. A semaphore object starts with a null handle and
in the `Idle` cpu state (the swapchain is what later marks it `Submitted`). -/
def RHI_Semaphore.initial : RHI_Semaphore :=
  { m_resource := 0, m_is_timeline := false, m_cpu_state := RHI_Sync_State.Idle, m_name := "" }

/-- The function `create_semaphore`, on the handle it is given by reference.
`created` is the answer of `vkCreateSemaphore`: `some h` for `VK_SUCCESS` with handle `h`. -/
def create_semaphore (created : Option Nat) (is_timeline : Bool) (resource : Nat) :
    Result Nat Unit :=
  if resource ≠ 0 then
    .assert_failed "resource == nullptr" resource []
  else
    match created with
    | none => .assert_failed "Failed to create semaphore" resource [Call.vkCreateSemaphore is_timeline]
    | some handle => .ok () handle [Call.vkCreateSemaphore is_timeline]

/-- The function `destroy_semaphore`, on the handle it is given by reference. -/
def destroy_semaphore (resource : Nat) : Result Nat Unit :=
  if resource = 0 then
    .ok () resource []
  else
    .ok () 0 [Call.vkDestroySemaphore resource]

/-- The constructor `RHI_Semaphore::RHI_Semaphore(is_timeline, name)`; `name` is
`none` for a null `const char*`. -/
def RHI_Semaphore.construct (created : Option Nat) (is_timeline : Bool) (name : Option String) :
    Result RHI_Semaphore Unit :=
  let sem := { RHI_Semaphore.initial with m_is_timeline := is_timeline }
  match create_semaphore created sem.m_is_timeline sem.m_resource with
  | .assert_failed msg resource calls => .assert_failed msg { sem with m_resource := resource } calls
  | .undefined resource calls => .undefined { sem with m_resource := resource } calls
  | .ok _ resource calls =>
    let sem1 := { sem with m_resource := resource }
    match name with
    | none => .ok () sem1 calls
    | some n => .ok () { sem1 with m_name := n } (calls ++ [Call.set_object_name sem1.m_resource n])

/-- The destructor `RHI_Semaphore::~RHI_Semaphore`: the calls it makes. -/
def RHI_Semaphore.destruct (sem : RHI_Semaphore) : List Call :=
  if sem.m_resource = 0 then
    []
  else
    [Call.QueueWaitAll] ++ (destroy_semaphore sem.m_resource).calls

/-- Assigning `nullptr` to a `shared_ptr<RHI_Semaphore>` that is the only owner of
its semaphore runs the destructor; a null pointer has nothing to release. -/
def release_semaphore : Option RHI_Semaphore → List Call
  | none => []
  | some sem => sem.destruct

/-- The method `RHI_Semaphore::Reset`. `created` is the answer of `vkCreateSemaphore`. -/
def RHI_Semaphore.Reset (created : Option Nat) (sem : RHI_Semaphore) :
    Result RHI_Semaphore Unit :=
  let c1 := [Call.QueueWaitAll]
  match destroy_semaphore sem.m_resource with
  | .assert_failed msg resource c2 => .assert_failed msg { sem with m_resource := resource } (c1 ++ c2)
  | .undefined resource c2 => .undefined { sem with m_resource := resource } (c1 ++ c2)
  | .ok _ resource c2 =>
    let sem1 := { sem with m_resource := resource }
    match create_semaphore created sem1.m_is_timeline sem1.m_resource with
    | .assert_failed msg resource1 c3 =>
      .assert_failed msg { sem1 with m_resource := resource1 } (c1 ++ c2 ++ c3)
    | .undefined resource1 c3 => .undefined { sem1 with m_resource := resource1 } (c1 ++ c2 ++ c3)
    | .ok _ resource1 c3 =>
      let sem2 := { sem1 with m_resource := resource1 }
      .ok () { sem2 with m_cpu_state := RHI_Sync_State.Idle } (c1 ++ c2 ++ c3)

/-- The method `RHI_Semaphore::Wait`; `waited` says whether `vkWaitSemaphores`
reports `VK_SUCCESS`. -/
def RHI_Semaphore.Wait (waited : Bool) (value timeout : Nat) (sem : RHI_Semaphore) :
    Result RHI_Semaphore Unit :=
  if sem.m_is_timeline = false then
    .assert_failed "m_is_timeline" sem []
  else
    let call := Call.vkWaitSemaphores sem.m_resource value timeout
    if waited = false then .assert_failed "Failed to wait for semaphore" sem [call]
    else .ok () sem [call]

/-- The method `RHI_Semaphore::Signal`; `signalled` says whether `vkSignalSemaphore`
reports `VK_SUCCESS`. -/
def RHI_Semaphore.Signal (signalled : Bool) (value : Nat) (sem : RHI_Semaphore) :
    Result RHI_Semaphore Unit :=
  if sem.m_is_timeline = false then
    .assert_failed "m_is_timeline" sem []
  else
    let call := Call.vkSignalSemaphore sem.m_resource value
    if signalled = false then .assert_failed "Failed to signal semaphore" sem [call]
    else .ok () sem [call]

/-- The method `RHI_Semaphore::GetValue`; `counter` is the answer of
`vkGetSemaphoreCounterValue`: `some v` for `VK_SUCCESS` with value `v`. -/
def RHI_Semaphore.GetValue (counter : Option Nat) (sem : RHI_Semaphore) :
    Result RHI_Semaphore Nat :=
  if sem.m_is_timeline = false then
    .assert_failed "m_is_timeline" sem []
  else
    let call := Call.vkGetSemaphoreCounterValue sem.m_resource
    match counter with
    | none => .assert_failed "Failed to get semaphore counter value" sem [call]
    | some value => .ok value sem [call]

/-! ## Driver answers during swapchain creation -/

/-- The extents of `VkSurfaceCapabilitiesKHR` that `create` reads. -/
structure VkSurfaceCapabilitiesKHR where
  minImageExtent_width : Nat
  minImageExtent_height : Nat
  maxImageExtent_width : Nat
  maxImageExtent_height : Nat
  deriving DecidableEq, Repr

/-- The bit values of the present flags, declared in a header outside this unit. -/
structure RHI_Present_Mode where
  RHI_Present_Immediate : Nat
  RHI_Present_Fifo : Nat
  RHI_Present_FifoRelaxed : Nat
  RHI_Present_SharedDemandRefresh : Nat
  RHI_Present_SharedDContinuousRefresh : Nat
  deriving DecidableEq, Repr

/-- What the platform answers while `create` runs, and the tables `create` reads.
An `Option` is `none` when the call does not report success. -/
structure Driver where
  present_bits : RHI_Present_Mode
  vulkan_format : RHI_Format → Nat
  IsNvidia : Bool
  created_surface : Option Nat
  surface_support : Option Bool
  surface_capabilities : VkSurfaceCapabilitiesKHR
  surface_format_count_ok : Bool
  surface_formats : Option (List VkSurfaceFormatKHR)
  surface_present_modes : List VkPresentModeKHR
  created_swapchain : Option Nat
  swapchain_images : List Nat
  immediate_cmd_list : Nat
  created_image_view : Nat → Nat
  created_semaphore : Nat → Option Nat

/-- Modelled from the spec: `Math::Helper::Clamp` lives in the engine's math helpers,
outside this unit; the requested extent is clamped into the allowed range. -/
def Clamp (x a b : Nat) : Nat :=
  if x < a then a else if x > b then b else x

/-- The function `get_color_space`. -/
def get_color_space (is_hdr : Bool) : VkColorSpaceKHR :=
  if is_hdr then VkColorSpaceKHR.VK_COLOR_SPACE_HDR10_ST2084_EXT
  else VkColorSpaceKHR.VK_COLOR_SPACE_SRGB_NONLINEAR_KHR

/-- The preferred mode computed by the five conditional assignments of `get_present_mode`. -/
def present_mode_preferred (bits : RHI_Present_Mode) (flags : Nat) : VkPresentModeKHR :=
  let p0 := VkPresentModeKHR.VK_PRESENT_MODE_FIFO_KHR
  let p1 := if flags &&& bits.RHI_Present_Immediate ≠ 0 then
    VkPresentModeKHR.VK_PRESENT_MODE_IMMEDIATE_KHR else p0
  let p2 := if flags &&& bits.RHI_Present_Fifo ≠ 0 then
    VkPresentModeKHR.VK_PRESENT_MODE_MAILBOX_KHR else p1
  let p3 := if flags &&& bits.RHI_Present_FifoRelaxed ≠ 0 then
    VkPresentModeKHR.VK_PRESENT_MODE_FIFO_RELAXED_KHR else p2
  let p4 := if flags &&& bits.RHI_Present_SharedDemandRefresh ≠ 0 then
    VkPresentModeKHR.VK_PRESENT_MODE_SHARED_DEMAND_REFRESH_KHR else p3
  if flags &&& bits.RHI_Present_SharedDContinuousRefresh ≠ 0 then
    VkPresentModeKHR.VK_PRESENT_MODE_SHARED_CONTINUOUS_REFRESH_KHR else p4

/-- The search loop of `get_present_mode`: stop at the first supported mode equal
to the preferred one, otherwise keep `VK_PRESENT_MODE_FIFO_KHR`. -/
def find_present_mode (preferred : VkPresentModeKHR) : List VkPresentModeKHR → VkPresentModeKHR
  | [] => VkPresentModeKHR.VK_PRESENT_MODE_FIFO_KHR
  | supported_present_mode :: rest =>
    if preferred = supported_present_mode then preferred else find_present_mode preferred rest

/-- The function `get_present_mode`; the list is what `get_supported_present_modes` returns. -/
def get_present_mode (bits : RHI_Present_Mode) (surface_present_modes : List VkPresentModeKHR)
    (flags : Nat) : VkPresentModeKHR :=
  find_present_mode (present_mode_preferred bits flags) surface_present_modes

/-- The search loop of `is_format_supported`. -/
def format_listed (format : Nat) (color_space : VkColorSpaceKHR) : List VkSurfaceFormatKHR → Bool
  | [] => false
  | supported_format :: rest =>
    if supported_format.format = format ∧ supported_format.colorSpace = color_space then true
    else format_listed format color_space rest

/-- The function `is_format_supported`: the returned flag and the format left in `*format`. -/
def is_format_supported (vulkan_format : RHI_Format → Nat) (is_nvidia : Bool) (format : RHI_Format)
    (color_space : VkColorSpaceKHR) (supported_formats : List VkSurfaceFormatKHR) :
    Bool × RHI_Format :=
  let format1 :=
    if format = RHI_Format.RHI_Format_R8G8B8A8_Unorm ∧ is_nvidia = true then
      RHI_Format.RHI_Format_B8R8G8A8_Unorm
    else format
  (format_listed (vulkan_format format1) color_space supported_formats, format1)

/-! ## The swapchain -/

/-- The fields of `RHI_SwapChain` that the Vulkan implementation reads or writes. -/
structure RHI_SwapChain where
  m_object_id : Nat
  m_name : String
  m_sdl_window : Nat
  m_surface : Nat
  m_rhi_resource : Nat
  m_present_enabled : Bool
  m_buffer_count : Nat
  m_width : Nat
  m_height : Nat
  m_flags : Nat
  m_format : RHI_Format
  m_sync_index : Nat
  m_image_index : Nat
  m_image_index_previous : Nat
  m_layouts : Slots RHI_Image_Layout
  m_rhi_backbuffer_resource : Slots Nat
  m_rhi_backbuffer_srv : Slots Nat
  m_acquire_semaphore : Slots (Option RHI_Semaphore)
  m_wait_semaphores : List (Option RHI_Semaphore)
  deriving DecidableEq, Repr

/-- A command pool as `Present` sees it: `GetSwapchainId()` and the semaphore
returned by `GetCurrentCommandList()->GetSemaphoreProccessed()`. -/
structure RHI_CommandPool where
  m_swapchain_id : Nat
  semaphore_processed : RHI_Semaphore
  deriving DecidableEq, Repr

/-- The device service (`RHI_Device`), whose code is outside this unit.
`IsValidResolution` is its answer to the resolution query. `QueuePresent` is
handed pointers to the waited semaphores, so it can write their cpu state:
`QueuePresent_cpu_state` is the state it leaves on a waited semaphore, given
the state it found. -/
structure RHI_Device where
  IsValidResolution : Nat → Nat → Bool
  QueuePresent_cpu_state : RHI_Sync_State → RHI_Sync_State

namespace RHI_SwapChain

/-- The index `(m_sync_index + 1) % m_buffer_count`, with the addition in `uint32_t`. -/
def next_sync_index (s : RHI_SwapChain) : Nat :=
  (s.m_sync_index + 1) % 2 ^ 32 % s.m_buffer_count

/-- The method `RHI_SwapChain::AcquireNextImage`. `acquired` is what
`vkAcquireNextImageKHR` answers if it is called: `some i` for `VK_SUCCESS`
with image index `i`, `none` for any other result. -/
def AcquireNextImage (acquired : Option Nat) (s : RHI_SwapChain) : Result RHI_SwapChain Unit :=
  if s.m_present_enabled = false then
    .assert_failed "No need to acquire next image when presenting is disabled" s []
  else if s.m_buffer_count = 1 ∧ s.m_image_index ≠ uint32_max then
    .ok () s []
  else if s.m_buffer_count = 0 then
    .undefined s []
  else
    let s1 := { s with m_sync_index := s.next_sync_index }
    match s1.m_acquire_semaphore.get? s1.m_sync_index with
    | none => .undefined s1 []
    | some none => .undefined s1 []
    | some (some signal_semaphore) =>
      if signal_semaphore.m_cpu_state = RHI_Sync_State.Submitted then
        .assert_failed "The semaphore is already signaled" s1 []
      else
        let s2 := { s1 with m_image_index_previous := s1.m_image_index }
        let call := Call.vkAcquireNextImageKHR s2.m_rhi_resource signal_semaphore.m_resource
        match acquired with
        | none => .assert_failed "Failed to acquire next image" s2 [call]
        | some image_index =>
          let s3 := { s2 with m_image_index := image_index }
          let signalled := signal_semaphore.SetCpuState RHI_Sync_State.Submitted
          .ok () { s3 with
                   m_acquire_semaphore := s3.m_acquire_semaphore.set s3.m_sync_index (some signalled) }
            [call]

/-- The loop of `Present` over the command pools, appending to the wait list. -/
def collect_wait_semaphores (object_id : Nat) :
    List RHI_CommandPool → List (Option RHI_Semaphore) → List (Option RHI_Semaphore)
  | [], wait => wait
  | cmd_pool :: rest, wait =>
    if object_id = cmd_pool.m_swapchain_id then
      if cmd_pool.semaphore_processed.m_cpu_state = RHI_Sync_State.Submitted then
        collect_wait_semaphores object_id rest (wait ++ [some cmd_pool.semaphore_processed])
      else
        collect_wait_semaphores object_id rest wait
    else
      collect_wait_semaphores object_id rest wait

/-- The effect of `QueuePresent` on the swapchain: the acquire semaphore it waited on
is left in the state the device service chooses. -/
def after_QueuePresent (device : RHI_Device) (s : RHI_SwapChain) : RHI_SwapChain :=
  match s.m_acquire_semaphore.get? s.m_sync_index with
  | some (some sem) =>
    let sem1 := sem.SetCpuState (device.QueuePresent_cpu_state sem.m_cpu_state)
    { s with m_acquire_semaphore := s.m_acquire_semaphore.set s.m_sync_index (some sem1) }
  | _ => s

/-- The method `RHI_SwapChain::Present`. `cmd_pools` is `GetCommandPools()`;
`acquired` is the driver's answer to the trailing acquire. -/
def Present (device : RHI_Device) (cmd_pools : List RHI_CommandPool) (acquired : Option Nat)
    (s : RHI_SwapChain) : Result RHI_SwapChain Unit :=
  if s.m_rhi_resource = 0 then
    .assert_failed "The swapchain has not been initialised" s []
  else if s.m_present_enabled = false then
    .assert_failed "Presenting is disabled" s []
  else if s.m_image_index = s.m_image_index_previous then
    .assert_failed "No image was acquired" s []
  else
    match s.m_layouts.get? s.m_image_index with
    | none => .undefined s []
    | some layout =>
      if layout ≠ RHI_Image_Layout.Present_Src then
        .assert_failed "The layout must be Present_Src" s []
      else
        match s.m_acquire_semaphore.get? s.m_sync_index with
        | none => .undefined { s with m_wait_semaphores := [] } []
        | some acquire_semaphore =>
          let wait := collect_wait_semaphores s.m_object_id cmd_pools [acquire_semaphore]
          let s1 := { s with m_wait_semaphores := wait }
          if wait.isEmpty then
            .assert_failed "Present() should wait on at least one semaphore" s1 []
          else
            (AcquireNextImage acquired (after_QueuePresent device s1)).after
              [Call.QueuePresent s1.m_rhi_resource s1.m_image_index wait]

/-- Modelled from the spec: `IsHdr` is declared in `RHI_SwapChain.h`, a header outside
this unit; the swapchain is in HDR mode exactly when its format is the ten-bit
format that `SetHdr(true)` selects. -/
def IsHdr (s : RHI_SwapChain) : Bool :=
  decide (s.m_format = RHI_Format.RHI_Format_R10G10B10A2_Unorm)

end RHI_SwapChain

/-! ## Destroying and creating the chain

`destroy` and `create` are file-local functions whose reference parameters are,
at both call sites, bound to the same swapchain fields; they are embedded as
functions of the swapchain. -/

/-- The image-view loop of `destroy`: every non-null view goes to the deletion queue. -/
def enqueue_image_views : List Nat → List Call
  | [] => []
  | image_view :: rest =>
    if image_view ≠ 0 then Call.AddToDeletionQueue_texture_view image_view :: enqueue_image_views rest
    else enqueue_image_views rest

/-- The calls made by `image_acquired_semaphore.fill(nullptr)`: each slot, in
order, gives up its semaphore. -/
def release_semaphores : List (Option RHI_Semaphore) → List Call
  | [] => []
  | p :: rest => release_semaphore p ++ release_semaphores rest

/-- The function `destroy`. It has no assertion and no subscript, so it always returns. -/
def destroy (s : RHI_SwapChain) : Result RHI_SwapChain Unit :=
  let c1 := release_semaphores s.m_acquire_semaphore.toList
  let s1 := { s with m_acquire_semaphore := Slots.fill none }
  let c2 := enqueue_image_views s1.m_rhi_backbuffer_srv.toList
  let s2 := { s1 with m_rhi_backbuffer_srv := Slots.fill 0 }
  let c3 := [Call.QueueWaitAll]
  let c4 := if s2.m_rhi_resource ≠ 0 then [Call.vkDestroySwapchainKHR s2.m_rhi_resource] else []
  let s3 := { s2 with m_rhi_resource := 0 }
  let c5 := if s3.m_surface ≠ 0 then [Call.vkDestroySurfaceKHR s3.m_surface] else []
  let s4 := { s3 with m_surface := 0 }
  .ok () s4 (c1 ++ c2 ++ c3 ++ c4 ++ c5)

/-- The layout loop of `create`, from index `i` on: one transition per image and
the recorded layout of slot `i` set to `Color_Attachment_Optimal`. -/
def create_transition_layouts (cmd_list : Nat) :
    List Nat → Nat → RHI_SwapChain → Result RHI_SwapChain Unit
  | [], _, s => .ok () s []
  | image :: rest, i, s =>
    let call := Call.image_set_layout cmd_list image RHI_Image_Layout.Undefined
      RHI_Image_Layout.Color_Attachment_Optimal
    if i < max_buffer_count then
      let layouts := s.m_layouts.set i RHI_Image_Layout.Color_Attachment_Optimal
      (create_transition_layouts cmd_list rest (i + 1) { s with m_layouts := layouts }).after [call]
    else
      .undefined s [call]

/-- The image-view loop of `create`, from index `i` on. -/
def create_image_views (driver : Driver) (format : Nat) :
    List Nat → Nat → RHI_SwapChain → Result RHI_SwapChain Unit
  | [], _, s => .ok () s []
  | image :: rest, i, s =>
    if i < max_buffer_count then
      let s1 := { s with m_rhi_backbuffer_resource := s.m_rhi_backbuffer_resource.set i image }
      let c1 := [Call.set_object_name image ("swapchain_image_" ++ toString i),
                 Call.image_view_create image format]
      let views := s1.m_rhi_backbuffer_srv.set i (driver.created_image_view image)
      (create_image_views driver format rest (i + 1) { s1 with m_rhi_backbuffer_srv := views }).after c1
    else
      .undefined s []

/-- The calls made when slot `i` of the acquire semaphores is assigned a new
pointer: the pointer the slot held gives up its semaphore. -/
def release_slot (a : Slots (Option RHI_Semaphore)) (i : Nat) : List Call :=
  match a.get? i with
  | some previous => release_semaphore previous
  | none => []

/-- The semaphore loop of `create`: `remaining` more iterations, starting at index `i`.
The new semaphore is made first; assigning it to the slot releases what the
slot held (nothing at either call site of `create`, where the slots have just
been filled with null pointers). -/
def create_semaphores (driver : Driver) : Nat → Nat → RHI_SwapChain → Result RHI_SwapChain Unit
  | 0, _, s => .ok () s []
  | remaining + 1, i, s =>
    let name := "swapchain_image_acquired_" ++ toString i
    match RHI_Semaphore.construct (driver.created_semaphore i) false (some name) with
    | .assert_failed msg _ calls => .assert_failed msg s calls
    | .undefined _ calls => .undefined s calls
    | .ok _ sem calls =>
      if i < max_buffer_count then
        let released := release_slot s.m_acquire_semaphore i
        let sems := s.m_acquire_semaphore.set i (some sem)
        (create_semaphores driver remaining (i + 1) { s with m_acquire_semaphore := sems }).after
          (calls ++ released)
      else
        .undefined s calls

/-- The function `get_supported_surface_formats`, with its two assertions. -/
def get_supported_surface_formats (driver : Driver) : Except String (List VkSurfaceFormatKHR) :=
  if driver.surface_format_count_ok = false then
    .error "Failed to get physical device surface format count"
  else
    match driver.surface_formats with
    | none => .error "Failed to get physical device surfaces"
    | some surface_formats => .ok surface_formats

/-- The function `create`. -/
def create (driver : Driver) (s : RHI_SwapChain) : Result RHI_SwapChain Unit :=
  let hdr := s.IsHdr
  if s.m_sdl_window = 0 then
    .assert_failed "sdl_window != nullptr" s []
  else
    let c1 := [Call.SDL_Vulkan_CreateSurface s.m_sdl_window]
    match driver.created_surface with
    | none => .assert_failed "Failed to created window surface" s c1
    | some surface =>
    match driver.surface_support with
    | none => .assert_failed "Failed to get physical device surface support" s c1
    | some false => .assert_failed "The device does not support this kind of surface" s c1
    | some true =>
    let capabilities := driver.surface_capabilities
    let width := Clamp s.m_width capabilities.minImageExtent_width capabilities.maxImageExtent_width
    let s1 := { s with m_width := width }
    let height :=
      Clamp s1.m_height capabilities.minImageExtent_height capabilities.maxImageExtent_height
    let s2 := { s1 with m_height := height }
    match get_supported_surface_formats driver with
    | .error msg => .assert_failed msg s2 c1
    | .ok supported_formats =>
    let color_space := get_color_space hdr
    let checked := is_format_supported driver.vulkan_format driver.IsNvidia s2.m_format color_space
      supported_formats
    let s3 := { s2 with m_format := checked.2 }
    if checked.1 = false then
      .assert_failed "The surface doesn't support the requested format" s3 c1
    else
    let c2 := c1 ++ [Call.vkCreateSwapchainKHR surface s3.m_buffer_count
      (driver.vulkan_format s3.m_format) color_space s3.m_width s3.m_height
      (get_present_mode driver.present_bits driver.surface_present_modes s3.m_flags)]
    match driver.created_swapchain with
    | none => .assert_failed "Failed to create swapchain" s3 c2
    | some swap_chain =>
    let images := driver.swapchain_images
    let transitioned : Result RHI_SwapChain Unit :=
      if driver.immediate_cmd_list ≠ 0 then
        ((create_transition_layouts driver.immediate_cmd_list images 0 s3).after
          [Call.ImmediateBegin]).andThen
          fun _ s4 => .ok () s4 [Call.ImmediateSubmit driver.immediate_cmd_list]
      else
        .ok () s3 [Call.ImmediateBegin]
    (transitioned.andThen fun _ s4 =>
      (create_image_views driver (driver.vulkan_format s4.m_format) images 0 s4).andThen
        fun _ s5 =>
          let s6 := { s5 with m_surface := surface }
          let s7 := { s6 with m_rhi_resource := swap_chain }
          create_semaphores driver s7.m_buffer_count 0 s7).after c2

namespace RHI_SwapChain

/-- The method `RHI_SwapChain::Resize`. -/
def Resize (device : RHI_Device) (driver : Driver) (acquired : Option Nat)
    (width height : Nat) (force : Bool) (s : RHI_SwapChain) : Result RHI_SwapChain Bool :=
  let s1 := { s with m_present_enabled := device.IsValidResolution width height }
  if s1.m_present_enabled = false then
    .ok false s1 []
  else if force = false ∧ s1.m_width = width ∧ s1.m_height = height then
    .ok false s1 []
  else
    let s2 := { s1 with m_width := width }
    let s3 := { s2 with m_height := height }
    (destroy s3).andThen fun _ s4 =>
      (create driver s4).andThen fun _ s5 =>
        let s6 := { s5 with m_image_index := uint32_max }
        let s7 := { s6 with m_image_index_previous := s6.m_image_index }
        (AcquireNextImage acquired s7).andThen fun _ s8 => .ok true s8 []

/-- The constructor `RHI_SwapChain::RHI_SwapChain`. `fresh` is the object as its
member initialisers leave it before the constructor body runs; they are
declared in `RHI_SwapChain.h`, a header outside this unit, so the object is a
parameter. The warning that is logged on the early return is not a call into
the device. -/
def construct (device : RHI_Device) (driver : Driver) (acquired : Option Nat)
    (sdl_window width height : Nat) (format : RHI_Format) (buffer_count flags : Nat)
    (name : String) (fresh : RHI_SwapChain) : Result RHI_SwapChain Unit :=
  if device.IsValidResolution width height = false then
    .ok () fresh []
  else
    let c1 := release_semaphores fresh.m_acquire_semaphore.toList
    let s1 := { fresh with m_acquire_semaphore := Slots.fill none }
    let s2 := { s1 with m_rhi_backbuffer_resource := Slots.fill 0 }
    let s3 := { s2 with m_rhi_backbuffer_srv := Slots.fill 0 }
    let s4 := { s3 with m_layouts := Slots.fill RHI_Image_Layout.Undefined }
    let s5 := { s4 with m_format := format, m_buffer_count := buffer_count, m_width := width }
    let s6 := { s5 with m_height := height, m_sdl_window := sdl_window, m_flags := flags }
    let s7 := { s6 with m_name := name }
    ((create driver s7).andThen fun _ s8 => AcquireNextImage acquired s8).after c1

/-- The destructor `RHI_SwapChain::~RHI_SwapChain`. -/
def destruct (s : RHI_SwapChain) : Result RHI_SwapChain Unit :=
  destroy s

/-- The method `RHI_SwapChain::SetLayout`; `cmd_list` is `cmd_list->GetRhiResource()`. -/
def SetLayout (layout : RHI_Image_Layout) (cmd_list : Nat) (s : RHI_SwapChain) :
    Result RHI_SwapChain Unit :=
  match s.m_layouts.get? s.m_image_index with
  | none => .undefined s []
  | some current =>
    if current = layout then
      .ok () s []
    else
      match s.m_rhi_backbuffer_resource.get? s.m_image_index with
      | none => .undefined s []
      | some image =>
        .ok () { s with m_layouts := s.m_layouts.set s.m_image_index layout }
          [Call.image_set_layout cmd_list image current layout]

/-- The method `RHI_SwapChain::SetHdr`; `display_hdr` is what `Display::GetHdr()`
returns. The line that logs the change is not a call into the device. -/
def SetHdr (display_hdr : Bool) (device : RHI_Device) (driver : Driver) (acquired : Option Nat)
    (enabled : Bool) (s : RHI_SwapChain) : Result RHI_SwapChain Unit :=
  if enabled = true ∧ display_hdr = false then
    .assert_failed "This display doesn' support HDR" s []
  else
    let new_format :=
      if enabled = true then RHI_Format.RHI_Format_R10G10B10A2_Unorm
      else RHI_Format.RHI_Format_R8G8B8A8_Unorm
    if new_format ≠ s.m_format then
      let s1 := { s with m_format := new_format }
      (Resize device driver acquired s1.m_width s1.m_height true s1).andThen
        fun _ s2 => .ok () s2 []
    else
      .ok () s []

end RHI_SwapChain

/-! ## The vertex buffer -/

/-- The fields of `RHI_VertexBuffer` that the Vulkan implementation reads or writes. -/
structure RHI_VertexBuffer where
  m_rhi_resource : Nat
  m_is_mappable : Bool
  m_mapped_data : Nat
  m_object_size_gpu : Nat
  m_name : String
  deriving DecidableEq, Repr

/-- What the device service answers while `_create` runs, and the Vulkan flag
values `_create` passes. `created_buffer` is the handle `CreateBuffer` stores for
the permanent buffer, `created_staging` the one for the staging buffer,
`mapped_data` the pointer `GetMappedDataFromBuffer` returns for a buffer, and
`immediate_cmd_list` the command list `ImmediateBegin` returns (0 for null)
with `cmd_list_resource` its `GetRhiResource()`. -/
structure BufferDevice where
  created_buffer : Nat
  created_staging : Nat
  mapped_data : Nat → Nat
  immediate_cmd_list : Nat
  cmd_list_resource : Nat
  VK_MEMORY_PROPERTY_HOST_VISIBLE_BIT : Nat
  VK_MEMORY_PROPERTY_HOST_COHERENT_BIT : Nat
  VK_MEMORY_PROPERTY_DEVICE_LOCAL_BIT : Nat
  VK_BUFFER_USAGE_VERTEX_BUFFER_BIT : Nat
  VK_BUFFER_USAGE_TRANSFER_SRC_BIT : Nat
  VK_BUFFER_USAGE_TRANSFER_DST_BIT : Nat

namespace RHI_VertexBuffer

/-- The destructor `RHI_VertexBuffer::~RHI_VertexBuffer`. -/
def destruct (b : RHI_VertexBuffer) : Result RHI_VertexBuffer Unit :=
  if b.m_rhi_resource ≠ 0 then
    .ok () { b with m_rhi_resource := 0 } [Call.AddToDeletionQueue_buffer b.m_rhi_resource]
  else
    .ok () b []

/-- The method `RHI_VertexBuffer::_create`; `vertices` is the source pointer, 0 for null. -/
def _create (device : BufferDevice) (vertices : Nat) (b : RHI_VertexBuffer) :
    Result RHI_VertexBuffer Unit :=
  let c1 := if b.m_rhi_resource ≠ 0 then [Call.AddToDeletionQueue_buffer b.m_rhi_resource] else []
  let b1 := if b.m_rhi_resource ≠ 0 then { b with m_rhi_resource := 0 } else b
  let b2 := { b1 with m_is_mappable := decide (vertices = 0) }
  if b2.m_is_mappable = true then
    let flags := device.VK_MEMORY_PROPERTY_HOST_VISIBLE_BIT
    let c2 := [Call.CreateBuffer b2.m_object_size_gpu device.VK_BUFFER_USAGE_VERTEX_BUFFER_BIT flags 0]
    let b3 := { b2 with m_rhi_resource := device.created_buffer }
    let c3 := [Call.GetMappedDataFromBuffer b3.m_rhi_resource]
    let b4 := { b3 with m_mapped_data := device.mapped_data b3.m_rhi_resource }
    .ok () b4 (c1 ++ c2 ++ c3 ++ [Call.set_object_name b4.m_rhi_resource b4.m_name])
  else
    let staging_flags :=
      device.VK_MEMORY_PROPERTY_HOST_VISIBLE_BIT ||| device.VK_MEMORY_PROPERTY_HOST_COHERENT_BIT
    let c2 := [Call.CreateBuffer b2.m_object_size_gpu device.VK_BUFFER_USAGE_TRANSFER_SRC_BIT
      staging_flags vertices]
    let staging_buffer := device.created_staging
    let usage :=
      device.VK_BUFFER_USAGE_TRANSFER_DST_BIT ||| device.VK_BUFFER_USAGE_VERTEX_BUFFER_BIT
    let c3 := [Call.CreateBuffer b2.m_object_size_gpu usage
      device.VK_MEMORY_PROPERTY_DEVICE_LOCAL_BIT 0]
    let b3 := { b2 with m_rhi_resource := device.created_buffer }
    let c4 := [Call.ImmediateBegin_Copy]
    if device.immediate_cmd_list = 0 then
      .undefined b3 (c1 ++ c2 ++ c3 ++ c4)
    else
      let c5 := [Call.vkCmdCopyBuffer device.cmd_list_resource staging_buffer b3.m_rhi_resource
        b3.m_object_size_gpu]
      let c6 := [Call.ImmediateSubmit device.immediate_cmd_list]
      let c7 := [Call.DestroyBuffer staging_buffer]
      .ok () b3 (c1 ++ c2 ++ c3 ++ c4 ++ c5 ++ c6 ++ c7 ++
        [Call.set_object_name b3.m_rhi_resource b3.m_name])

/-- The method `RHI_VertexBuffer::Map`: the pointer returned; no field is written. -/
def Map (b : RHI_VertexBuffer) : Result RHI_VertexBuffer Nat :=
  .ok b.m_mapped_data b []

/-- The method `RHI_VertexBuffer::Unmap`, a no-op. -/
def Unmap (b : RHI_VertexBuffer) : Result RHI_VertexBuffer Unit :=
  .ok () b []

end RHI_VertexBuffer

/-! ## Descriptors -/

/-- The descriptor types; the two named ones are those `RHI_Descriptor.h` mentions. -/
inductive RHI_Descriptor_Type where
  | Undefined
  | TextureStorage
  | Other (tag : Nat)
  deriving DecidableEq, Repr

/-- The fields of `RHI_Descriptor`, in the order the struct declares them. -/
structure RHI_Descriptor where
  type : RHI_Descriptor_Type
  slot : Nat
  stage : Nat
  array_size : Nat
  dynamic_offset : Nat
  range : Nat
  mip : Nat
  mip_range : Nat
  data : Nat
  layout : RHI_Image_Layout
  name : String
  deriving DecidableEq, Repr

namespace RHI_Descriptor

/-- The constructor `RHI_Descriptor() = default`: every field takes its default
member initialiser. -/
def construct_default : RHI_Descriptor :=
  { type := RHI_Descriptor_Type.Undefined, slot := 0, stage := 0, array_size := 0,
    dynamic_offset := 0, range := 0, mip := 0, mip_range := 0, data := 0,
    layout := RHI_Image_Layout.Undefined, name := "" }

/-- The constructor `RHI_Descriptor(const RHI_Descriptor&)`: it has no initialiser
list, so the fields start from their default member initialisers and the body
assigns seven of them. -/
def construct_copy (descriptor : RHI_Descriptor) : RHI_Descriptor :=
  let d0 := construct_default
  let d1 := { d0 with type := descriptor.type }
  let d2 := { d1 with layout := descriptor.layout }
  let d3 := { d2 with slot := descriptor.slot }
  let d4 := { d3 with stage := descriptor.stage }
  let d5 := { d4 with name := descriptor.name }
  let d6 := { d5 with mip := descriptor.mip }
  { d6 with array_size := descriptor.array_size }

/-- The method `RHI_Descriptor::ComputeHash`. `rhi_hash_combine` and the numeric
values of the enumerators (`type_value`, the `static_cast<uint64_t>` of a
descriptor type) are declared in `RHI_Definition.h`, a header outside this
unit, and are parameters. -/
def ComputeHash (rhi_hash_combine : Nat → Nat → Nat) (type_value : RHI_Descriptor_Type → Nat)
    (d : RHI_Descriptor) : Nat :=
  let hash0 := 0
  let hash1 := rhi_hash_combine hash0 (type_value d.type)
  let hash2 := rhi_hash_combine hash1 d.slot
  let hash3 := rhi_hash_combine hash2 d.stage
  rhi_hash_combine hash3 d.array_size

/-- The method `RHI_Descriptor::IsStorage`. -/
def IsStorage (d : RHI_Descriptor) : Bool :=
  decide (d.type = RHI_Descriptor_Type.TextureStorage)

/-- The method `RHI_Descriptor::IsArray`. -/
def IsArray (d : RHI_Descriptor) : Bool :=
  decide (d.array_size > 0)

end RHI_Descriptor

/-! ## The display-mode list -/

/-- The record `DisplayMode` of `Display.h`, a header outside this unit, by the
four fields `RegisterDisplayMode` compares; its constructor is handed the same
four values, in this order, and stores them. -/
structure DisplayMode where
  width : Nat
  height : Nat
  hz : Nat
  display_index : Nat
  deriving DecidableEq, Repr

/-- The early-exit loop of `RegisterDisplayMode`: is there a registered mode equal
to the given one in all four fields. -/
def is_registered (width height hz display_index : Nat) : List DisplayMode → Bool
  | [] => false
  | display_mode :: rest =>
    if display_mode.width = width ∧ display_mode.height = height ∧ display_mode.hz = hz ∧
        display_mode.display_index = display_index then true
    else is_registered width height hz display_index rest

/-- What `RegisterDisplayMode` is answered from outside `Display.cpp`.
`sort` is `std::sort` with the comparator `a.width > b.width`;
`refresh_rate_first` and `refresh_rate_second` are what the two calls of
`GetRefreshRate` find (`none` when `SDL_GetCurrentDisplayMode` reports an
error, which fails the assertion of `GetRefreshRate`); `exceeds_fps_limit`
is the outcome of comparing a refresh rate with `Timer::GetFpsLimit()`. -/
structure DisplayEnvironment where
  sort : List DisplayMode → List DisplayMode
  refresh_rate_first : Option Nat
  refresh_rate_second : Option Nat
  exceeds_fps_limit : Nat → Bool

/-- The function `Display::RegisterDisplayMode`, on the file-static list `display_modes`. -/
def RegisterDisplayMode (env : DisplayEnvironment) (width height hz display_index : Nat)
    (display_modes : List DisplayMode) : Result (List DisplayMode) Unit :=
  if width = 0 then .assert_failed "width can't be zero" display_modes []
  else if height = 0 then .assert_failed "height can't be zero" display_modes []
  else if hz = 0 then .assert_failed "hz can't be zero" display_modes []
  else if is_registered width height hz display_index display_modes = true then
    .ok () display_modes []
  else
    let display_modes1 := display_modes ++ [DisplayMode.mk width height hz display_index]
    let display_modes2 := env.sort display_modes1
    match env.refresh_rate_first with
    | none =>
      .assert_failed "SDL_GetCurrentDisplayMode(GetIndex(), &display_mode) == 0" display_modes2 []
    | some refresh_rate =>
      if env.exceeds_fps_limit refresh_rate = true then
        match env.refresh_rate_second with
        | none =>
          .assert_failed "SDL_GetCurrentDisplayMode(GetIndex(), &display_mode) == 0"
            display_modes2 []
        | some fps_limit => .ok () display_modes2 [Call.Timer_SetFpsLimit fps_limit]
      else
        .ok () display_modes2 []

/-! ## The editor's combo box -/

/-- The loop of `combo_box` over the options: `remaining` more iterations from
index `i`. The state is `*selection_index`, the value is `selection_made`;
`clicked i` is what `ImGui::Selectable` returns for entry `i`. -/
def combo_box_loop (options : List String) (clicked : Nat → Bool) :
    Nat → Nat → Bool → Nat → Result Nat Bool
  | 0, _, selection_made, selection_index => .ok selection_made selection_index []
  | remaining + 1, i, selection_made, selection_index =>
    match options.get? i with
    | none => .undefined selection_index []
    | some option =>
      let is_selected := decide (selection_index = i)
      let c1 := [Call.ImGui_Selectable option is_selected]
      let selection_index1 := if clicked i = true then i else selection_index
      let selection_made1 := if clicked i = true then true else selection_made
      let c2 := if is_selected = true then [Call.ImGui_SetItemDefaultFocus] else []
      (combo_box_loop options clicked remaining (i + 1) selection_made1 selection_index1).after
        (c1 ++ c2)

/-- The function `ImGui_SP::combo_box`. The state is `*selection_index`;
`combo_open` is what `ImGui::BeginCombo` returns. The option count is the size
of the vector cast to `uint32_t`, and the clamp subtracts in `uint32_t`. -/
def combo_box (combo_open : Bool) (clicked : Nat → Bool) (label : String) (options : List String)
    (selection_index : Nat) : Result Nat Bool :=
  let option_count := options.length % 2 ^ 32
  let selection_index1 :=
    if selection_index ≥ option_count then (option_count + 2 ^ 32 - 1) % 2 ^ 32
    else selection_index
  match options.get? selection_index1 with
  | none => .undefined selection_index1 []
  | some selection_string =>
    let c1 := [Call.ImGui_BeginCombo label selection_string]
    if combo_open = true then
      ((combo_box_loop options clicked (options.length % 2 ^ 32) 0 false selection_index1).after
        c1).andThen fun selection_made selection_index2 =>
          .ok selection_made selection_index2 [Call.ImGui_EndCombo]
    else
      .ok false selection_index1 c1

/-! ## Predicates used in the statements -/

/-- The four preconditions that `Present` asserts, read on the state before the call. -/
def Present_preconditions (s : RHI_SwapChain) : Prop :=
  s.m_rhi_resource ≠ 0 ∧ s.m_present_enabled = true ∧
  s.m_image_index ≠ s.m_image_index_previous ∧
  s.m_layouts.get? s.m_image_index = some RHI_Image_Layout.Present_Src

/-- The run got as far as calling `QueuePresent`. -/
def reaches_QueuePresent (r : Result RHI_SwapChain Unit) : Prop :=
  ∃ swapchain image_index wait, Call.QueuePresent swapchain image_index wait ∈ r.calls

/-- The wait list as the specification words it: the acquire semaphore, then the
"processed" semaphore of every pool that targets this swapchain and whose
semaphore is `Submitted`, in pool order. -/
def specified_wait_semaphores (s : RHI_SwapChain) (acquire_semaphore : Option RHI_Semaphore)
    (cmd_pools : List RHI_CommandPool) : List (Option RHI_Semaphore) :=
  acquire_semaphore ::
    (cmd_pools.filter fun cmd_pool =>
      decide (s.m_object_id = cmd_pool.m_swapchain_id) &&
      decide (cmd_pool.semaphore_processed.m_cpu_state = RHI_Sync_State.Submitted)).map
      fun cmd_pool => some cmd_pool.semaphore_processed

/-- The call is an image acquire. -/
def Call.is_acquire : Call → Bool
  | Call.vkAcquireNextImageKHR _ _ => true
  | _ => false

/-- No call in the list is an image acquire. -/
def no_acquire (calls : List Call) : Prop := ∀ call ∈ calls, call.is_acquire = false

/-- Consecutive calls of `AcquireNextImage` with nothing in between, the driver
answering each with success and the listed image index. -/
def acquire_repeatedly : List Nat → RHI_SwapChain → Result RHI_SwapChain Unit
  | [], s => .ok () s []
  | image_index :: rest, s =>
    (s.AcquireNextImage (some image_index)).andThen fun _ s1 => acquire_repeatedly rest s1

/-- The first `n` acquire slots hold semaphores, all in cpu state `state`. -/
def acquire_semaphores_all (state : RHI_Sync_State) (n : Nat) (s : RHI_SwapChain) : Prop :=
  ∀ j, j < n → ∃ sem, s.m_acquire_semaphore.get? j = some (some sem) ∧ sem.m_cpu_state = state

/-- A run of `AcquireNextImage` calls on a swapchain with `n` buffers, each of
which returns after one acquire. Each step lists the state before the call,
the index the driver answers and the state after; between two calls anything
may happen to the swapchain (a present, a layout change) except a change of
`m_sync_index`, which only `AcquireNextImage` writes. `sync_index` is the
value of `m_sync_index` before the first call. -/
def acquire_run (n : Nat) : Nat → List (RHI_SwapChain × Nat × RHI_SwapChain) → Prop
  | _, [] => True
  | sync_index, (before, image_index, after) :: rest =>
    before.m_buffer_count = n ∧ before.m_sync_index = sync_index ∧
    (∃ call, before.AcquireNextImage (some image_index) = .ok () after [call]) ∧
    acquire_run n after.m_sync_index rest

/-- The platform lets `create` run to its end on swapchain `s`: the window is
there, every driver call reports success, the format check passes, and the
image count and the buffer count fit the per-slot arrays. It reads only
`m_sdl_window`, `m_format` and `m_buffer_count` of `s`. -/
def Driver.cooperates (driver : Driver) (s : RHI_SwapChain) : Prop :=
  s.m_sdl_window ≠ 0 ∧
  driver.created_surface.isSome = true ∧
  driver.surface_support = some true ∧
  driver.surface_format_count_ok = true ∧
  (∃ supported_formats, driver.surface_formats = some supported_formats ∧
    (is_format_supported driver.vulkan_format driver.IsNvidia s.m_format
      (get_color_space s.IsHdr) supported_formats).1 = true) ∧
  driver.created_swapchain.isSome = true ∧
  driver.swapchain_images.length ≤ max_buffer_count ∧
  s.m_buffer_count ≤ max_buffer_count ∧
  ∀ i, i < s.m_buffer_count → (driver.created_semaphore i).isSome = true

/-- The preferred mode of `get_present_mode` as a priority list: the flag that is
tested last wins. -/
def present_mode_by_priority (bits : RHI_Present_Mode) (flags : Nat) : VkPresentModeKHR :=
  if flags &&& bits.RHI_Present_SharedDContinuousRefresh ≠ 0 then
    VkPresentModeKHR.VK_PRESENT_MODE_SHARED_CONTINUOUS_REFRESH_KHR
  else if flags &&& bits.RHI_Present_SharedDemandRefresh ≠ 0 then
    VkPresentModeKHR.VK_PRESENT_MODE_SHARED_DEMAND_REFRESH_KHR
  else if flags &&& bits.RHI_Present_FifoRelaxed ≠ 0 then
    VkPresentModeKHR.VK_PRESENT_MODE_FIFO_RELAXED_KHR
  else if flags &&& bits.RHI_Present_Fifo ≠ 0 then
    VkPresentModeKHR.VK_PRESENT_MODE_MAILBOX_KHR
  else if flags &&& bits.RHI_Present_Immediate ≠ 0 then
    VkPresentModeKHR.VK_PRESENT_MODE_IMMEDIATE_KHR
  else
    VkPresentModeKHR.VK_PRESENT_MODE_FIFO_KHR

/-- The present mode as the specification words it: the first of Immediate,
Mailbox, Fifo-relaxed that is both requested by the flags and supported by the
surface, and Fifo when there is none. The flag that requests Mailbox is the
one the code maps to it, `RHI_Present_Fifo`. -/
def specified_present_mode (bits : RHI_Present_Mode) (surface_present_modes : List VkPresentModeKHR)
    (flags : Nat) : VkPresentModeKHR :=
  if flags &&& bits.RHI_Present_Immediate ≠ 0 ∧
      VkPresentModeKHR.VK_PRESENT_MODE_IMMEDIATE_KHR ∈ surface_present_modes then
    VkPresentModeKHR.VK_PRESENT_MODE_IMMEDIATE_KHR
  else if flags &&& bits.RHI_Present_Fifo ≠ 0 ∧
      VkPresentModeKHR.VK_PRESENT_MODE_MAILBOX_KHR ∈ surface_present_modes then
    VkPresentModeKHR.VK_PRESENT_MODE_MAILBOX_KHR
  else if flags &&& bits.RHI_Present_FifoRelaxed ≠ 0 ∧
      VkPresentModeKHR.VK_PRESENT_MODE_FIFO_RELAXED_KHR ∈ surface_present_modes then
    VkPresentModeKHR.VK_PRESENT_MODE_FIFO_RELAXED_KHR
  else
    VkPresentModeKHR.VK_PRESENT_MODE_FIFO_KHR

/-- The format `SetHdr` aims at: the ten-bit format when HDR is switched on, the
eight-bit one when it is switched off. -/
def hdr_target_format (enabled : Bool) : RHI_Format :=
  if enabled = true then RHI_Format.RHI_Format_R10G10B10A2_Unorm
  else RHI_Format.RHI_Format_R8G8B8A8_Unorm

/-- The calls with which `_create` and the destructor of a vertex buffer retire
the backing buffer they find: one enqueue when there is one, nothing otherwise. -/
def retire_backing_buffer (b : RHI_VertexBuffer) : List Call :=
  if b.m_rhi_resource ≠ 0 then [Call.AddToDeletionQueue_buffer b.m_rhi_resource] else []

/-- Calls of `Reset` in a row, the driver answering each `vkCreateSemaphore` with
the listed answer. -/
def reset_repeatedly : List (Option Nat) → RHI_Semaphore → Result RHI_Semaphore Unit
  | [], sem => .ok () sem []
  | created :: rest, sem => (sem.Reset created).andThen fun _ sem1 => reset_repeatedly rest sem1

/-- Two display modes agree on width, height, refresh rate and display index. -/
def DisplayMode.agrees (a b : DisplayMode) : Prop :=
  a.width = b.width ∧ a.height = b.height ∧ a.hz = b.hz ∧ a.display_index = b.display_index

/-- No two entries of the list agree on (width, height, hz, display_index). -/
def display_modes_distinct (display_modes : List DisplayMode) : Prop :=
  display_modes.Pairwise fun a b => ¬ a.agrees b

/-- The widths are in non-increasing order. -/
def widths_descending (display_modes : List DisplayMode) : Prop :=
  display_modes.Pairwise fun a b => a.width ≥ b.width

/-- What the C++ standard promises of `std::sort` with the comparator
`a.width > b.width`: the result is a rearrangement of the input, and the
comparator never puts a later element before an earlier one. -/
def std_sort_contract (sort : List DisplayMode → List DisplayMode) : Prop :=
  ∀ l, (sort l).Perm l ∧ (sort l).Pairwise fun a b => ¬ (b.width > a.width)

/-- One call of `RegisterDisplayMode`: its four arguments and what it is answered. -/
structure RegisterDisplayMode_call where
  env : DisplayEnvironment
  width : Nat
  height : Nat
  hz : Nat
  display_index : Nat

/-- Calls of `RegisterDisplayMode` in a row; a failed assertion ends the run. -/
def register_repeatedly :
    List RegisterDisplayMode_call → List DisplayMode → Result (List DisplayMode) Unit
  | [], display_modes => .ok () display_modes []
  | call :: rest, display_modes =>
    (RegisterDisplayMode call.env call.width call.height call.hz call.display_index
      display_modes).andThen fun _ display_modes1 => register_repeatedly rest display_modes1

/-- The call destroys a native object: a semaphore, a swapchain or a surface. -/
def Call.is_native_destroy : Call → Bool
  | Call.vkDestroySemaphore _ => true
  | Call.vkDestroySwapchainKHR _ => true
  | Call.vkDestroySurfaceKHR _ => true
  | _ => false

/-- The call retires a resource of the chain: it destroys a native object or puts
an image view on the deletion queue. -/
def Call.retires : Call → Bool
  | Call.AddToDeletionQueue_texture_view _ => true
  | call => call.is_native_destroy

/-- The call creates a resource of the chain: a surface, a swapchain, an image
view or a semaphore. -/
def Call.creates : Call → Bool
  | Call.SDL_Vulkan_CreateSurface _ => true
  | Call.vkCreateSwapchainKHR _ _ _ _ _ _ _ => true
  | Call.image_view_create _ _ => true
  | Call.vkCreateSemaphore _ => true
  | _ => false

/-- Every call of the list that satisfies `p` has a `QueueWaitAll` somewhere
before it in the list. -/
def waits_before (p : Call → Bool) (calls : List Call) : Prop :=
  ∀ pre call post, calls = pre ++ call :: post → p call = true → Call.QueueWaitAll ∈ pre

/-- No call of the list that retires a resource comes after one that creates one. -/
def retired_before_created (calls : List Call) : Prop :=
  ∀ pre call post, calls = pre ++ call :: post → call.creates = true →
    ∀ later ∈ post, later.retires = false

/-- One of the acquire slots holds a semaphore whose native handle is not null. -/
def holds_live_semaphore (s : RHI_SwapChain) : Prop :=
  ∃ sem, some sem ∈ s.m_acquire_semaphore.toList ∧ sem.m_resource ≠ 0

/-- One of the image-view slots holds a view. -/
def holds_image_view (s : RHI_SwapChain) : Prop :=
  ∃ image_view ∈ s.m_rhi_backbuffer_srv.toList, image_view ≠ 0

/-- The driver never reports success with a null semaphore handle: a successful
`vkCreateSemaphore` hands out a valid handle, and `VK_NULL_HANDLE` is not one. -/
def Driver.conformant (driver : Driver) : Prop :=
  ∀ i handle, driver.created_semaphore i = some handle → handle ≠ 0

/-- The swapchain states a program can reach through the public operations: an
object comes from the constructor, on its valid path or (when the member
initialisers leave no image view) on its early return, and is then handed to
`Resize`, `SetHdr`, `AcquireNextImage`, `Present` and `SetLayout`, each of
which has to return before the next is called. The drivers are conformant. -/
inductive reachable : RHI_SwapChain → Prop
  | construct (device : RHI_Device) (driver : Driver) (acquired : Option Nat)
      (sdl_window width height : Nat) (format : RHI_Format) (buffer_count flags : Nat)
      (name : String) (fresh s : RHI_SwapChain) (calls : List Call) :
      driver.conformant → device.IsValidResolution width height = true →
      RHI_SwapChain.construct device driver acquired sdl_window width height format buffer_count
        flags name fresh = .ok () s calls →
      reachable s
  | construct_invalid (device : RHI_Device) (driver : Driver) (acquired : Option Nat)
      (sdl_window width height : Nat) (format : RHI_Format) (buffer_count flags : Nat)
      (name : String) (fresh s : RHI_SwapChain) (calls : List Call) :
      device.IsValidResolution width height = false → ¬ holds_image_view fresh →
      RHI_SwapChain.construct device driver acquired sdl_window width height format buffer_count
        flags name fresh = .ok () s calls →
      reachable s
  | Resize (device : RHI_Device) (driver : Driver) (acquired : Option Nat)
      (width height : Nat) (force : Bool) (s s' : RHI_SwapChain) (resized : Bool)
      (calls : List Call) :
      reachable s → driver.conformant →
      RHI_SwapChain.Resize device driver acquired width height force s = .ok resized s' calls →
      reachable s'
  | SetHdr (display_hdr : Bool) (device : RHI_Device) (driver : Driver)
      (acquired : Option Nat) (enabled : Bool) (s s' : RHI_SwapChain) (calls : List Call) :
      reachable s → driver.conformant →
      RHI_SwapChain.SetHdr display_hdr device driver acquired enabled s = .ok () s' calls →
      reachable s'
  | AcquireNextImage (acquired : Option Nat) (s s' : RHI_SwapChain) (calls : List Call) :
      reachable s → RHI_SwapChain.AcquireNextImage acquired s = .ok () s' calls → reachable s'
  | Present (device : RHI_Device) (cmd_pools : List RHI_CommandPool) (acquired : Option Nat)
      (s s' : RHI_SwapChain) (calls : List Call) :
      reachable s → RHI_SwapChain.Present device cmd_pools acquired s = .ok () s' calls →
      reachable s'
  | SetLayout (layout : RHI_Image_Layout) (cmd_list : Nat) (s s' : RHI_SwapChain)
      (calls : List Call) :
      reachable s → RHI_SwapChain.SetLayout layout cmd_list s = .ok () s' calls → reachable s'

/-- The calls hold the retirement of every resource the swapchain holds: the
native destroy of each acquire semaphore with a non-null handle, the enqueue of
each image view on the deletion queue, and the native destroy of the swapchain
and of the surface. -/
def retires_resources_of (s : RHI_SwapChain) (calls : List Call) : Prop :=
  (∀ sem, some sem ∈ s.m_acquire_semaphore.toList → sem.m_resource ≠ 0 →
    Call.vkDestroySemaphore sem.m_resource ∈ calls) ∧
  (∀ image_view ∈ s.m_rhi_backbuffer_srv.toList, image_view ≠ 0 →
    Call.AddToDeletionQueue_texture_view image_view ∈ calls) ∧
  (s.m_rhi_resource ≠ 0 → Call.vkDestroySwapchainKHR s.m_rhi_resource ∈ calls) ∧
  (s.m_surface ≠ 0 → Call.vkDestroySurfaceKHR s.m_surface ∈ calls)

/-! ## Example values -/

/-- A device that accepts every resolution with a non-zero area and whose
`QueuePresent` leaves the waited semaphores `Idle`. -/
def example_device : RHI_Device :=
  { IsValidResolution := fun width height => decide (0 < width ∧ 0 < height)
    QueuePresent_cpu_state := fun _ => RHI_Sync_State.Idle }

/-- A binary semaphore with handle `handle` in cpu state `state`. -/
def example_semaphore (handle : Nat) (state : RHI_Sync_State) : RHI_Semaphore :=
  { m_resource := handle, m_is_timeline := false, m_cpu_state := state, m_name := "" }

/-- A single-buffered swapchain whose only image (index 0) is acquired and in the
presentable layout. -/
def example_single_buffered : RHI_SwapChain :=
  { m_object_id := 7, m_name := "swapchain", m_sdl_window := 1, m_surface := 2,
    m_rhi_resource := 3, m_present_enabled := true, m_buffer_count := 1,
    m_width := 800, m_height := 600, m_flags := 0,
    m_format := RHI_Format.RHI_Format_R8G8B8A8_Unorm,
    m_sync_index := 0, m_image_index := 0, m_image_index_previous := uint32_max,
    m_layouts := ⟨RHI_Image_Layout.Present_Src, RHI_Image_Layout.Undefined,
      RHI_Image_Layout.Undefined⟩,
    m_rhi_backbuffer_resource := ⟨10, 0, 0⟩, m_rhi_backbuffer_srv := ⟨20, 0, 0⟩,
    m_acquire_semaphore := ⟨some (example_semaphore 30 RHI_Sync_State.Submitted), none, none⟩,
    m_wait_semaphores := [] }

/-- A freshly created triple-buffered swapchain: three idle acquire semaphores,
nothing acquired yet, every image in the attachment layout. -/
def example_triple_buffered : RHI_SwapChain :=
  { m_object_id := 7, m_name := "swapchain", m_sdl_window := 1, m_surface := 2,
    m_rhi_resource := 3, m_present_enabled := true, m_buffer_count := 3,
    m_width := 800, m_height := 600, m_flags := 0,
    m_format := RHI_Format.RHI_Format_R8G8B8A8_Unorm,
    m_sync_index := uint32_max, m_image_index := uint32_max,
    m_image_index_previous := uint32_max,
    m_layouts := Slots.fill RHI_Image_Layout.Color_Attachment_Optimal,
    m_rhi_backbuffer_resource := ⟨10, 11, 12⟩, m_rhi_backbuffer_srv := ⟨20, 21, 22⟩,
    m_acquire_semaphore := ⟨some (example_semaphore 30 RHI_Sync_State.Idle),
      some (example_semaphore 31 RHI_Sync_State.Idle),
      some (example_semaphore 32 RHI_Sync_State.Idle)⟩,
    m_wait_semaphores := [] }

/-- A freshly created single-buffered swapchain: one idle acquire semaphore and
nothing acquired yet. -/
def example_single_fresh : RHI_SwapChain :=
  { example_single_buffered with
    m_sync_index := uint32_max, m_image_index := uint32_max,
    m_layouts := Slots.fill RHI_Image_Layout.Color_Attachment_Optimal,
    m_acquire_semaphore := ⟨some (example_semaphore 30 RHI_Sync_State.Idle), none, none⟩ }

/-- Three acquires in a row on the fresh triple-buffered example, the driver
answering with the images 0, 1 and 2. -/
def example_run : List (RHI_SwapChain × Nat × RHI_SwapChain) :=
  let s1 := (example_triple_buffered.AcquireNextImage (some 0)).state
  let s2 := (s1.AcquireNextImage (some 1)).state
  let s3 := (s2.AcquireNextImage (some 2)).state
  [(example_triple_buffered, 0, s1), (s1, 1, s2), (s2, 2, s3)]

/-- A driver that answers every call of `create` with success: a surface whose
extent may range from 1x1 to 4096x4096, both eight-bit formats in sRGB, three
images, and handles 100, 101, ... for the new semaphores. -/
def example_driver : Driver :=
  { present_bits := ⟨1, 4, 8, 16, 32⟩
    vulkan_format := fun format =>
      match format with
      | RHI_Format.RHI_Format_R8G8B8A8_Unorm => 37
      | RHI_Format.RHI_Format_B8R8G8A8_Unorm => 44
      | RHI_Format.RHI_Format_R10G10B10A2_Unorm => 64
      | RHI_Format.Other tag => tag
    IsNvidia := false
    created_surface := some 50
    surface_support := some true
    surface_capabilities := ⟨1, 1, 4096, 4096⟩
    surface_format_count_ok := true
    surface_formats := some [⟨44, VkColorSpaceKHR.VK_COLOR_SPACE_SRGB_NONLINEAR_KHR⟩,
      ⟨37, VkColorSpaceKHR.VK_COLOR_SPACE_SRGB_NONLINEAR_KHR⟩]
    surface_present_modes := [VkPresentModeKHR.VK_PRESENT_MODE_FIFO_KHR,
      VkPresentModeKHR.VK_PRESENT_MODE_IMMEDIATE_KHR]
    created_swapchain := some 60
    swapchain_images := [70, 71, 72]
    immediate_cmd_list := 80
    created_image_view := fun image => image + 20
    created_semaphore := fun i => some (100 + i) }

/-- The triple-buffered example after a minimise: same stored extent, presenting
disabled. -/
def example_minimised : RHI_SwapChain :=
  { example_triple_buffered with m_present_enabled := false }

/-- A swapchain object before its constructor body has run: null handles, empty
arrays, the sentinel in the three indices, presenting enabled. -/
def example_fresh : RHI_SwapChain :=
  { m_object_id := 7, m_name := "", m_sdl_window := 0, m_surface := 0,
    m_rhi_resource := 0, m_present_enabled := true, m_buffer_count := 0,
    m_width := 0, m_height := 0, m_flags := 0,
    m_format := RHI_Format.RHI_Format_R8G8B8A8_Unorm,
    m_sync_index := uint32_max, m_image_index := uint32_max,
    m_image_index_previous := uint32_max,
    m_layouts := Slots.fill RHI_Image_Layout.Undefined,
    m_rhi_backbuffer_resource := Slots.fill 0, m_rhi_backbuffer_srv := Slots.fill 0,
    m_acquire_semaphore := Slots.fill none,
    m_wait_semaphores := [] }

/-- The triple-buffered example after its first acquire, the driver having handed
out image 1. -/
def example_acquired : RHI_SwapChain :=
  (example_triple_buffered.AcquireNextImage (some 1)).state

/-- The present-flag bit values used in the examples. -/
def example_present_bits : RHI_Present_Mode := ⟨1, 4, 8, 16, 32⟩

/-- A device service for buffers: the permanent buffer gets handle 200, the
staging buffer 201, a buffer is mapped 1000 above its handle. -/
def example_buffer_device : BufferDevice :=
  { created_buffer := 200, created_staging := 201, mapped_data := fun buffer => buffer + 1000,
    immediate_cmd_list := 80, cmd_list_resource := 81,
    VK_MEMORY_PROPERTY_HOST_VISIBLE_BIT := 2, VK_MEMORY_PROPERTY_HOST_COHERENT_BIT := 4,
    VK_MEMORY_PROPERTY_DEVICE_LOCAL_BIT := 1, VK_BUFFER_USAGE_VERTEX_BUFFER_BIT := 128,
    VK_BUFFER_USAGE_TRANSFER_SRC_BIT := 1, VK_BUFFER_USAGE_TRANSFER_DST_BIT := 2 }

/-- A vertex buffer object on which `_create` has not run yet. -/
def example_vertex_buffer : RHI_VertexBuffer :=
  { m_rhi_resource := 0, m_is_mappable := true, m_mapped_data := 0, m_object_size_gpu := 96,
    m_name := "vertices" }

/-- A vertex buffer that was created without source data: buffer 150, mapped at 1150. -/
def example_mapped_vertex_buffer : RHI_VertexBuffer :=
  { m_rhi_resource := 150, m_is_mappable := true, m_mapped_data := 1150,
    m_object_size_gpu := 96, m_name := "vertices" }

/-- A hash combiner for the examples: multiply by 31 and add, within 64 bits. -/
def example_hash_combine (seed value : Nat) : Nat := (seed * 31 + value) % 2 ^ 64

/-- Enumerator values for the examples. -/
def example_type_value : RHI_Descriptor_Type → Nat
  | RHI_Descriptor_Type.Undefined => 0
  | RHI_Descriptor_Type.TextureStorage => 3
  | RHI_Descriptor_Type.Other tag => tag

/-- A storage-texture descriptor in use: bound data, a range and a dynamic offset. -/
def example_descriptor : RHI_Descriptor :=
  { type := RHI_Descriptor_Type.TextureStorage, slot := 2, stage := 32, array_size := 4,
    dynamic_offset := 256, range := 64, mip := 1, mip_range := 3, data := 9000,
    layout := RHI_Image_Layout.Other 5, name := "tex_uav" }

/-- Another descriptor with the same type, slot, stage and array size, and
everything else different. -/
def example_descriptor_other : RHI_Descriptor :=
  { type := RHI_Descriptor_Type.TextureStorage, slot := 2, stage := 32, array_size := 4,
    dynamic_offset := 0, range := 16, mip := 0, mip_range := 1, data := 0,
    layout := RHI_Image_Layout.Undefined, name := "other" }

/-- An environment for the examples: an insertion sort by descending width, a
display running at 60 Hz, and a frame limit below that. -/
def example_display_environment : DisplayEnvironment :=
  { sort := List.insertionSort fun a b => a.width ≥ b.width
    refresh_rate_first := some 60
    refresh_rate_second := some 60
    exceeds_fps_limit := fun _ => true }

/-- Five registrations, one of them a repetition. -/
def example_registrations : List RegisterDisplayMode_call :=
  [⟨example_display_environment, 1280, 720, 60, 0⟩,
   ⟨example_display_environment, 1920, 1080, 60, 0⟩,
   ⟨example_display_environment, 1280, 720, 60, 0⟩,
   ⟨example_display_environment, 1920, 1080, 144, 0⟩,
   ⟨example_display_environment, 800, 600, 60, 1⟩]

/-- The example platform on an Nvidia device. -/
def example_nvidia_driver : Driver :=
  { example_driver with IsNvidia := true }

/-- The triple-buffered example in HDR mode: the ten-bit format. -/
def example_hdr : RHI_SwapChain :=
  { example_triple_buffered with m_format := RHI_Format.RHI_Format_R10G10B10A2_Unorm }

/-- The example platform with a driver that hands out four images for the chain,
one more than the minimum of three it is asked for. -/
def example_driver_four_images : Driver :=
  { example_driver with swapchain_images := [70, 71, 72, 73] }

/-- The example swapchain as its constructor leaves it: 800x600, three buffers,
image 0 acquired. -/
def example_constructed : RHI_SwapChain :=
  (RHI_SwapChain.construct example_device example_driver (some 0) 1 800 600
    RHI_Format.RHI_Format_R8G8B8A8_Unorm 3 0 "main" example_fresh).state

end Spartan

/-! # Theorems -/

namespace Spartan

open RHI_SwapChain

/-! ## Fixed-capacity arrays: basic facts -/

theorem Slots.get?_eq_some_of_lt {α : Type} (a : Slots α) {i : Nat} (h : i < max_buffer_count) :
    ∃ v, a.get? i = some v := by
  unfold max_buffer_count at h
  interval_cases i <;> simp [Slots.get?]

theorem Slots.lt_of_get?_eq_some {α : Type} {a : Slots α} {i : Nat} {v : α}
    (h : a.get? i = some v) : i < max_buffer_count := by
  unfold max_buffer_count
  by_contra hlt
  have h3 : 3 ≤ i := by omega
  obtain ⟨k, rfl⟩ : ∃ k, i = k + 3 := ⟨i - 3, by omega⟩
  simp [Slots.get?] at h

theorem Slots.get?_set_self {α : Type} (a : Slots α) {i : Nat} (v : α)
    (h : i < max_buffer_count) : (a.set i v).get? i = some v := by
  unfold max_buffer_count at h
  interval_cases i <;> simp [Slots.get?, Slots.set]

theorem Slots.get?_set_of_ne {α : Type} (a : Slots α) {i j : Nat} (v : α) (h : j ≠ i) :
    (a.set i v).get? j = a.get? j := by
  match i, j with
  | 0, 0 => exact absurd rfl h
  | 1, 1 => exact absurd rfl h
  | 2, 2 => exact absurd rfl h
  | 0, 1 | 0, 2 | 1, 0 | 1, 2 | 2, 0 | 2, 1 => simp [Slots.get?, Slots.set]
  | 0, _ + 3 | 1, _ + 3 | 2, _ + 3 => simp [Slots.get?, Slots.set]
  | _ + 3, _ => simp [Slots.set]

/-! ## Results: basic facts -/

@[simp] theorem Result.calls_after {σ α : Type} (pre : List Call) (r : Result σ α) :
    (r.after pre).calls = pre ++ r.calls := by
  cases r <;> rfl

@[simp] theorem Result.state_after {σ α : Type} (pre : List Call) (r : Result σ α) :
    (r.after pre).state = r.state := by
  cases r <;> rfl

@[simp] theorem Result.after_nil {σ α : Type} (r : Result σ α) : r.after [] = r := by
  cases r <;> rfl

/-! ## Present -/

/-- The loop over the command pools appends exactly the selected semaphores. -/
theorem collect_wait_semaphores_eq (object_id : Nat) (cmd_pools : List RHI_CommandPool)
    (wait : List (Option RHI_Semaphore)) :
    collect_wait_semaphores object_id cmd_pools wait =
      wait ++ (cmd_pools.filter fun cmd_pool =>
        decide (object_id = cmd_pool.m_swapchain_id) &&
        decide (cmd_pool.semaphore_processed.m_cpu_state = RHI_Sync_State.Submitted)).map
        fun cmd_pool => some cmd_pool.semaphore_processed := by
  induction cmd_pools generalizing wait with
  | nil => simp [collect_wait_semaphores]
  | cons cmd_pool rest ih =>
    by_cases hid : object_id = cmd_pool.m_swapchain_id
    · subst hid
      by_cases hst : cmd_pool.semaphore_processed.m_cpu_state = RHI_Sync_State.Submitted
      · simp [collect_wait_semaphores, hst, ih]
      · simp [collect_wait_semaphores, hst, ih]
    · simp [collect_wait_semaphores, hid, ih]

/-- With the four preconditions met and the acquire-semaphore subscript in range,
`Present` calls `QueuePresent` with the specified wait list and goes on to acquire. -/
theorem Present_eq_of_preconditions (device : RHI_Device) (cmd_pools : List RHI_CommandPool)
    (acquired : Option Nat) (s : RHI_SwapChain) (acquire_semaphore : Option RHI_Semaphore)
    (hpre : Present_preconditions s)
    (hsem : s.m_acquire_semaphore.get? s.m_sync_index = some acquire_semaphore) :
    Present device cmd_pools acquired s =
      (AcquireNextImage acquired (after_QueuePresent device
        { s with m_wait_semaphores := specified_wait_semaphores s acquire_semaphore cmd_pools })).after
        [Call.QueuePresent s.m_rhi_resource s.m_image_index
          (specified_wait_semaphores s acquire_semaphore cmd_pools)] := by
  obtain ⟨h1, h2, h3, h4⟩ := hpre
  simp [Present, h1, h2, h3, h4, hsem, collect_wait_semaphores_eq, specified_wait_semaphores]

/-- If `Present` got past its four assertions, the preconditions held. -/
theorem Present_preconditions_of_calls (device : RHI_Device) (cmd_pools : List RHI_CommandPool)
    (acquired : Option Nat) (s : RHI_SwapChain)
    (h : (Present device cmd_pools acquired s).calls ≠ []) : Present_preconditions s := by
  unfold Present at h
  unfold Present_preconditions
  split_ifs at h with h1 h2 h3
  · simp [Result.calls] at h
  · simp [Result.calls] at h
  · simp [Result.calls] at h
  · split at h
    · simp [Result.calls] at h
    · rename_i layout hl
      split_ifs at h with h4
      · simp [Result.calls] at h
      · simp only [ne_eq, Decidable.not_not] at h4
        subst h4
        refine ⟨h1, ?_, h3, hl⟩
        simpa using h2

/-- The single-buffer early return of `AcquireNextImage`. -/
theorem AcquireNextImage_early_return (acquired : Option Nat) (s : RHI_SwapChain)
    (hen : s.m_present_enabled = true) (hn : s.m_buffer_count = 1)
    (hidx : s.m_image_index ≠ uint32_max) :
    AcquireNextImage acquired s = .ok () s [] := by
  simp [AcquireNextImage, hen, hn, hidx]

/-- The acquiring path of `AcquireNextImage`, with the state it returns. -/
theorem AcquireNextImage_eq_of_idle (image_index : Nat) (s : RHI_SwapChain) (sem : RHI_Semaphore)
    (hen : s.m_present_enabled = true)
    (hpath : ¬ (s.m_buffer_count = 1 ∧ s.m_image_index ≠ uint32_max))
    (hn : s.m_buffer_count ≠ 0)
    (hsem : s.m_acquire_semaphore.get? s.next_sync_index = some (some sem))
    (hidle : sem.m_cpu_state ≠ RHI_Sync_State.Submitted) :
    AcquireNextImage (some image_index) s =
      .ok () { s with
               m_sync_index := s.next_sync_index
               m_image_index_previous := s.m_image_index
               m_image_index := image_index
               m_acquire_semaphore := s.m_acquire_semaphore.set s.next_sync_index
                 (some (sem.SetCpuState RHI_Sync_State.Submitted)) }
        [Call.vkAcquireNextImageKHR s.m_rhi_resource sem.m_resource] := by
  unfold AcquireNextImage
  rw [if_neg (by simp [hen]), if_neg hpath, if_neg hn]
  simp only [hsem]
  rw [if_neg hidle]

/-- The two ways in which `AcquireNextImage` returns: the early return, which
calls nothing and changes nothing, or one acquire on the rotated semaphore. -/
theorem AcquireNextImage_ok_cases (acquired : Option Nat) (s s' : RHI_SwapChain)
    (calls : List Call) (h : AcquireNextImage acquired s = .ok () s' calls) :
    (s.m_buffer_count = 1 ∧ s.m_image_index ≠ uint32_max ∧ s' = s ∧ calls = []) ∨
    (∃ sem image_index, acquired = some image_index ∧ s.m_buffer_count ≠ 0 ∧
      ¬ (s.m_buffer_count = 1 ∧ s.m_image_index ≠ uint32_max) ∧
      s.m_present_enabled = true ∧
      s.m_acquire_semaphore.get? s.next_sync_index = some (some sem) ∧
      sem.m_cpu_state ≠ RHI_Sync_State.Submitted ∧
      calls = [Call.vkAcquireNextImageKHR s.m_rhi_resource sem.m_resource]) := by
  by_cases h1 : s.m_present_enabled = false
  · simp [AcquireNextImage, h1] at h
  by_cases h2 : s.m_buffer_count = 1 ∧ s.m_image_index ≠ uint32_max
  · left
    rw [AcquireNextImage_early_return acquired s (by simpa using h1) h2.1 h2.2] at h
    simp only [Result.ok.injEq, true_and] at h
    exact ⟨h2.1, h2.2, h.1.symm, h.2.symm⟩
  right
  by_cases h3 : s.m_buffer_count = 0
  · simp [AcquireNextImage, h1, h2, h3] at h
  unfold AcquireNextImage at h
  rw [if_neg h1, if_neg h2, if_neg h3] at h
  cases hsem : s.m_acquire_semaphore.get? s.next_sync_index with
  | none => simp [hsem] at h
  | some p =>
    cases p with
    | none => simp [hsem] at h
    | some sem =>
      by_cases h4 : sem.m_cpu_state = RHI_Sync_State.Submitted
      · simp [hsem, h4] at h
      cases acquired with
      | none => simp [hsem, h4] at h
      | some image_index =>
        simp only [hsem, if_neg h4, Result.ok.injEq, true_and] at h
        exact ⟨sem, image_index, rfl, h3, h2, by simpa using h1, rfl, h4, h.2.symm⟩

/-- The messages with which `AcquireNextImage` can fail. -/
theorem AcquireNextImage_assert_messages (acquired : Option Nat) (s st : RHI_SwapChain)
    (msg : String) (calls : List Call)
    (h : AcquireNextImage acquired s = .assert_failed msg st calls) :
    msg = "No need to acquire next image when presenting is disabled" ∨
    msg = "The semaphore is already signaled" ∨ msg = "Failed to acquire next image" := by
  unfold AcquireNextImage at h
  by_cases h1 : s.m_present_enabled = false
  · rw [if_pos h1] at h
    simp only [Result.assert_failed.injEq] at h
    exact Or.inl h.1.symm
  by_cases h2 : s.m_buffer_count = 1 ∧ s.m_image_index ≠ uint32_max
  · rw [if_neg h1, if_pos h2] at h
    exact absurd h (by simp)
  by_cases h3 : s.m_buffer_count = 0
  · rw [if_neg h1, if_neg h2, if_pos h3] at h
    exact absurd h (by simp)
  rw [if_neg h1, if_neg h2, if_neg h3] at h
  cases hsem : s.m_acquire_semaphore.get? s.next_sync_index with
  | none => simp [hsem] at h
  | some p =>
    cases p with
    | none => simp [hsem] at h
    | some sem =>
      by_cases h4 : sem.m_cpu_state = RHI_Sync_State.Submitted
      · simp only [hsem, if_pos h4, Result.assert_failed.injEq] at h
        exact Or.inr (Or.inl h.1.symm)
      cases acquired with
      | none =>
        simp only [hsem, if_neg h4, Result.assert_failed.injEq] at h
        exact Or.inr (Or.inr h.1.symm)
      | some image_index => simp [hsem, h4] at h

/-- A `Present` that does not stop at one of its first four assertions had its
preconditions met. -/
theorem Present_cases (device : RHI_Device) (cmd_pools : List RHI_CommandPool)
    (acquired : Option Nat) (s : RHI_SwapChain) :
    (∃ msg, Present device cmd_pools acquired s = .assert_failed msg s [] ∧
      msg ≠ "Present() should wait on at least one semaphore") ∨
    (∃ st, Present device cmd_pools acquired s = .undefined st []) ∨
    (Present_preconditions s ∧ ∃ a, s.m_acquire_semaphore.get? s.m_sync_index = some a) := by
  unfold Present
  by_cases h1 : s.m_rhi_resource = 0
  · rw [if_pos h1]
    exact Or.inl ⟨_, rfl, by decide⟩
  by_cases h2 : s.m_present_enabled = false
  · rw [if_neg h1, if_pos h2]
    exact Or.inl ⟨_, rfl, by decide⟩
  by_cases h3 : s.m_image_index = s.m_image_index_previous
  · rw [if_neg h1, if_neg h2, if_pos h3]
    exact Or.inl ⟨_, rfl, by decide⟩
  rw [if_neg h1, if_neg h2, if_neg h3]
  cases hl : s.m_layouts.get? s.m_image_index with
  | none => exact Or.inr (Or.inl ⟨_, rfl⟩)
  | some layout =>
    by_cases h4 : layout ≠ RHI_Image_Layout.Present_Src
    · simp only [if_pos h4]
      exact Or.inl ⟨_, rfl, by decide⟩
    simp only [ne_eq, Decidable.not_not] at h4
    subst h4
    cases ha : s.m_acquire_semaphore.get? s.m_sync_index with
    | none =>
      refine Or.inr (Or.inl ⟨{ s with m_wait_semaphores := [] }, ?_⟩)
      simp
    | some a => exact Or.inr (Or.inr ⟨⟨h1, by simpa using h2, h3, hl⟩, a, rfl⟩)

/-- A `Present` that returns had its preconditions met and a readable acquire slot. -/
theorem Present_ok_inv (device : RHI_Device) (cmd_pools : List RHI_CommandPool)
    (acquired : Option Nat) (s s' : RHI_SwapChain) (calls : List Call)
    (h : Present device cmd_pools acquired s = .ok () s' calls) :
    Present_preconditions s ∧ ∃ a, s.m_acquire_semaphore.get? s.m_sync_index = some a := by
  rcases Present_cases device cmd_pools acquired s with ⟨msg, hm, _⟩ | ⟨st, hu⟩ | hp
  · rw [hm] at h
    exact absurd h (by simp)
  · rw [hu] at h
    exact absurd h (by simp)
  · exact hp

/-! `QueuePresent` leaves every field but the acquire semaphores alone. -/

@[simp] theorem after_QueuePresent_rhi_resource (device : RHI_Device) (s : RHI_SwapChain) :
    (after_QueuePresent device s).m_rhi_resource = s.m_rhi_resource := by
  unfold after_QueuePresent; split <;> rfl

@[simp] theorem after_QueuePresent_present_enabled (device : RHI_Device) (s : RHI_SwapChain) :
    (after_QueuePresent device s).m_present_enabled = s.m_present_enabled := by
  unfold after_QueuePresent; split <;> rfl

@[simp] theorem after_QueuePresent_buffer_count (device : RHI_Device) (s : RHI_SwapChain) :
    (after_QueuePresent device s).m_buffer_count = s.m_buffer_count := by
  unfold after_QueuePresent; split <;> rfl

@[simp] theorem after_QueuePresent_sync_index (device : RHI_Device) (s : RHI_SwapChain) :
    (after_QueuePresent device s).m_sync_index = s.m_sync_index := by
  unfold after_QueuePresent; split <;> rfl

@[simp] theorem after_QueuePresent_image_index (device : RHI_Device) (s : RHI_SwapChain) :
    (after_QueuePresent device s).m_image_index = s.m_image_index := by
  unfold after_QueuePresent; split <;> rfl

@[simp] theorem after_QueuePresent_image_index_previous (device : RHI_Device)
    (s : RHI_SwapChain) :
    (after_QueuePresent device s).m_image_index_previous = s.m_image_index_previous := by
  unfold after_QueuePresent; split <;> rfl

@[simp] theorem after_QueuePresent_layouts (device : RHI_Device) (s : RHI_SwapChain) :
    (after_QueuePresent device s).m_layouts = s.m_layouts := by
  unfold after_QueuePresent; split <;> rfl

/-- After `QueuePresent` the acquire slot at `m_sync_index` is still readable. -/
theorem after_QueuePresent_slot (device : RHI_Device) (s : RHI_SwapChain)
    (a : Option RHI_Semaphore) (ha : s.m_acquire_semaphore.get? s.m_sync_index = some a) :
    ∃ b, (after_QueuePresent device s).m_acquire_semaphore.get?
      (after_QueuePresent device s).m_sync_index = some b := by
  unfold after_QueuePresent
  split
  · rename_i sem hsem
    exact ⟨_, Slots.get?_set_self _ _ (Slots.lt_of_get?_eq_some hsem)⟩
  · exact ⟨a, ha⟩

/-- On a single-buffered swapchain that meets the preconditions, `Present` calls
`QueuePresent` and returns, the trailing acquire being the early return. -/
theorem Present_single_buffered_returns (device : RHI_Device) (cmd_pools : List RHI_CommandPool)
    (acquired : Option Nat) (s : RHI_SwapChain) (a : Option RHI_Semaphore)
    (hpre : Present_preconditions s)
    (ha : s.m_acquire_semaphore.get? s.m_sync_index = some a)
    (hone : s.m_buffer_count = 1) :
    ∃ s', Present device cmd_pools acquired s =
      .ok () s' [Call.QueuePresent s.m_rhi_resource s.m_image_index
        (specified_wait_semaphores s a cmd_pools)] := by
  rw [Present_eq_of_preconditions device cmd_pools acquired s a hpre ha]
  have hidx : s.m_image_index ≠ uint32_max := by
    have := Slots.lt_of_get?_eq_some hpre.2.2.2
    unfold max_buffer_count at this
    unfold uint32_max
    omega
  rw [AcquireNextImage_early_return acquired _ (by simpa using hpre.2.1) (by simpa using hone)
    (by simpa using hidx)]
  exact ⟨_, rfl⟩

/-! ## Claims about Present and AcquireNextImage -/

/-- C1, counterexample: on a single-buffered swapchain a `Present` succeeds, its
trailing `AcquireNextImage` takes the early return (the only call is
`QueuePresent`), and the immediately following `Present` does not fail the
"No image was acquired" assertion: it returns as well. -/
theorem Present_twice_single_buffered :
    example_single_buffered.m_buffer_count = 1 ∧
    (∃ s', Present example_device [] none example_single_buffered =
        .ok () s' [Call.QueuePresent 3 0 [some (example_semaphore 30 RHI_Sync_State.Submitted)]] ∧
      (Present example_device [] none s').returned = true) := by
  refine ⟨rfl, _, rfl, ?_⟩
  decide

/-- C1, amended: when a `Present` returns without having acquired an image, the
swapchain is single-buffered, both image indices are what they were and still differ, and
the immediately following `Present` passes all four assertions, calls
`QueuePresent` and returns. -/
theorem Present_without_acquire_then_Present (device : RHI_Device)
    (cmd_pools cmd_pools' : List RHI_CommandPool) (acquired acquired' : Option Nat)
    (s s' : RHI_SwapChain) (calls : List Call)
    (hok : Present device cmd_pools acquired s = .ok () s' calls)
    (hno : ∀ call ∈ calls, call.is_acquire = false) :
    s.m_buffer_count = 1 ∧
    s'.m_image_index = s.m_image_index ∧
    s'.m_image_index_previous = s.m_image_index_previous ∧
    s'.m_image_index ≠ s'.m_image_index_previous ∧
    ∃ s'' wait, Present device cmd_pools' acquired' s' =
      .ok () s'' [Call.QueuePresent s'.m_rhi_resource s'.m_image_index wait] := by
  obtain ⟨hpre, a, ha⟩ := Present_ok_inv device cmd_pools acquired s s' calls hok
  rw [Present_eq_of_preconditions device cmd_pools acquired s a hpre ha] at hok
  obtain ⟨t, ht⟩ : ∃ t, t = after_QueuePresent device
    { s with m_wait_semaphores := specified_wait_semaphores s a cmd_pools } := ⟨_, rfl⟩
  rw [← ht] at hok
  have hpre_t : Present_preconditions t := by
    obtain ⟨h1, h2, h3, h4⟩ := hpre
    subst ht
    exact ⟨by simpa using h1, by simpa using h2, by simpa using h3, by simpa using h4⟩
  have hsem_t : ∃ b, t.m_acquire_semaphore.get? t.m_sync_index = some b := by
    subst ht
    exact after_QueuePresent_slot device _ a (by simpa using ha)
  have hcount : t.m_buffer_count = s.m_buffer_count := by subst ht; simp
  have hi : t.m_image_index = s.m_image_index := by subst ht; simp
  have hp : t.m_image_index_previous = s.m_image_index_previous := by subst ht; simp
  cases hacq : AcquireNextImage acquired t with
  | assert_failed msg st c => rw [hacq] at hok; exact absurd hok (by simp [Result.after])
  | undefined st c => rw [hacq] at hok; exact absurd hok (by simp [Result.after])
  | ok v st c =>
    rw [hacq] at hok
    simp only [Result.after, Result.ok.injEq, true_and] at hok
    obtain ⟨hst, hcalls⟩ := hok
    rcases AcquireNextImage_ok_cases _ _ _ _ hacq with
      ⟨hone, _, hsame, _⟩ | ⟨sem, i, _, _, _, _, _, _, hc⟩
    · subst hsame
      subst hst
      refine ⟨hcount ▸ hone, hi, hp, hpre_t.2.2.1, ?_⟩
      obtain ⟨b, hb⟩ := hsem_t
      obtain ⟨s'', hs''⟩ := Present_single_buffered_returns device cmd_pools' acquired' st b
        hpre_t hb hone
      exact ⟨s'', _, hs''⟩
    · exfalso
      have := hno (Call.vkAcquireNextImageKHR t.m_rhi_resource sem.m_resource)
        (by rw [← hcalls, hc]; simp)
      simp [Call.is_acquire] at this

/-- Witness for C1 (amended): the single-buffered example. -/
theorem Present_without_acquire_then_Present_witness :
    example_single_buffered.m_buffer_count = 1 ∧
    (Present example_device [] none example_single_buffered).state.m_image_index
      ≠ (Present example_device [] none example_single_buffered).state.m_image_index_previous :=
  have h := Present_without_acquire_then_Present example_device [] [] none none
    example_single_buffered (Present example_device [] none example_single_buffered).state
    [Call.QueuePresent 3 0 [some (example_semaphore 30 RHI_Sync_State.Submitted)]]
    (by decide) (by decide)
  ⟨h.1, h.2.2.2.1⟩

/-- C2: `Present` reaches `QueuePresent` only if the four preconditions hold; it
does reach it when they hold (the acquire-semaphore subscript being in range);
and when one of them is violated (the layout subscript being in range whenever
the fourth is the one in question) an assertion fires with the state
untouched, so before the wait list is rebuilt, and with no call made. -/
theorem Present_reaches_QueuePresent_iff (device : RHI_Device)
    (cmd_pools : List RHI_CommandPool) (acquired : Option Nat) (s : RHI_SwapChain) :
    (reaches_QueuePresent (Present device cmd_pools acquired s) → Present_preconditions s) ∧
    (Present_preconditions s → s.m_sync_index < max_buffer_count →
      reaches_QueuePresent (Present device cmd_pools acquired s)) ∧
    (¬ Present_preconditions s →
      (s.m_rhi_resource = 0 ∨ s.m_present_enabled = false ∨
        s.m_image_index = s.m_image_index_previous ∨ s.m_image_index < max_buffer_count) →
      ∃ msg, Present device cmd_pools acquired s = .assert_failed msg s []) := by
  refine ⟨?_, ?_, ?_⟩
  · rintro ⟨swapchain, image_index, wait, hmem⟩
    exact Present_preconditions_of_calls device cmd_pools acquired s
      (List.ne_nil_of_mem hmem)
  · intro hpre hsync
    obtain ⟨a, ha⟩ := Slots.get?_eq_some_of_lt s.m_acquire_semaphore hsync
    rw [Present_eq_of_preconditions device cmd_pools acquired s a hpre ha]
    exact ⟨s.m_rhi_resource, s.m_image_index, specified_wait_semaphores s a cmd_pools, by simp⟩
  · intro hpre hdef
    unfold Present
    by_cases h1 : s.m_rhi_resource = 0
    · exact ⟨_, by rw [if_pos h1]⟩
    by_cases h2 : s.m_present_enabled = false
    · exact ⟨_, by rw [if_neg h1, if_pos h2]⟩
    by_cases h3 : s.m_image_index = s.m_image_index_previous
    · exact ⟨_, by rw [if_neg h1, if_neg h2, if_pos h3]⟩
    rw [if_neg h1, if_neg h2, if_neg h3]
    have hlt : s.m_image_index < max_buffer_count := by
      rcases hdef with h | h | h | h
      · exact absurd h h1
      · exact absurd h h2
      · exact absurd h h3
      · exact h
    obtain ⟨layout, hl⟩ := Slots.get?_eq_some_of_lt s.m_layouts hlt
    have h4 : layout ≠ RHI_Image_Layout.Present_Src := by
      intro h
      exact hpre ⟨h1, by simpa using h2, h3, h ▸ hl⟩
    exact ⟨"The layout must be Present_Src", by simp only [hl, if_pos h4]⟩

/-- Witness for C2: the single-buffered example meets the preconditions and
reaches `QueuePresent`. -/
theorem Present_reaches_QueuePresent_iff_witness :
    reaches_QueuePresent (Present example_device [] none example_single_buffered) :=
  (Present_reaches_QueuePresent_iff example_device [] none example_single_buffered).2.1
    (by unfold Present_preconditions; decide) (by decide)

/-- C3: with the preconditions met, the first call of `Present` is `QueuePresent`
on the wait list made of the acquire semaphore at `m_sync_index` followed, in
pool order, by the processed semaphore of every pool that targets this
swapchain and is `Submitted`, and of nothing else; that list is not empty, and
in no state does `Present` fail its non-empty assertion. -/
theorem Present_wait_semaphores_exact (device : RHI_Device) (cmd_pools : List RHI_CommandPool)
    (acquired : Option Nat) (s : RHI_SwapChain) :
    (∀ acquire_semaphore, Present_preconditions s →
      s.m_acquire_semaphore.get? s.m_sync_index = some acquire_semaphore →
      (Present device cmd_pools acquired s).calls.head? =
        some (Call.QueuePresent s.m_rhi_resource s.m_image_index
          (acquire_semaphore ::
            (cmd_pools.filter fun cmd_pool =>
              decide (s.m_object_id = cmd_pool.m_swapchain_id) &&
              decide (cmd_pool.semaphore_processed.m_cpu_state = RHI_Sync_State.Submitted)).map
              fun cmd_pool => some cmd_pool.semaphore_processed))) ∧
    (∀ st calls, Present device cmd_pools acquired s ≠
      .assert_failed "Present() should wait on at least one semaphore" st calls) := by
  constructor
  · intro a hpre ha
    rw [Present_eq_of_preconditions device cmd_pools acquired s a hpre ha]
    simp [specified_wait_semaphores]
  · intro st calls h
    rcases Present_cases device cmd_pools acquired s with ⟨msg, hm, hne⟩ | ⟨st', hu⟩ | ⟨hpre, a, ha⟩
    · rw [hm] at h
      simp only [Result.assert_failed.injEq] at h
      exact hne h.1
    · rw [hu] at h
      exact absurd h (by simp)
    · rw [Present_eq_of_preconditions device cmd_pools acquired s a hpre ha] at h
      cases hacq : AcquireNextImage acquired (after_QueuePresent device
          { s with m_wait_semaphores := specified_wait_semaphores s a cmd_pools }) with
      | ok v st' c => rw [hacq] at h; exact absurd h (by simp [Result.after])
      | undefined st' c => rw [hacq] at h; exact absurd h (by simp [Result.after])
      | assert_failed msg st' c =>
        rw [hacq] at h
        simp only [Result.after, Result.assert_failed.injEq] at h
        rcases AcquireNextImage_assert_messages _ _ _ _ _ hacq with hm | hm | hm <;>
          · rw [hm] at h
            exact absurd h.1 (by decide)

/-- Witness for C3: the single-buffered example, with one pool that targets it
and one that does not. -/
theorem Present_wait_semaphores_exact_witness :
    (Present example_device
      [⟨7, example_semaphore 40 RHI_Sync_State.Submitted⟩,
       ⟨8, example_semaphore 41 RHI_Sync_State.Submitted⟩,
       ⟨7, example_semaphore 42 RHI_Sync_State.Idle⟩] none example_single_buffered).calls.head? =
      some (Call.QueuePresent 3 0 [some (example_semaphore 30 RHI_Sync_State.Submitted),
        some (example_semaphore 40 RHI_Sync_State.Submitted)]) :=
  (Present_wait_semaphores_exact example_device _ none example_single_buffered).1
    (some (example_semaphore 30 RHI_Sync_State.Submitted))
    (by unfold Present_preconditions; decide) (by decide)

/-- C4: on the acquiring path (presenting enabled, no single-buffer early return,
the rotated semaphore present and not `Submitted`, the driver answering
success with index `image_index`) `AcquireNextImage` returns after exactly one
acquire call; the sync index has advanced by one modulo the buffer count (the
addition in 32 bits), the previous image index is the old image index, the
image index is the driver's, the semaphore at the new sync index is
`Submitted`, and the other acquire slots, the layouts, the dimensions and the
format are unchanged. -/
theorem AcquireNextImage_success (image_index : Nat) (s : RHI_SwapChain) (sem : RHI_Semaphore)
    (hen : s.m_present_enabled = true)
    (hpath : ¬ (s.m_buffer_count = 1 ∧ s.m_image_index ≠ uint32_max))
    (hn : s.m_buffer_count ≠ 0)
    (hsem : s.m_acquire_semaphore.get?
      ((s.m_sync_index + 1) % 2 ^ 32 % s.m_buffer_count) = some (some sem))
    (hidle : sem.m_cpu_state ≠ RHI_Sync_State.Submitted) :
    ∃ s', AcquireNextImage (some image_index) s =
        .ok () s' [Call.vkAcquireNextImageKHR s.m_rhi_resource sem.m_resource] ∧
      s'.m_sync_index = (s.m_sync_index + 1) % 2 ^ 32 % s.m_buffer_count ∧
      s'.m_image_index_previous = s.m_image_index ∧
      s'.m_image_index = image_index ∧
      s'.m_acquire_semaphore.get? s'.m_sync_index =
        some (some { sem with m_cpu_state := RHI_Sync_State.Submitted }) ∧
      (∀ j, j ≠ s'.m_sync_index →
        s'.m_acquire_semaphore.get? j = s.m_acquire_semaphore.get? j) ∧
      s'.m_layouts = s.m_layouts ∧ s'.m_width = s.m_width ∧ s'.m_height = s.m_height ∧
      s'.m_format = s.m_format ∧ s'.m_buffer_count = s.m_buffer_count := by
  refine ⟨_, AcquireNextImage_eq_of_idle image_index s sem hen hpath hn hsem hidle,
    rfl, rfl, rfl, ?_, ?_, rfl, rfl, rfl, rfl, rfl⟩
  · exact Slots.get?_set_self _ _ (Slots.lt_of_get?_eq_some hsem)
  · intro j hj
    exact Slots.get?_set_of_ne _ _ hj

/-- Witness for C4: the first acquire on the fresh triple-buffered example, whose
sync index starts at the 32-bit maximum and wraps to slot 0. -/
theorem AcquireNextImage_success_witness :
    ∃ s', AcquireNextImage (some 1) example_triple_buffered =
        .ok () s' [Call.vkAcquireNextImageKHR 3 30] ∧
      s'.m_sync_index = 0 ∧ s'.m_image_index_previous = uint32_max ∧ s'.m_image_index = 1 :=
  have h := AcquireNextImage_success 1 example_triple_buffered
    (example_semaphore 30 RHI_Sync_State.Idle) (by decide) (by decide) (by decide) (by decide)
    (by decide)
  h.imp fun _ hs => ⟨hs.1, hs.2.1, hs.2.2.1, hs.2.2.2.1⟩

/-- C5, counterexample: with one buffer and its one semaphore idle, one acquire
succeeds and leaves the semaphore `Submitted`, yet the next `AcquireNextImage`
does not fail the semaphore assertion: it takes the single-buffer early return. -/
theorem single_buffer_acquire_returns_early :
    example_single_fresh.m_buffer_count = 1 ∧
    acquire_semaphores_all RHI_Sync_State.Idle 1 example_single_fresh ∧
    ∃ s', acquire_repeatedly [0] example_single_fresh =
        .ok () s' [Call.vkAcquireNextImageKHR 3 30] ∧
      acquire_semaphores_all RHI_Sync_State.Submitted 1 s' ∧
      AcquireNextImage (some 0) s' = .ok () s' [] := by
  refine ⟨rfl, ?_, _, rfl, ?_, by decide⟩
  · intro j hj
    interval_cases j
    exact ⟨_, rfl, rfl⟩
  · intro j hj
    interval_cases j
    exact ⟨_, rfl, rfl⟩

/-- The semaphore assertion of `AcquireNextImage` fires, before any call, when
the rotated semaphore is `Submitted`. -/
theorem AcquireNextImage_eq_of_submitted (acquired : Option Nat) (s : RHI_SwapChain)
    (sem : RHI_Semaphore)
    (hen : s.m_present_enabled = true)
    (hpath : ¬ (s.m_buffer_count = 1 ∧ s.m_image_index ≠ uint32_max))
    (hn : s.m_buffer_count ≠ 0)
    (hsem : s.m_acquire_semaphore.get? s.next_sync_index = some (some sem))
    (hsub : sem.m_cpu_state = RHI_Sync_State.Submitted) :
    AcquireNextImage acquired s =
      .assert_failed "The semaphore is already signaled"
        { s with m_sync_index := s.next_sync_index } [] := by
  unfold AcquireNextImage
  rw [if_neg (by simp [hen]), if_neg hpath, if_neg hn]
  simp only [hsem]
  rw [if_pos hsub]

theorem next_sync_index_lt (s : RHI_SwapChain) (hn : s.m_buffer_count ≠ 0) :
    s.next_sync_index < s.m_buffer_count :=
  Nat.mod_lt _ (Nat.pos_of_ne_zero hn)

/-- From `n` idle semaphores, `n` consecutive acquires on a swapchain with two or
three buffers all succeed and leave every semaphore `Submitted`, and the next
call stops at the semaphore assertion. -/
theorem acquire_repeatedly_exhausts (s : RHI_SwapChain) (answers : List Nat)
    (hen : s.m_present_enabled = true)
    (h2 : 2 ≤ s.m_buffer_count) (h3 : s.m_buffer_count ≤ max_buffer_count)
    (hlen : answers.length = s.m_buffer_count)
    (hidle : acquire_semaphores_all RHI_Sync_State.Idle s.m_buffer_count s) :
    ∃ s' calls, acquire_repeatedly answers s = .ok () s' calls ∧
      calls.length = s.m_buffer_count ∧ (∀ call ∈ calls, call.is_acquire = true) ∧
      acquire_semaphores_all RHI_Sync_State.Submitted s.m_buffer_count s' ∧
      ∀ acquired, ∃ st, AcquireNextImage acquired s' =
        .assert_failed "The semaphore is already signaled" st [] := by
  unfold max_buffer_count at h3
  unfold acquire_semaphores_all at hidle ⊢
  refine ⟨(acquire_repeatedly answers s).state, (acquire_repeatedly answers s).calls, ?_⟩
  obtain ⟨oid, name, win, surf, res, en, n, w, h, fl, fmt, sync, idx, prev, lay, bres, bsrv,
    ⟨a0, a1, a2⟩, wait⟩ := s
  simp only at hen h2 h3 hlen hidle ⊢
  subst hen
  obtain rfl | rfl : n = 2 ∨ n = 3 := by omega
  · obtain ⟨sem0, hs0, hi0⟩ := hidle 0 (by omega)
    obtain ⟨sem1, hs1, hi1⟩ := hidle 1 (by omega)
    simp only [Slots.get?, Option.some.injEq] at hs0 hs1
    subst hs0 hs1
    obtain ⟨i1, i2, rfl⟩ : ∃ i1 i2, answers = [i1, i2] := by
      match answers, hlen with
      | [i1, i2], _ => exact ⟨i1, i2, rfl⟩
    have hcases : (sync + 1) % 4294967296 % 2 = 0 ∨ (sync + 1) % 4294967296 % 2 = 1 := by omega
    rcases hcases with hc | hc <;>
    · simp [acquire_repeatedly, AcquireNextImage, Result.andThen, Result.after,
        next_sync_index, Slots.get?, Slots.set, RHI_Semaphore.SetCpuState, hc, hi0, hi1,
        uint32_max, Result.state, Result.calls, Call.is_acquire]
      intro j hj
      interval_cases j <;> simp
  · obtain ⟨sem0, hs0, hi0⟩ := hidle 0 (by omega)
    obtain ⟨sem1, hs1, hi1⟩ := hidle 1 (by omega)
    obtain ⟨sem2, hs2, hi2⟩ := hidle 2 (by omega)
    simp only [Slots.get?, Option.some.injEq] at hs0 hs1 hs2
    subst hs0 hs1 hs2
    obtain ⟨i1, i2, i3, rfl⟩ : ∃ i1 i2 i3, answers = [i1, i2, i3] := by
      match answers, hlen with
      | [i1, i2, i3], _ => exact ⟨i1, i2, i3, rfl⟩
    have hcases : (sync + 1) % 4294967296 % 3 = 0 ∨ (sync + 1) % 4294967296 % 3 = 1 ∨
        (sync + 1) % 4294967296 % 3 = 2 := by omega
    rcases hcases with hc | hc | hc <;>
    · simp [acquire_repeatedly, AcquireNextImage, Result.andThen, Result.after,
        next_sync_index, Slots.get?, Slots.set, RHI_Semaphore.SetCpuState, hc, hi0, hi1, hi2,
        uint32_max, Result.state, Result.calls, Call.is_acquire]
      intro j hj
      interval_cases j <;> simp

/-- C5, amended: on the acquiring path `AcquireNextImage` stops at its semaphore
assertion, before any call, exactly when the rotated semaphore is
`Submitted`; and for a buffer count from 2 to `max_buffer_count`, starting
from that many idle semaphores, that many consecutive successful acquires
leave them all `Submitted` and the next `AcquireNextImage` stops at the
assertion without an acquire call. -/
theorem double_acquire_detection (s : RHI_SwapChain) :
    (∀ acquired sem, s.m_present_enabled = true →
      ¬ (s.m_buffer_count = 1 ∧ s.m_image_index ≠ uint32_max) → s.m_buffer_count ≠ 0 →
      s.m_acquire_semaphore.get? ((s.m_sync_index + 1) % 2 ^ 32 % s.m_buffer_count)
        = some (some sem) →
      ((∃ st calls, AcquireNextImage acquired s =
          .assert_failed "The semaphore is already signaled" st calls) ↔
        sem.m_cpu_state = RHI_Sync_State.Submitted) ∧
      (sem.m_cpu_state = RHI_Sync_State.Submitted →
        ∃ st, AcquireNextImage acquired s =
          .assert_failed "The semaphore is already signaled" st [])) ∧
    (∀ answers : List Nat, s.m_present_enabled = true →
      2 ≤ s.m_buffer_count → s.m_buffer_count ≤ max_buffer_count →
      answers.length = s.m_buffer_count →
      acquire_semaphores_all RHI_Sync_State.Idle s.m_buffer_count s →
      ∃ s' calls, acquire_repeatedly answers s = .ok () s' calls ∧
        calls.length = s.m_buffer_count ∧ (∀ call ∈ calls, call.is_acquire = true) ∧
        acquire_semaphores_all RHI_Sync_State.Submitted s.m_buffer_count s' ∧
        ∀ acquired, ∃ st, AcquireNextImage acquired s' =
          .assert_failed "The semaphore is already signaled" st []) := by
  refine ⟨?_, fun answers hen h2 h3 hlen hidle =>
    acquire_repeatedly_exhausts s answers hen h2 h3 hlen hidle⟩
  intro acquired sem hen hpath hn hsem
  have hsub := AcquireNextImage_eq_of_submitted acquired s sem hen hpath hn hsem
  refine ⟨⟨?_, fun h => ⟨_, _, hsub h⟩⟩, fun h => ⟨_, hsub h⟩⟩
  rintro ⟨st, calls, hfail⟩
  by_contra hidle
  cases acquired with
  | some image_index =>
    rw [AcquireNextImage_eq_of_idle image_index s sem hen hpath hn hsem hidle] at hfail
    exact absurd hfail (by simp)
  | none =>
    unfold AcquireNextImage at hfail
    rw [if_neg (by simp [hen]), if_neg hpath, if_neg hn] at hfail
    have hsem' : s.m_acquire_semaphore.get? s.next_sync_index = some (some sem) := hsem
    simp only [hsem', if_neg hidle, Result.assert_failed.injEq] at hfail
    exact absurd hfail.1 (by decide)

/-- Witness for C5 (amended): three acquires on the fresh triple-buffered example. -/
theorem double_acquire_detection_witness :
    ∃ s' calls, acquire_repeatedly [0, 1, 2] example_triple_buffered = .ok () s' calls ∧
      calls.length = 3 ∧ (∀ call ∈ calls, call.is_acquire = true) ∧
      acquire_semaphores_all RHI_Sync_State.Submitted 3 s' ∧
      ∀ acquired, ∃ st, AcquireNextImage acquired s' =
        .assert_failed "The semaphore is already signaled" st [] :=
  (double_acquire_detection example_triple_buffered).2 [0, 1, 2] (by decide) (by decide)
    (by decide) (by decide)
    (by
      intro j hj
      have h3 : j < 3 := hj
      interval_cases j <;> exact ⟨_, rfl, rfl⟩)

/-! ## The rotation of the sync index -/

/-- Adding `v` modulo `n` permutes the residues `0 .. n - 1`. -/
theorem rotation_perm (n v : Nat) :
    List.Perm ((List.range n).map fun k => (v + k) % n) (List.range n) := by
  have hnodup : ((List.range n).map fun k => (v + k) % n).Nodup := by
    refine List.Nodup.map_on ?_ (List.nodup_range n)
    intro x hx y hy hxy
    rw [List.mem_range] at hx hy
    have hmod : x % n = y % n := Nat.ModEq.add_left_cancel' v hxy
    rwa [Nat.mod_eq_of_lt hx, Nat.mod_eq_of_lt hy] at hmod
  have hsub : ((List.range n).map fun k => (v + k) % n) ⊆ List.range n := by
    intro x hx
    simp only [List.mem_map, List.mem_range] at hx
    obtain ⟨k, hk, rfl⟩ := hx
    exact List.mem_range.2 (Nat.mod_lt _ (by omega))
  exact (List.subperm_of_subset hnodup hsub).perm_of_length_le (by simp)

/-- A call of `AcquireNextImage` that acquires leaves the sync index rotated by
one, inside the array. -/
theorem AcquireNextImage_sync_index (image_index : Nat) (s s' : RHI_SwapChain) (call : Call)
    (h : AcquireNextImage (some image_index) s = .ok () s' [call]) :
    s'.m_sync_index = (s.m_sync_index + 1) % 2 ^ 32 % s.m_buffer_count ∧
    s.m_buffer_count ≠ 0 ∧ s'.m_sync_index < max_buffer_count := by
  rcases AcquireNextImage_ok_cases _ _ _ _ h with
    ⟨_, _, _, hnil⟩ | ⟨sem, i, hi, hn, hpath, hen, hsem, hidle, _⟩
  · exact absurd hnil (by simp)
  · simp only [Option.some.injEq] at hi
    subst hi
    rw [AcquireNextImage_eq_of_idle image_index s sem hen hpath hn hsem hidle] at h
    simp only [Result.ok.injEq, true_and] at h
    obtain ⟨hs, _⟩ := h
    subst hs
    exact ⟨rfl, hn, Slots.lt_of_get?_eq_some hsem⟩

/-- The sync indices visited by a run of acquires: from the first rotated index
on, one step at a time modulo the buffer count. -/
theorem acquire_run_visits (n : Nat) (run : List (RHI_SwapChain × Nat × RHI_SwapChain)) :
    ∀ sync_index, acquire_run n sync_index run →
      run.map (fun step => step.2.2.m_sync_index) =
        (List.range run.length).map fun k => ((sync_index + 1) % 2 ^ 32 % n + k) % n := by
  induction run with
  | nil => intro _ _; rfl
  | cons step rest ih =>
    obtain ⟨before, image_index, after⟩ := step
    intro sync_index hrun
    obtain ⟨hcount, hsync, ⟨call, hstep⟩, hrest⟩ := hrun
    obtain ⟨hafter, hn, hlt⟩ := AcquireNextImage_sync_index image_index before after call hstep
    rw [hcount, hsync] at hafter
    rw [hcount] at hn
    have hv : after.m_sync_index < n := hafter ▸ Nat.mod_lt _ (Nat.pos_of_ne_zero hn)
    have hwrap : (after.m_sync_index + 1) % 2 ^ 32 = after.m_sync_index + 1 := by
      unfold max_buffer_count at hlt
      omega
    rw [List.map_cons, ih after.m_sync_index hrest, List.length_cons, List.range_succ_eq_map,
      List.map_cons, List.map_map, ← hafter, hwrap]
    congr 1
    · simp [Nat.mod_eq_of_lt hv]
    · apply List.map_congr_left
      intro k _
      simp only [Function.comp, Nat.succ_eq_add_one]
      rw [Nat.mod_add_mod]
      congr 1
      omega

/-- C6: in a run of `AcquireNextImage` calls that each acquire, on a swapchain
with `n ≥ 1` buffers and from any starting value of `m_sync_index`, the sync
index is below `n` after every call, and over `n` calls in a row it takes
every value `0 .. n - 1` exactly once. -/
theorem sync_index_cycle (n : Nat) (hn : 1 ≤ n) (sync_index : Nat)
    (run : List (RHI_SwapChain × Nat × RHI_SwapChain))
    (hrun : acquire_run n sync_index run) :
    (∀ step ∈ run, step.2.2.m_sync_index < n) ∧
    (run.length = n →
      List.Perm (run.map fun step => step.2.2.m_sync_index) (List.range n)) := by
  have hvisits := acquire_run_visits n run sync_index hrun
  constructor
  · intro step hstep
    have hmem : step.2.2.m_sync_index ∈ run.map (fun step => step.2.2.m_sync_index) :=
      List.mem_map_of_mem _ hstep
    rw [hvisits] at hmem
    simp only [List.mem_map, List.mem_range] at hmem
    obtain ⟨k, _, hk⟩ := hmem
    rw [← hk]
    exact Nat.mod_lt _ (by omega)
  · intro hlen
    rw [hvisits, hlen]
    exact rotation_perm n _

/-- Witness for C6: three acquires on the fresh triple-buffered example, whose
sync index starts at the 32-bit maximum, visit the slots 0, 1 and 2. -/
theorem sync_index_cycle_witness :
    List.Perm (example_run.map fun step => step.2.2.m_sync_index) (List.range 3) :=
  (sync_index_cycle 3 (by decide) uint32_max example_run
    ⟨rfl, rfl, ⟨_, rfl⟩, rfl, rfl, ⟨_, rfl⟩, rfl, rfl, ⟨_, rfl⟩, trivial⟩).2 rfl

/-! ## Resize -/

/-- C7, counterexample: after a minimise the stored extent is still 800x600 and
presenting is disabled; `Resize(800, 600, false)` with that valid, unchanged
extent returns false and calls nothing, but it is not a no-op: it switches
presenting back on. -/
theorem reenabling_Resize_is_not_a_noop :
    example_device.IsValidResolution 800 600 = true ∧
    example_minimised.m_width = 800 ∧ example_minimised.m_height = 600 ∧
    Resize example_device example_driver none 800 600 false example_minimised =
      .ok false { example_minimised with m_present_enabled := true } [] ∧
    { example_minimised with m_present_enabled := true } ≠ example_minimised := by
  decide

/-- C7, amended: for a valid resolution equal to the stored extent,
`Resize(w, h, false)` returns false, makes no call, and leaves every field
unchanged except `m_present_enabled`, which it sets to true; so it is a no-op
exactly when presenting was already enabled. -/
theorem Resize_unchanged (device : RHI_Device) (driver : Driver) (acquired : Option Nat)
    (width height : Nat) (s : RHI_SwapChain)
    (hvalid : device.IsValidResolution width height = true)
    (hw : width = s.m_width) (hh : height = s.m_height) :
    Resize device driver acquired width height false s =
      .ok false { s with m_present_enabled := true } [] ∧
    (s.m_present_enabled = true →
      Resize device driver acquired width height false s = .ok false s []) := by
  have h : Resize device driver acquired width height false s =
      .ok false { s with m_present_enabled := true } [] := by
    subst hw hh
    simp [Resize, hvalid]
  refine ⟨h, fun hen => ?_⟩
  rw [h, ← hen]

/-- Witness for C7 (amended): the triple-buffered example at its own extent. -/
theorem Resize_unchanged_witness :
    Resize example_device example_driver none 800 600 false example_triple_buffered =
      .ok false example_triple_buffered [] :=
  (Resize_unchanged example_device example_driver none 800 600 example_triple_buffered
    (by decide) (by decide) (by decide)).2 (by decide)

/-- C8, counterexample: `Resize(0, 0, false)` on a swapchain that is presenting
returns false and calls nothing, but it has a side effect: presenting is
disabled afterwards. -/
theorem invalid_Resize_disables_present :
    example_device.IsValidResolution 0 0 = false ∧
    example_triple_buffered.m_present_enabled = true ∧
    Resize example_device example_driver none 0 0 false example_triple_buffered =
      .ok false { example_triple_buffered with m_present_enabled := false } [] ∧
    (Resize example_device example_driver none 0 0 false
      example_triple_buffered).state.m_present_enabled = false := by
  decide

/-- C8, amended: for a resolution the device reports as invalid and any `force`,
`Resize` returns false, makes no call, and leaves every field unchanged except
`m_present_enabled`, which it sets to false. -/
theorem Resize_invalid (device : RHI_Device) (driver : Driver) (acquired : Option Nat)
    (width height : Nat) (force : Bool) (s : RHI_SwapChain)
    (hinvalid : device.IsValidResolution width height = false) :
    Resize device driver acquired width height force s =
      .ok false { s with m_present_enabled := false } [] := by
  simp [Resize, hinvalid]

/-- Witness for C8 (amended): a forced resize of the triple-buffered example to 0x0. -/
theorem Resize_invalid_witness :
    Resize example_device example_driver none 0 0 true example_triple_buffered =
      .ok false { example_triple_buffered with m_present_enabled := false } [] :=
  Resize_invalid example_device example_driver none 0 0 true example_triple_buffered
    (by decide)

/-! ## create and destroy: what they leave and what they call -/

theorem no_acquire_nil : no_acquire [] := by
  intro call h
  exact absurd h (List.not_mem_nil call)

theorem no_acquire_append {a b : List Call} (ha : no_acquire a) (hb : no_acquire b) :
    no_acquire (a ++ b) := by
  intro call h
  rcases List.mem_append.1 h with h | h
  · exact ha call h
  · exact hb call h

theorem no_acquire_cons (call : Call) {rest : List Call} (h : call.is_acquire = false)
    (hrest : no_acquire rest) : no_acquire (call :: rest) := by
  intro c hc
  rcases List.mem_cons.1 hc with rfl | hc
  · exact h
  · exact hrest c hc

theorem enqueue_image_views_no_acquire (views : List Nat) :
    no_acquire (enqueue_image_views views) := by
  induction views with
  | nil => exact no_acquire_nil
  | cons view rest ih =>
    unfold enqueue_image_views
    split
    · exact no_acquire_cons _ rfl ih
    · exact ih

theorem release_semaphores_no_acquire (sems : List (Option RHI_Semaphore)) :
    no_acquire (release_semaphores sems) := by
  induction sems with
  | nil => exact no_acquire_nil
  | cons p rest ih =>
    unfold release_semaphores
    refine no_acquire_append ?_ ih
    cases p with
    | none => exact no_acquire_nil
    | some sem =>
      simp only [release_semaphore, RHI_Semaphore.destruct, destroy_semaphore]
      split
      · exact no_acquire_nil
      · rename_i h
        simp only [if_neg h, Result.calls]
        exact no_acquire_cons _ rfl (no_acquire_cons _ rfl no_acquire_nil)

theorem release_slot_no_acquire (a : Slots (Option RHI_Semaphore)) (i : Nat) :
    no_acquire (release_slot a i) := by
  unfold release_slot
  cases a.get? i with
  | none => exact no_acquire_nil
  | some previous =>
    have h := release_semaphores_no_acquire [previous]
    simpa [release_semaphores] using h

/-- The function `destroy` always returns; it nulls the handles, the views and the
semaphores, touches nothing else, and acquires nothing. -/
theorem destroy_eq (s : RHI_SwapChain) :
    ∃ calls, destroy s = .ok ()
        { s with m_acquire_semaphore := Slots.fill none, m_rhi_backbuffer_srv := Slots.fill 0,
                 m_rhi_resource := 0, m_surface := 0 } calls ∧
      no_acquire calls := by
  refine ⟨_, rfl, ?_⟩
  refine no_acquire_append (no_acquire_append (no_acquire_append (no_acquire_append
    (release_semaphores_no_acquire _) (enqueue_image_views_no_acquire _)) ?_) ?_) ?_
  · exact no_acquire_cons _ rfl no_acquire_nil
  · dsimp only
    split
    · exact no_acquire_cons _ rfl no_acquire_nil
    · exact no_acquire_nil
  · dsimp only
    split
    · exact no_acquire_cons _ rfl no_acquire_nil
    · exact no_acquire_nil

/-- The layout loop of `create` returns when the images fit the array; it writes
only `m_layouts`. -/
theorem create_transition_layouts_ok (cmd_list : Nat) (images : List Nat) :
    ∀ (i : Nat) (s : RHI_SwapChain), i + images.length ≤ max_buffer_count →
      ∃ layouts calls, create_transition_layouts cmd_list images i s =
        .ok () { s with m_layouts := layouts } calls ∧ no_acquire calls := by
  induction images with
  | nil => intro i s _; exact ⟨s.m_layouts, [], rfl, no_acquire_nil⟩
  | cons image rest ih =>
    intro i s hlen
    simp only [List.length_cons] at hlen
    have hi : i < max_buffer_count := by omega
    obtain ⟨layouts, calls, heq, hno⟩ := ih (i + 1)
      { s with m_layouts := s.m_layouts.set i RHI_Image_Layout.Color_Attachment_Optimal }
      (by omega)
    refine ⟨layouts, _, ?_, no_acquire_cons (Call.image_set_layout cmd_list image
      RHI_Image_Layout.Undefined RHI_Image_Layout.Color_Attachment_Optimal) rfl hno⟩
    simp only [create_transition_layouts, if_pos hi, heq, Result.after, List.singleton_append]

/-- The image-view loop of `create` returns when the images fit the array; it
writes only the two backbuffer arrays. -/
theorem create_image_views_ok (driver : Driver) (format : Nat) (images : List Nat) :
    ∀ (i : Nat) (s : RHI_SwapChain), i + images.length ≤ max_buffer_count →
      ∃ textures views calls, create_image_views driver format images i s =
        .ok () { s with m_rhi_backbuffer_resource := textures, m_rhi_backbuffer_srv := views }
          calls ∧ no_acquire calls := by
  induction images with
  | nil =>
    intro i s _
    exact ⟨s.m_rhi_backbuffer_resource, s.m_rhi_backbuffer_srv, [], rfl, no_acquire_nil⟩
  | cons image rest ih =>
    intro i s hlen
    simp only [List.length_cons] at hlen
    have hi : i < max_buffer_count := by omega
    obtain ⟨textures, views, calls, heq, hno⟩ := ih (i + 1)
      { s with m_rhi_backbuffer_resource := s.m_rhi_backbuffer_resource.set i image,
               m_rhi_backbuffer_srv := s.m_rhi_backbuffer_srv.set i
                 (driver.created_image_view image) }
      (by omega)
    refine ⟨textures, views, _, ?_, no_acquire_cons (Call.set_object_name image
      ("swapchain_image_" ++ toString i)) rfl (no_acquire_cons
      (Call.image_view_create image format) rfl hno)⟩
    simp only [create_image_views, if_pos hi, heq, Result.after, List.cons_append,
      List.nil_append]

/-- The semaphore loop of `create` returns when the driver creates every
semaphore and the slots fit the array; it writes only `m_acquire_semaphore`,
leaving an idle semaphore in each slot it visits. -/
theorem create_semaphores_ok (driver : Driver) :
    ∀ (remaining i : Nat) (s : RHI_SwapChain), i + remaining ≤ max_buffer_count →
      (∀ j, j < i + remaining → (driver.created_semaphore j).isSome = true) →
      ∃ sems calls, create_semaphores driver remaining i s =
        .ok () { s with m_acquire_semaphore := sems } calls ∧ no_acquire calls ∧
        (∀ j, j < i → sems.get? j = s.m_acquire_semaphore.get? j) ∧
        (∀ j, i ≤ j → j < i + remaining →
          ∃ sem, sems.get? j = some (some sem) ∧ sem.m_cpu_state = RHI_Sync_State.Idle) := by
  intro remaining
  induction remaining with
  | zero =>
    intro i s _ _
    exact ⟨s.m_acquire_semaphore, [], rfl, no_acquire_nil, fun _ _ => rfl,
      fun j h1 h2 => absurd h2 (by omega)⟩
  | succ remaining ih =>
    intro i s hlen hdrv
    have hi : i < max_buffer_count := by omega
    obtain ⟨handle, hhandle⟩ := Option.isSome_iff_exists.1 (hdrv i (by omega))
    obtain ⟨sem, hsem⟩ : ∃ sem : RHI_Semaphore, sem =
        { m_resource := handle, m_is_timeline := false, m_cpu_state := RHI_Sync_State.Idle,
          m_name := "swapchain_image_acquired_" ++ toString i } := ⟨_, rfl⟩
    obtain ⟨sems, calls, heq, hno, hbelow, hfrom⟩ := ih (i + 1)
      { s with m_acquire_semaphore := s.m_acquire_semaphore.set i (some sem) }
      (by omega) (fun j hj => hdrv j (by omega))
    refine ⟨sems, ([Call.vkCreateSemaphore false, Call.set_object_name handle
        ("swapchain_image_acquired_" ++ toString i)] ++ release_slot s.m_acquire_semaphore i) ++
        calls, ?_, no_acquire_append (no_acquire_append (no_acquire_cons _ rfl
        (no_acquire_cons _ rfl no_acquire_nil)) (release_slot_no_acquire _ _)) hno, ?_, ?_⟩
    · simp only [create_semaphores, RHI_Semaphore.construct, RHI_Semaphore.initial,
        create_semaphore, hhandle, if_pos hi, heq, Result.after, List.cons_append,
        List.nil_append, ne_eq, not_true_eq_false, if_false, List.singleton_append, ← hsem]
    · intro j hj
      rw [hbelow j (by omega)]
      exact Slots.get?_set_of_ne _ _ (by omega)
    · intro j h1 h2
      rcases Nat.eq_or_lt_of_le h1 with rfl | hlt
      · rw [hbelow i (by omega)]
        exact ⟨sem, Slots.get?_set_self _ _ hi, by rw [hsem]⟩
      · exact hfrom j (by omega) (by omega)

/-- With a cooperating platform `create` returns: it acquires nothing, keeps the
buffer count, the sync index and the presenting flag, and leaves an idle
semaphore in each of the first `m_buffer_count` acquire slots. -/
theorem create_ok (driver : Driver) (s : RHI_SwapChain) (h : driver.cooperates s) :
    ∃ s' calls, create driver s = .ok () s' calls ∧ no_acquire calls ∧
      s'.m_buffer_count = s.m_buffer_count ∧ s'.m_sync_index = s.m_sync_index ∧
      s'.m_present_enabled = s.m_present_enabled ∧
      (∀ j, j < s.m_buffer_count →
        ∃ sem, s'.m_acquire_semaphore.get? j = some (some sem) ∧
          sem.m_cpu_state = RHI_Sync_State.Idle) := by
  obtain ⟨hwin, hsurf, hsupp, hcount, ⟨formats, hformats, hfmt⟩, hswap, himages, hn, hsems⟩ := h
  obtain ⟨surface, hsurface⟩ := Option.isSome_iff_exists.1 hsurf
  obtain ⟨swap_chain, hswap_chain⟩ := Option.isSome_iff_exists.1 hswap
  unfold create
  simp only [if_neg hwin, hsurface, hsupp, get_supported_surface_formats, hcount, hformats,
    hfmt, hswap_chain, Bool.true_eq_false, if_false]
  generalize hs3 : RHI_SwapChain.mk _ _ _ _ _ _ _ _ _ _ _ _ _ _ _ _ _ _ _ = s3
  have hb3 : s3.m_buffer_count = s.m_buffer_count := by rw [← hs3]
  have hy3 : s3.m_sync_index = s.m_sync_index := by rw [← hs3]
  have he3 : s3.m_present_enabled = s.m_present_enabled := by rw [← hs3]
  generalize hc2 : [Call.SDL_Vulkan_CreateSurface s.m_sdl_window] ++
    [Call.vkCreateSwapchainKHR _ _ _ _ _ _ _] = c2
  have hno2 : no_acquire c2 := by
    rw [← hc2]
    exact no_acquire_append (no_acquire_cons _ rfl no_acquire_nil)
      (no_acquire_cons _ rfl no_acquire_nil)
  have himages0 : 0 + driver.swapchain_images.length ≤ max_buffer_count := by omega
  -- the layout transitions, when an immediate command list is handed out
  obtain ⟨layouts, c3, ht, hno3⟩ : ∃ layouts c3,
      (if driver.immediate_cmd_list ≠ 0 then
        ((create_transition_layouts driver.immediate_cmd_list driver.swapchain_images 0
          s3).after [Call.ImmediateBegin]).andThen
          fun _ s4 => Result.ok () s4 [Call.ImmediateSubmit driver.immediate_cmd_list]
      else Result.ok () s3 [Call.ImmediateBegin]) =
        Result.ok () { s3 with m_layouts := layouts } c3 ∧ no_acquire c3 := by
    by_cases hcmd : driver.immediate_cmd_list ≠ 0
    · obtain ⟨layouts, c, heq, hno⟩ := create_transition_layouts_ok
        driver.immediate_cmd_list driver.swapchain_images 0 s3 himages0
      refine ⟨layouts,
        ([Call.ImmediateBegin] ++ c) ++ [Call.ImmediateSubmit driver.immediate_cmd_list], ?_, ?_⟩
      · rw [if_pos hcmd, heq]
        rfl
      · exact no_acquire_append (no_acquire_cons _ rfl hno) (no_acquire_cons _ rfl no_acquire_nil)
    · exact ⟨s3.m_layouts, [Call.ImmediateBegin], by rw [if_neg hcmd],
        no_acquire_cons _ rfl no_acquire_nil⟩
  rw [ht]
  obtain ⟨textures, views, c4, hv, hno4⟩ := create_image_views_ok driver
    (driver.vulkan_format s3.m_format) driver.swapchain_images 0
    { s3 with m_layouts := layouts } himages0
  obtain ⟨sems, c5, hsem, hno5, _, hfresh⟩ := create_semaphores_ok driver s3.m_buffer_count 0
    { s3 with m_layouts := layouts, m_rhi_backbuffer_resource := textures,
              m_rhi_backbuffer_srv := views, m_surface := surface,
              m_rhi_resource := swap_chain }
    (by omega) (fun j hj => hsems j (by omega))
  refine ⟨{ s3 with m_layouts := layouts, m_rhi_backbuffer_resource := textures,
                     m_rhi_backbuffer_srv := views, m_surface := surface,
                     m_rhi_resource := swap_chain, m_acquire_semaphore := sems },
    c2 ++ (c3 ++ (c4 ++ c5)), ?_, no_acquire_append hno2 (no_acquire_append hno3
    (no_acquire_append hno4 hno5)), ?_, ?_, ?_, ?_⟩
  · simp only [Result.andThen, hv, Result.after, hsem]
  · exact hb3
  · exact hy3
  · exact he3
  · intro j hj
    exact hfresh j (Nat.zero_le j) (by omega)

/-- The function `destroy` by its effect on the fields `create` and the acquire read. -/
theorem destroy_ok (s : RHI_SwapChain) :
    ∃ sd calls, destroy s = .ok () sd calls ∧ no_acquire calls ∧
      sd.m_sdl_window = s.m_sdl_window ∧ sd.m_format = s.m_format ∧
      sd.m_buffer_count = s.m_buffer_count ∧ sd.m_sync_index = s.m_sync_index ∧
      sd.m_present_enabled = s.m_present_enabled := by
  obtain ⟨calls, heq, hno⟩ := destroy_eq s
  exact ⟨_, calls, heq, hno, rfl, rfl, rfl, rfl, rfl⟩

/-- Whether the platform cooperates depends on the window, the format and the
buffer count only. -/
theorem Driver.cooperates_congr (driver : Driver) (s t : RHI_SwapChain)
    (hwin : t.m_sdl_window = s.m_sdl_window) (hfmt : t.m_format = s.m_format)
    (hn : t.m_buffer_count = s.m_buffer_count) (h : driver.cooperates s) :
    driver.cooperates t := by
  unfold Driver.cooperates IsHdr at h ⊢
  rw [hwin, hfmt, hn]
  exact h

/-- The acquiring path of `AcquireNextImage`, by its effect on the fields. -/
theorem AcquireNextImage_ok_of_idle (image_index : Nat) (s : RHI_SwapChain) (sem : RHI_Semaphore)
    (hen : s.m_present_enabled = true)
    (hpath : ¬ (s.m_buffer_count = 1 ∧ s.m_image_index ≠ uint32_max))
    (hn : s.m_buffer_count ≠ 0)
    (hsem : s.m_acquire_semaphore.get? s.next_sync_index = some (some sem))
    (hidle : sem.m_cpu_state ≠ RHI_Sync_State.Submitted) :
    ∃ s', AcquireNextImage (some image_index) s =
        .ok () s' [Call.vkAcquireNextImageKHR s.m_rhi_resource sem.m_resource] ∧
      s'.m_sync_index = s.next_sync_index ∧
      s'.m_image_index_previous = s.m_image_index ∧ s'.m_image_index = image_index ∧
      s'.m_buffer_count = s.m_buffer_count ∧ s'.m_present_enabled = s.m_present_enabled ∧
      s'.m_acquire_semaphore.get? s'.m_sync_index =
        some (some (sem.SetCpuState RHI_Sync_State.Submitted)) ∧
      (∀ j, j ≠ s'.m_sync_index →
        s'.m_acquire_semaphore.get? j = s.m_acquire_semaphore.get? j) :=
  ⟨_, AcquireNextImage_eq_of_idle image_index s sem hen hpath hn hsem hidle, rfl, rfl, rfl, rfl,
    rfl, Slots.get?_set_self _ _ (Slots.lt_of_get?_eq_some hsem),
    fun _ hj => Slots.get?_set_of_ne _ _ hj⟩

/-- The whole recreating path of `Resize`: destroy, create, reset of the two image
indices, one acquire. -/
theorem Resize_recreating_path (device : RHI_Device) (driver : Driver) (image_index : Nat)
    (width height : Nat) (force : Bool) (s : RHI_SwapChain)
    (hvalid : device.IsValidResolution width height = true)
    (hneeded : force = true ∨ ¬ (s.m_width = width ∧ s.m_height = height))
    (hn : 1 ≤ s.m_buffer_count)
    (hdrv : driver.cooperates s) :
    ∃ sd destroyed sc created s' acquire,
      destroy { s with m_present_enabled := true, m_width := width, m_height := height } =
        .ok () sd destroyed ∧
      create driver sd = .ok () sc created ∧
      AcquireNextImage (some image_index)
        { sc with m_image_index := uint32_max, m_image_index_previous := uint32_max } =
        .ok () s' [acquire] ∧
      Resize device driver (some image_index) width height force s =
        .ok true s' (destroyed ++ created ++ [acquire]) ∧
      acquire.is_acquire = true ∧ no_acquire (destroyed ++ created) ∧
      s'.m_image_index_previous = uint32_max ∧ s'.m_image_index = image_index ∧
      s'.m_buffer_count = s.m_buffer_count ∧ s'.m_present_enabled = true ∧
      s'.m_sync_index < s.m_buffer_count ∧
      (∃ sem, s'.m_acquire_semaphore.get? s'.m_sync_index = some (some sem) ∧
        sem.m_cpu_state = RHI_Sync_State.Submitted) ∧
      (∀ j, j < s.m_buffer_count → j ≠ s'.m_sync_index →
        ∃ sem, s'.m_acquire_semaphore.get? j = some (some sem) ∧
          sem.m_cpu_state = RHI_Sync_State.Idle) := by
  obtain ⟨S, hS⟩ : ∃ S : RHI_SwapChain,
      S = { s with m_present_enabled := true, m_width := width, m_height := height } :=
    ⟨_, rfl⟩
  obtain ⟨sd, destroyed, hd, hnod, hdw, hdf, hdn, hdy, hde⟩ := destroy_ok S
  have hcoop : driver.cooperates sd :=
    driver.cooperates_congr s sd (by rw [hdw, hS]) (by rw [hdf, hS]) (by rw [hdn, hS]) hdrv
  obtain ⟨sc, created, hc, hnoc, hcn, hcy, hce, hfresh⟩ := create_ok driver sd hcoop
  have hcount : sc.m_buffer_count = s.m_buffer_count := by rw [hcn, hdn, hS]
  have hen : sc.m_present_enabled = true := by rw [hce, hde, hS]
  have hfresh' : ∀ j, j < s.m_buffer_count → ∃ sem, sc.m_acquire_semaphore.get? j =
      some (some sem) ∧ sem.m_cpu_state = RHI_Sync_State.Idle := by
    intro j hj
    exact hfresh j (by rw [hdn, hS]; exact hj)
  obtain ⟨T, hT⟩ : ∃ T : RHI_SwapChain,
      T = { sc with m_image_index := uint32_max, m_image_index_previous := uint32_max } :=
    ⟨_, rfl⟩
  have hTn : T.m_buffer_count = s.m_buffer_count := by rw [hT]; exact hcount
  have hTe : T.m_present_enabled = true := by rw [hT]; exact hen
  have hTi : T.m_image_index = uint32_max := by rw [hT]
  have hTs : T.m_acquire_semaphore = sc.m_acquire_semaphore := by rw [hT]
  have hTne : T.m_buffer_count ≠ 0 := by omega
  have hlt : T.next_sync_index < s.m_buffer_count := hTn ▸ next_sync_index_lt T hTne
  obtain ⟨sem, hsem, hidle⟩ := hfresh' T.next_sync_index hlt
  rw [← hTs] at hsem
  obtain ⟨s', hacq, hy, hp, hi, hb, he, hsub, hother⟩ := AcquireNextImage_ok_of_idle image_index
    T sem hTe (by rw [hTi]; simp) hTne hsem (by rw [hidle]; decide)
  refine ⟨sd, destroyed, sc, created, s',
    Call.vkAcquireNextImageKHR T.m_rhi_resource sem.m_resource,
    by rw [← hS]; exact hd, hc, by rw [← hT]; exact hacq, ?_, rfl,
    no_acquire_append hnod hnoc, by rw [hp, hTi], hi, by rw [hb, hTn], by rw [he, hTe],
    by rw [hy]; exact hlt, ⟨_, hsub, rfl⟩, ?_⟩
  · have hcond : ¬ (force = false ∧ s.m_width = width ∧ s.m_height = height) := by
      rintro ⟨hf, hwh⟩
      rcases hneeded with h | h
      · rw [hf] at h; exact absurd h (by decide)
      · exact h hwh
    unfold Resize
    simp only [hvalid, Bool.true_eq_false, if_false, if_neg hcond]
    rw [← hS, hd]
    simp only [Result.andThen, hc, Result.after]
    rw [← hT, hacq]
    simp [Result.after]
  · intro j hj hne
    rw [hother j hne, hTs]
    exact hfresh' j hj

/-- The example driver cooperates with the triple-buffered example. -/
theorem example_driver_cooperates : example_driver.cooperates example_triple_buffered :=
  ⟨by decide, by decide, by decide, by decide, ⟨_, rfl, by decide⟩, by decide, by decide,
    by decide, fun _ _ => rfl⟩

/-- C10: for a valid resolution and a buffer count from 1 to `max_buffer_count`,
on a platform that cooperates and whose acquires report success, the first with
the index of an image of the chain and the second with an image other than
the one still held, a `Resize` that recreates the chain returns true, the
`AcquireNextImage` that follows returns, and after it
`m_image_index != m_image_index_previous`. -/
theorem Resize_then_AcquireNextImage (device : RHI_Device) (driver : Driver)
    (first second : Nat) (width height : Nat) (force : Bool) (s : RHI_SwapChain)
    (hvalid : device.IsValidResolution width height = true)
    (hneeded : force = true ∨ ¬ (s.m_width = width ∧ s.m_height = height))
    (hn : 1 ≤ s.m_buffer_count ∧ s.m_buffer_count ≤ max_buffer_count)
    (hdrv : driver.cooperates s)
    (hfirst : first < driver.swapchain_images.length)
    (hsecond : second ≠ first) :
    ∃ s1 calls1 s2 calls2,
      Resize device driver (some first) width height force s = .ok true s1 calls1 ∧
      AcquireNextImage (some second) s1 = .ok () s2 calls2 ∧
      s2.m_image_index ≠ s2.m_image_index_previous := by
  obtain ⟨_, destroyed, _, created, s1, acquire, _, _, _, hres, _, _, hprev, hidx, hcount, hen,
    hsync, _, hothers⟩ :=
    Resize_recreating_path device driver first width height force s hvalid hneeded hn.1 hdrv
  have hmax : first ≠ uint32_max := by
    have := hdrv.2.2.2.2.2.2.1
    unfold max_buffer_count at this
    unfold uint32_max
    omega
  refine ⟨s1, destroyed ++ created ++ [acquire], ?_⟩
  by_cases hone : s.m_buffer_count = 1
  · refine ⟨s1, [], hres, ?_, ?_⟩
    · exact AcquireNextImage_early_return _ s1 hen (by rw [hcount, hone]) (by rw [hidx]; exact hmax)
    · rw [hidx, hprev]
      exact hmax
  · have hnext : s1.next_sync_index < s.m_buffer_count ∧ s1.next_sync_index ≠ s1.m_sync_index := by
      have h3 := hn.2
      unfold max_buffer_count at h3
      have h1 := hn.1
      have hwrap : (s1.m_sync_index + 1) % 2 ^ 32 = s1.m_sync_index + 1 :=
        Nat.mod_eq_of_lt (by omega)
      unfold next_sync_index
      rw [hcount, hwrap]
      obtain h | h : s.m_buffer_count = 2 ∨ s.m_buffer_count = 3 := by omega
      · rw [h] at hsync ⊢
        omega
      · rw [h] at hsync ⊢
        omega
    obtain ⟨sem, hsem, hidle⟩ := hothers _ hnext.1 hnext.2
    obtain ⟨s2, hacq, _, hp, hi, _⟩ := AcquireNextImage_ok_of_idle second s1 sem hen
      (by rw [hcount]; exact fun h => hone h.1) (by rw [hcount]; omega) hsem
      (by rw [hidle]; decide)
    refine ⟨s2, [Call.vkAcquireNextImageKHR s1.m_rhi_resource sem.m_resource], hres, hacq, ?_⟩
    rw [hi, hp, hidx]
    exact hsecond

/-- Witness for C10: the triple-buffered example resized to 1024x768, the driver
handing out image 0 and then image 1. -/
theorem Resize_then_AcquireNextImage_witness :
    ∃ s1 calls1 s2 calls2,
      Resize example_device example_driver (some 0) 1024 768 false example_triple_buffered =
        .ok true s1 calls1 ∧
      AcquireNextImage (some 1) s1 = .ok () s2 calls2 ∧
      s2.m_image_index ≠ s2.m_image_index_previous :=
  Resize_then_AcquireNextImage example_device example_driver 0 1 1024 768 false
    example_triple_buffered (by decide) (Or.inr (by decide)) (by decide)
    example_driver_cooperates (by decide) (by decide)

/-! ## The constructor -/

/-- A property of the state that holds after the first part of a sequence and is
kept by the second part holds at the end, however the sequence ends. -/
theorem Result.state_andThen_inv {σ α β : Type} (P : σ → Prop) (r : Result σ α)
    (f : α → σ → Result σ β) (hr : P r.state) (hf : ∀ v t, P t → P (f v t).state) :
    P (r.andThen f).state := by
  cases r with
  | ok v t c =>
    simp only [Result.andThen, Result.state_after]
    exact hf v t hr
  | assert_failed msg t c => exact hr
  | undefined t c => exact hr

theorem create_transition_layouts_present_enabled (cmd_list : Nat) (images : List Nat) :
    ∀ (i : Nat) (s : RHI_SwapChain),
      (create_transition_layouts cmd_list images i s).state.m_present_enabled =
        s.m_present_enabled := by
  induction images with
  | nil => intro i s; rfl
  | cons image rest ih =>
    intro i s
    unfold create_transition_layouts
    by_cases hi : i < max_buffer_count
    · simp only [if_pos hi, Result.state_after, ih]
    · simp only [if_neg hi, Result.state]

theorem create_image_views_present_enabled (driver : Driver) (format : Nat) (images : List Nat) :
    ∀ (i : Nat) (s : RHI_SwapChain),
      (create_image_views driver format images i s).state.m_present_enabled =
        s.m_present_enabled := by
  induction images with
  | nil => intro i s; rfl
  | cons image rest ih =>
    intro i s
    unfold create_image_views
    by_cases hi : i < max_buffer_count
    · simp only [if_pos hi, Result.state_after, ih]
    · simp only [if_neg hi, Result.state]

theorem create_semaphores_present_enabled (driver : Driver) :
    ∀ (remaining i : Nat) (s : RHI_SwapChain),
      (create_semaphores driver remaining i s).state.m_present_enabled =
        s.m_present_enabled := by
  intro remaining
  induction remaining with
  | zero => intro i s; rfl
  | succ remaining ih =>
    intro i s
    unfold create_semaphores
    simp only []
    generalize RHI_Semaphore.construct _ _ _ = r
    cases r with
    | assert_failed msg sem calls => rfl
    | undefined sem calls => rfl
    | ok v sem calls =>
      by_cases hi : i < max_buffer_count
      · simp only [if_pos hi, Result.state_after, ih]
      · simp only [if_neg hi, Result.state]

/-- However `create` ends, it has not written `m_present_enabled`. -/
theorem create_present_enabled (driver : Driver) (s : RHI_SwapChain) :
    (create driver s).state.m_present_enabled = s.m_present_enabled := by
  unfold create
  by_cases hwin : s.m_sdl_window = 0
  · simp only [if_pos hwin, Result.state]
  simp only [if_neg hwin]
  cases driver.created_surface with
  | none => rfl
  | some surface =>
    cases driver.surface_support with
    | none => rfl
    | some support =>
      cases support with
      | false => rfl
      | true =>
        cases get_supported_surface_formats driver with
        | error msg => rfl
        | ok supported_formats =>
          simp only
          by_cases hfmt : (is_format_supported driver.vulkan_format driver.IsNvidia s.m_format
              (get_color_space s.IsHdr) supported_formats).1 = false
          · rw [if_pos hfmt]
            rfl
          rw [if_neg hfmt]
          cases driver.created_swapchain with
          | none => rfl
          | some swap_chain =>
            simp only [Result.state_after]
            refine Result.state_andThen_inv
              (fun t : RHI_SwapChain => t.m_present_enabled = s.m_present_enabled) _ _ ?_ ?_
            · by_cases hcmd : driver.immediate_cmd_list ≠ 0
              · rw [if_pos hcmd]
                refine Result.state_andThen_inv
                  (fun t : RHI_SwapChain => t.m_present_enabled = s.m_present_enabled) _ _ ?_ ?_
                · simp only [Result.state_after, create_transition_layouts_present_enabled]
                · intro _ t ht
                  exact ht
              · rw [if_neg hcmd]
                rfl
            · intro _ t ht
              refine Result.state_andThen_inv
                (fun t : RHI_SwapChain => t.m_present_enabled = s.m_present_enabled) _ _ ?_ ?_
              · beta_reduce
                rw [create_image_views_present_enabled]
                exact ht
              · intro _ t' ht'
                beta_reduce
                rw [create_semaphores_present_enabled]
                exact ht'

/-- A call of `AcquireNextImage` returns only when presenting is enabled. -/
theorem AcquireNextImage_ok_present_enabled (acquired : Option Nat) (s s' : RHI_SwapChain)
    (calls : List Call) (h : AcquireNextImage acquired s = .ok () s' calls) :
    s.m_present_enabled = true := by
  by_contra hen
  have hfalse : s.m_present_enabled = false := by simpa using hen
  simp [AcquireNextImage, hfalse] at h

/-- A construction with a valid resolution returns only from an object that had
presenting enabled to begin with. -/
theorem construct_ok_present_enabled (device : RHI_Device) (driver : Driver)
    (acquired : Option Nat) (sdl_window width height : Nat) (format : RHI_Format)
    (buffer_count flags : Nat) (name : String) (fresh s' : RHI_SwapChain) (calls : List Call)
    (hvalid : device.IsValidResolution width height = true)
    (h : construct device driver acquired sdl_window width height format buffer_count flags
      name fresh = .ok () s' calls) :
    fresh.m_present_enabled = true := by
  unfold construct at h
  simp only [hvalid, Bool.true_eq_false, if_false] at h
  generalize hs7 : RHI_SwapChain.mk _ _ _ _ _ _ _ _ _ _ _ _ _ _ _ _ _ _ _ = s7 at h
  have hen7 : s7.m_present_enabled = fresh.m_present_enabled := by rw [← hs7]
  have hframe := create_present_enabled driver s7
  cases hc : create driver s7 with
  | assert_failed msg st c => rw [hc] at h; exact absurd h (by simp [Result.andThen, Result.after])
  | undefined st c => rw [hc] at h; exact absurd h (by simp [Result.andThen, Result.after])
  | ok v s8 c =>
    rw [hc] at h hframe
    simp only [Result.andThen, Result.state] at h hframe
    cases ha : AcquireNextImage acquired s8 with
    | assert_failed msg st c' => rw [ha] at h; exact absurd h (by simp [Result.after])
    | undefined st c' => rw [ha] at h; exact absurd h (by simp [Result.after])
    | ok v' s9 c' =>
      have := AcquireNextImage_ok_present_enabled acquired s8 s9 c' ha
      rw [← hen7, ← hframe]
      exact this

/-- C11, counterexample: the example object is one on which a construction with
a valid resolution returns; constructed with the invalid resolution 0x0 it
comes back untouched, and `m_present_enabled` is true, not false. -/
theorem invalid_construction_keeps_present_enabled :
    example_device.IsValidResolution 0 0 = false ∧
    (construct example_device example_driver (some 0) 1 800 600
      RHI_Format.RHI_Format_R8G8B8A8_Unorm 3 0 "main" example_fresh).returned = true ∧
    construct example_device example_driver (some 0) 1 0 0
      RHI_Format.RHI_Format_R8G8B8A8_Unorm 3 0 "main" example_fresh = .ok () example_fresh [] ∧
    example_fresh.m_present_enabled = true := by
  decide

/-- C11, amended: constructing a swapchain with a resolution the device reports
as invalid makes no call at all (no surface, swapchain, image view, semaphore
or acquire) and leaves every field as the member initialisers set it,
`m_present_enabled` included; that flag is true on every object from which a
construction with a valid resolution can return, so presenting is not
disabled. If the initialisers null the two handles, the image views and the
acquire semaphores, the destructor only waits for the queues: it enqueues
nothing and destroys no swapchain or surface. -/
theorem construct_invalid_resolution (device : RHI_Device) (driver : Driver)
    (acquired : Option Nat) (sdl_window width height : Nat) (format : RHI_Format)
    (buffer_count flags : Nat) (name : String) (fresh : RHI_SwapChain)
    (hinvalid : device.IsValidResolution width height = false) :
    construct device driver acquired sdl_window width height format buffer_count flags
      name fresh = .ok () fresh [] ∧
    (∀ device' driver' acquired' sdl_window' width' height' format' buffer_count' flags' name'
        s' calls,
      device'.IsValidResolution width' height' = true →
      construct device' driver' acquired' sdl_window' width' height' format' buffer_count'
        flags' name' fresh = .ok () s' calls →
      fresh.m_present_enabled = true) ∧
    (fresh.m_surface = 0 → fresh.m_rhi_resource = 0 →
      fresh.m_rhi_backbuffer_srv = Slots.fill 0 →
      fresh.m_acquire_semaphore = Slots.fill none →
      destruct fresh = .ok () fresh [Call.QueueWaitAll]) := by
  refine ⟨by simp [construct, hinvalid], ?_, ?_⟩
  · intro device' driver' acquired' sdl_window' width' height' format' buffer_count' flags'
      name' s' calls hvalid hok
    exact construct_ok_present_enabled device' driver' acquired' sdl_window' width' height'
      format' buffer_count' flags' name' fresh s' calls hvalid hok
  · intro h1 h2 h3 h4
    obtain ⟨oid, name, win, surf, res, en, n, w, h, fl, fmt, sync, idx, prev, lay, bres, bsrv,
      sems, wait⟩ := fresh
    simp only at h1 h2 h3 h4
    subst h1 h2 h3 h4
    rfl

/-- Witness for C11 (amended): the example object constructed at 0x0. -/
theorem construct_invalid_resolution_witness :
    construct example_device example_driver (some 0) 1 0 0
      RHI_Format.RHI_Format_R8G8B8A8_Unorm 3 0 "main" example_fresh = .ok () example_fresh [] ∧
    destruct example_fresh = .ok () example_fresh [Call.QueueWaitAll] :=
  have h := construct_invalid_resolution example_device example_driver (some 0) 1 0 0
    RHI_Format.RHI_Format_R8G8B8A8_Unorm 3 0 "main" example_fresh (by decide)
  ⟨h.1, h.2.2 rfl rfl rfl rfl⟩

/-! ## Present mode and surface format -/

/-- The search loop of `get_present_mode` finds the preferred mode exactly when
the list holds it. -/
theorem find_present_mode_eq (preferred : VkPresentModeKHR) (modes : List VkPresentModeKHR) :
    find_present_mode preferred modes =
      if preferred ∈ modes then preferred else VkPresentModeKHR.VK_PRESENT_MODE_FIFO_KHR := by
  induction modes with
  | nil => simp [find_present_mode]
  | cons mode rest ih =>
    unfold find_present_mode
    by_cases h : preferred = mode
    · simp [h]
    · simp [h, ih]

/-- The five conditional assignments of `get_present_mode` amount to a priority
list in which the flag tested last wins. -/
theorem present_mode_preferred_eq (bits : RHI_Present_Mode) (flags : Nat) :
    present_mode_preferred bits flags = present_mode_by_priority bits flags := by
  unfold present_mode_preferred present_mode_by_priority
  by_cases h5 : flags &&& bits.RHI_Present_SharedDContinuousRefresh ≠ 0
  · simp only [if_pos h5]
  by_cases h4 : flags &&& bits.RHI_Present_SharedDemandRefresh ≠ 0
  · simp only [if_neg h5, if_pos h4]
  by_cases h3 : flags &&& bits.RHI_Present_FifoRelaxed ≠ 0
  · simp only [if_neg h5, if_neg h4, if_pos h3]
  by_cases h2 : flags &&& bits.RHI_Present_Fifo ≠ 0
  · simp only [if_neg h5, if_neg h4, if_neg h3, if_pos h2]
  simp only [if_neg h5, if_neg h4, if_neg h3, if_neg h2]

/-- C12, counterexample: with the Immediate and the Fifo-relaxed flag set and a
surface that supports Fifo and Immediate, the specified resolution is
Immediate, but `get_present_mode` returns Fifo: the later flag decides the one
preferred mode, and an unsupported preferred mode falls straight back to Fifo. -/
theorem get_present_mode_no_fallback_chain :
    (1 ||| 8) &&& example_present_bits.RHI_Present_Immediate ≠ 0 ∧
    (1 ||| 8) &&& example_present_bits.RHI_Present_FifoRelaxed ≠ 0 ∧
    specified_present_mode example_present_bits
      [VkPresentModeKHR.VK_PRESENT_MODE_FIFO_KHR, VkPresentModeKHR.VK_PRESENT_MODE_IMMEDIATE_KHR]
      (1 ||| 8) = VkPresentModeKHR.VK_PRESENT_MODE_IMMEDIATE_KHR ∧
    get_present_mode example_present_bits
      [VkPresentModeKHR.VK_PRESENT_MODE_FIFO_KHR, VkPresentModeKHR.VK_PRESENT_MODE_IMMEDIATE_KHR]
      (1 ||| 8) = VkPresentModeKHR.VK_PRESENT_MODE_FIFO_KHR := by
  decide

/-- C12, amended: for every flag word and every list of supported modes,
`get_present_mode` settles on one preferred mode, that of the highest flag set
in the order SharedDContinuousRefresh, SharedDemandRefresh, FifoRelaxed, Fifo
(which stands for Mailbox), Immediate, and Fifo when none is set; it returns
that mode when the surface lists it and Fifo otherwise, without trying any
other requested mode. -/
theorem get_present_mode_by_priority (bits : RHI_Present_Mode)
    (surface_present_modes : List VkPresentModeKHR) (flags : Nat) :
    (present_mode_by_priority bits flags ∈ surface_present_modes →
      get_present_mode bits surface_present_modes flags = present_mode_by_priority bits flags) ∧
    (present_mode_by_priority bits flags ∉ surface_present_modes →
      get_present_mode bits surface_present_modes flags =
        VkPresentModeKHR.VK_PRESENT_MODE_FIFO_KHR) := by
  unfold get_present_mode
  rw [find_present_mode_eq, present_mode_preferred_eq]
  exact ⟨fun h => if_pos h, fun h => if_neg h⟩

/-- Witness for C12 (amended): Immediate and Fifo-relaxed requested, Fifo-relaxed
not supported. -/
theorem get_present_mode_by_priority_witness :
    get_present_mode example_present_bits
      [VkPresentModeKHR.VK_PRESENT_MODE_FIFO_KHR, VkPresentModeKHR.VK_PRESENT_MODE_IMMEDIATE_KHR]
      (1 ||| 8) = VkPresentModeKHR.VK_PRESENT_MODE_FIFO_KHR :=
  (get_present_mode_by_priority example_present_bits
    [VkPresentModeKHR.VK_PRESENT_MODE_FIFO_KHR, VkPresentModeKHR.VK_PRESENT_MODE_IMMEDIATE_KHR]
    (1 ||| 8)).2 (by decide)

/-- The search loop of `is_format_supported` is true exactly when the pair is listed. -/
theorem format_listed_iff (format : Nat) (color_space : VkColorSpaceKHR)
    (supported_formats : List VkSurfaceFormatKHR) :
    format_listed format color_space supported_formats = true ↔
      ∃ supported_format ∈ supported_formats,
        supported_format.format = format ∧ supported_format.colorSpace = color_space := by
  induction supported_formats with
  | nil => simp [format_listed]
  | cons supported_format rest ih =>
    unfold format_listed
    by_cases h : supported_format.format = format ∧ supported_format.colorSpace = color_space
    · simp [h]
    · rw [if_neg h, ih]
      constructor
      · rintro ⟨sf, hmem, hsf⟩
        exact ⟨sf, List.mem_cons_of_mem _ hmem, hsf⟩
      · rintro ⟨sf, hmem, hsf⟩
        rcases List.mem_cons.1 hmem with rfl | hmem
        · exact absurd hsf h
        · exact ⟨sf, hmem, hsf⟩

/-- C13, counterexample: on an Nvidia device, with `R8G8B8A8_Unorm` requested and
listed by the surface in the requested colour space, `is_format_supported`
still replaces the format by `B8R8G8A8_Unorm`; here that one is not listed and
the function returns false. -/
theorem is_format_supported_replaces_supported_format :
    format_listed (example_driver.vulkan_format RHI_Format.RHI_Format_R8G8B8A8_Unorm)
      VkColorSpaceKHR.VK_COLOR_SPACE_SRGB_NONLINEAR_KHR
      [⟨37, VkColorSpaceKHR.VK_COLOR_SPACE_SRGB_NONLINEAR_KHR⟩] = true ∧
    is_format_supported example_driver.vulkan_format true RHI_Format.RHI_Format_R8G8B8A8_Unorm
      VkColorSpaceKHR.VK_COLOR_SPACE_SRGB_NONLINEAR_KHR
      [⟨37, VkColorSpaceKHR.VK_COLOR_SPACE_SRGB_NONLINEAR_KHR⟩] =
      (false, RHI_Format.RHI_Format_B8R8G8A8_Unorm) := by
  decide

/-- C13, amended: `is_format_supported` changes the format to `B8R8G8A8_Unorm`
exactly when it is `R8G8B8A8_Unorm` and the primary physical device is Nvidia,
whether or not the requested format is in the supported list, and leaves it as
requested in every other case; it returns true exactly when the format it
leaves, paired with the requested colour space, occurs in the supported list. -/
theorem is_format_supported_spec (vulkan_format : RHI_Format → Nat) (is_nvidia : Bool)
    (format : RHI_Format) (color_space : VkColorSpaceKHR)
    (supported_formats : List VkSurfaceFormatKHR) :
    ((format = RHI_Format.RHI_Format_R8G8B8A8_Unorm ∧ is_nvidia = true) →
      (is_format_supported vulkan_format is_nvidia format color_space supported_formats).2 =
        RHI_Format.RHI_Format_B8R8G8A8_Unorm) ∧
    (¬ (format = RHI_Format.RHI_Format_R8G8B8A8_Unorm ∧ is_nvidia = true) →
      (is_format_supported vulkan_format is_nvidia format color_space supported_formats).2 =
        format) ∧
    ((is_format_supported vulkan_format is_nvidia format color_space supported_formats).1 = true ↔
      ∃ supported_format ∈ supported_formats,
        supported_format.format = vulkan_format
          (is_format_supported vulkan_format is_nvidia format color_space supported_formats).2 ∧
        supported_format.colorSpace = color_space) := by
  refine ⟨fun h => ?_, fun h => ?_, ?_⟩
  · simp only [is_format_supported, if_pos h]
  · simp only [is_format_supported, if_neg h]
  · simp only [is_format_supported]
    exact format_listed_iff _ _ _

/-- Witness for C13 (amended): the Nvidia case of the counterexample. -/
theorem is_format_supported_spec_witness :
    (is_format_supported example_driver.vulkan_format true RHI_Format.RHI_Format_R8G8B8A8_Unorm
      VkColorSpaceKHR.VK_COLOR_SPACE_SRGB_NONLINEAR_KHR
      [⟨37, VkColorSpaceKHR.VK_COLOR_SPACE_SRGB_NONLINEAR_KHR⟩]).2 =
      RHI_Format.RHI_Format_B8R8G8A8_Unorm :=
  (is_format_supported_spec example_driver.vulkan_format true
    RHI_Format.RHI_Format_R8G8B8A8_Unorm VkColorSpaceKHR.VK_COLOR_SPACE_SRGB_NONLINEAR_KHR
    [⟨37, VkColorSpaceKHR.VK_COLOR_SPACE_SRGB_NONLINEAR_KHR⟩]).1 ⟨rfl, rfl⟩

/-! ## SetHdr and SetLayout -/

/-- C14: in every swapchain state, `SetHdr(true)` on a display that reports no HDR
support stops at the precondition assertion with the state untouched
(`m_format` included) and no call made, so without a `Resize`. -/
theorem SetHdr_without_display_support (device : RHI_Device) (driver : Driver)
    (acquired : Option Nat) (s : RHI_SwapChain) :
    SetHdr false device driver acquired true s =
      .assert_failed "This display doesn' support HDR" s [] := by
  simp [SetHdr]

/-- C15: when the HDR precondition holds, `SetHdr(enabled)` compares the target
format with `m_format`. If they differ it stores the target format and runs
`Resize(m_width, m_height, true)` on the result, which recreates the chain
whenever the stored extent is a valid resolution and the platform cooperates;
if they are equal it changes no field and makes no call. -/
theorem SetHdr_format_change (display_hdr : Bool) (device : RHI_Device) (driver : Driver)
    (acquired : Option Nat) (enabled : Bool) (s : RHI_SwapChain)
    (hpre : enabled = true → display_hdr = true) :
    (hdr_target_format enabled ≠ s.m_format →
      SetHdr display_hdr device driver acquired enabled s =
        (Resize device driver acquired s.m_width s.m_height true
          { s with m_format := hdr_target_format enabled }).andThen
          fun _ s2 => .ok () s2 []) ∧
    (hdr_target_format enabled ≠ s.m_format →
      device.IsValidResolution s.m_width s.m_height = true → 1 ≤ s.m_buffer_count →
      driver.cooperates { s with m_format := hdr_target_format enabled } →
      ∀ image_index, ∃ s' calls acquire,
        SetHdr display_hdr device driver (some image_index) enabled s =
          .ok () s' (calls ++ [acquire]) ∧
        acquire.is_acquire = true ∧ s'.m_image_index = image_index) ∧
    (hdr_target_format enabled = s.m_format →
      SetHdr display_hdr device driver acquired enabled s = .ok () s []) := by
  have hassert : ¬ (enabled = true ∧ display_hdr = false) := by
    rintro ⟨he, hd⟩
    rw [hpre he] at hd
    exact absurd hd (by decide)
  have hdiff : ∀ acquired', hdr_target_format enabled ≠ s.m_format →
      SetHdr display_hdr device driver acquired' enabled s =
        (Resize device driver acquired' s.m_width s.m_height true
          { s with m_format := hdr_target_format enabled }).andThen
          fun _ s2 => .ok () s2 [] := by
    intro acquired' h
    unfold SetHdr
    rw [if_neg hassert]
    unfold hdr_target_format at h ⊢
    simp only [if_pos h]
  refine ⟨hdiff acquired, ?_, ?_⟩
  · intro h hvalid hn hdrv image_index
    obtain ⟨_, destroyed, _, created, s', acquire, _, _, _, hres, hacq, _, _, hidx, _⟩ :=
      Resize_recreating_path device driver image_index s.m_width s.m_height true
        { s with m_format := hdr_target_format enabled } hvalid (Or.inl rfl) hn hdrv
    refine ⟨s', destroyed ++ created, acquire, ?_, hacq, hidx⟩
    rw [hdiff (some image_index) h, hres]
    simp [Result.andThen, Result.after]
  · intro h
    unfold SetHdr
    rw [if_neg hassert]
    unfold hdr_target_format at h
    simp only [ne_eq, h, not_true_eq_false, if_false]

/-- Witness for C15: switching HDR on for the triple-buffered example, on a
display that supports it, with a driver that lists the ten-bit format. -/
theorem SetHdr_format_change_witness :
    SetHdr true example_device example_driver (some 0) true example_triple_buffered =
      (Resize example_device example_driver (some 0) 800 600 true
        { example_triple_buffered with m_format := RHI_Format.RHI_Format_R10G10B10A2_Unorm }).andThen
        fun _ s2 => .ok () s2 [] :=
  (SetHdr_format_change true example_device example_driver (some 0) true
    example_triple_buffered (fun _ => rfl)).1 (by decide)

/-- C16: on a swapchain whose acquired image index is below the buffer count (and
so inside the arrays), `SetLayout(L, cmd)` issues no command and changes
nothing when the recorded layout of that image is `L`; otherwise it issues
exactly one transition, from the recorded layout to `L`, on the backbuffer at
`m_image_index`, records `L` for that slot and leaves every other slot and
field as it was. A second `SetLayout(L, cmd)` issues no command. -/
theorem SetLayout_spec (layout : RHI_Image_Layout) (cmd_list : Nat) (s : RHI_SwapChain)
    (hidx : s.m_image_index < s.m_buffer_count) (hn : s.m_buffer_count ≤ max_buffer_count) :
    ∃ current image,
      s.m_layouts.get? s.m_image_index = some current ∧
      s.m_rhi_backbuffer_resource.get? s.m_image_index = some image ∧
      (current = layout → SetLayout layout cmd_list s = .ok () s []) ∧
      (current ≠ layout →
        ∃ layouts, SetLayout layout cmd_list s =
            .ok () { s with m_layouts := layouts }
              [Call.image_set_layout cmd_list image current layout] ∧
          layouts.get? s.m_image_index = some layout ∧
          (∀ j, j ≠ s.m_image_index → layouts.get? j = s.m_layouts.get? j)) ∧
      (∀ s' calls, SetLayout layout cmd_list s = .ok () s' calls →
        SetLayout layout cmd_list s' = .ok () s' []) := by
  have hlt : s.m_image_index < max_buffer_count := by omega
  obtain ⟨current, hcur⟩ := Slots.get?_eq_some_of_lt s.m_layouts hlt
  obtain ⟨image, himg⟩ := Slots.get?_eq_some_of_lt s.m_rhi_backbuffer_resource hlt
  have hsame : current = layout → SetLayout layout cmd_list s = .ok () s [] := by
    intro h
    simp only [SetLayout, hcur, h, if_true]
  have hother : current ≠ layout → SetLayout layout cmd_list s =
      .ok () { s with m_layouts := s.m_layouts.set s.m_image_index layout }
        [Call.image_set_layout cmd_list image current layout] := by
    intro h
    simp only [SetLayout, hcur, if_neg h, himg]
  refine ⟨current, image, hcur, himg, hsame, ?_, ?_⟩
  · intro h
    exact ⟨_, hother h, Slots.get?_set_self _ _ hlt, fun j hj => Slots.get?_set_of_ne _ _ hj⟩
  · intro s' calls hok
    by_cases h : current = layout
    · rw [hsame h] at hok
      simp only [Result.ok.injEq, true_and] at hok
      rw [← hok.1]
      exact hsame h
    · rw [hother h] at hok
      simp only [Result.ok.injEq, true_and] at hok
      rw [← hok.1]
      simp only [SetLayout, Slots.get?_set_self _ _ hlt, if_true]

/-- Witness for C16: the triple-buffered example after its first acquire (image 1),
whose recorded layout is still the attachment layout. -/
theorem SetLayout_spec_witness :
    ∃ current image,
      example_acquired.m_layouts.get? example_acquired.m_image_index = some current ∧
      example_acquired.m_rhi_backbuffer_resource.get? example_acquired.m_image_index =
        some image :=
  have ⟨current, image, h1, h2, _⟩ := SetLayout_spec RHI_Image_Layout.Present_Src 80
    example_acquired (by decide) (by decide)
  ⟨current, image, h1, h2⟩

/-! ## Semaphore operations -/

/-- What `Reset` does when the driver creates the new semaphore. -/
theorem RHI_Semaphore.Reset_eq_of_created (handle : Nat) (sem : RHI_Semaphore) :
    sem.Reset (some handle) =
      .ok () { sem with m_resource := handle, m_cpu_state := RHI_Sync_State.Idle }
        ([Call.QueueWaitAll] ++
          (if sem.m_resource = 0 then [] else [Call.vkDestroySemaphore sem.m_resource]) ++
          [Call.vkCreateSemaphore sem.m_is_timeline]) := by
  by_cases h : sem.m_resource = 0
  · simp [RHI_Semaphore.Reset, destroy_semaphore, create_semaphore, h]
  · simp [RHI_Semaphore.Reset, destroy_semaphore, create_semaphore, h]

/-- What `Reset` does when the driver fails to create the new semaphore. -/
theorem RHI_Semaphore.Reset_eq_of_not_created (sem : RHI_Semaphore) :
    sem.Reset none =
      .assert_failed "Failed to create semaphore" { sem with m_resource := 0 }
        ([Call.QueueWaitAll] ++
          (if sem.m_resource = 0 then [] else [Call.vkDestroySemaphore sem.m_resource]) ++
          [Call.vkCreateSemaphore sem.m_is_timeline]) := by
  by_cases h : sem.m_resource = 0
  · simp [RHI_Semaphore.Reset, destroy_semaphore, create_semaphore, h]
  · simp [RHI_Semaphore.Reset, destroy_semaphore, create_semaphore, h]

/-- However `Reset` ends, the timeline flag is what it was. -/
theorem RHI_Semaphore.Reset_is_timeline (created : Option Nat) (sem : RHI_Semaphore) :
    (sem.Reset created).state.m_is_timeline = sem.m_is_timeline := by
  cases created with
  | none => rw [RHI_Semaphore.Reset_eq_of_not_created]; rfl
  | some handle => rw [RHI_Semaphore.Reset_eq_of_created]; rfl

/-- C17: for every semaphore, binary or timeline, in either cpu state, with a null
or a non-null handle, `Reset` never fails the `resource == nullptr` assertion
of `create_semaphore`; and when the driver creates the new semaphore, `Reset`
returns with `cpu_state == Idle`, the timeline flag and the name unchanged and
the new handle in place, after waiting for the queues, destroying the old
handle if there was one, and creating the new one. -/
theorem Reset_spec (sem : RHI_Semaphore) :
    (∀ created st calls,
      sem.Reset created ≠ .assert_failed "resource == nullptr" st calls) ∧
    (∀ handle, ∃ sem', sem.Reset (some handle) =
        .ok () sem'
          ([Call.QueueWaitAll] ++
            (if sem.m_resource = 0 then [] else [Call.vkDestroySemaphore sem.m_resource]) ++
            [Call.vkCreateSemaphore sem.m_is_timeline]) ∧
      sem'.m_cpu_state = RHI_Sync_State.Idle ∧ sem'.m_is_timeline = sem.m_is_timeline ∧
      sem'.m_resource = handle ∧ sem'.m_name = sem.m_name) := by
  constructor
  · intro created st calls h
    cases created with
    | none =>
      rw [RHI_Semaphore.Reset_eq_of_not_created] at h
      simp only [Result.assert_failed.injEq] at h
      exact absurd h.1 (by decide)
    | some handle =>
      rw [RHI_Semaphore.Reset_eq_of_created] at h
      exact absurd h (by simp)
  · intro handle
    exact ⟨_, RHI_Semaphore.Reset_eq_of_created handle sem, rfl, rfl, rfl, rfl⟩

/-- A run of `Reset` calls keeps the timeline flag. -/
theorem reset_repeatedly_is_timeline (answers : List (Option Nat)) :
    ∀ sem : RHI_Semaphore,
      (reset_repeatedly answers sem).state.m_is_timeline = sem.m_is_timeline := by
  induction answers with
  | nil => intro sem; rfl
  | cons created rest ih =>
    intro sem
    unfold reset_repeatedly
    refine Result.state_andThen_inv
      (fun t : RHI_Semaphore => t.m_is_timeline = sem.m_is_timeline) _ _
      (RHI_Semaphore.Reset_is_timeline created sem) ?_
    intro _ t ht
    beta_reduce
    rw [ih t]
    exact ht

/-- A semaphore that was constructed has the timeline flag it was constructed with. -/
theorem RHI_Semaphore.construct_is_timeline (created : Option Nat) (is_timeline : Bool)
    (name : Option String) :
    (RHI_Semaphore.construct created is_timeline name).state.m_is_timeline = is_timeline := by
  cases created with
  | none => rfl
  | some handle =>
    cases name with
    | none => rfl
    | some n => rfl

/-- C18: a semaphore that was constructed with `is_timeline == false` and then
reset any number of times fails the `m_is_timeline` assertion in each of
`Wait`, `Signal` and `GetValue`, before any call and without a change of
state; one constructed with `is_timeline == true` never fails that assertion
in any of the three. The flag after the resets is the one given to the
constructor, and no operation (`Reset`, `Wait`, `Signal`, `GetValue`,
`SetCpuState`) changes it, however the operation ends. -/
theorem timeline_flag_guards_operations (created : Option Nat) (is_timeline : Bool)
    (name : Option String) (answers : List (Option Nat)) (sem sem' : RHI_Semaphore)
    (c c' : List Call)
    (hconstructed : RHI_Semaphore.construct created is_timeline name = .ok () sem c)
    (hreset : reset_repeatedly answers sem = .ok () sem' c') :
    sem'.m_is_timeline = is_timeline ∧
    (is_timeline = false →
      (∀ waited value timeout,
        sem'.Wait waited value timeout = .assert_failed "m_is_timeline" sem' []) ∧
      (∀ signalled value, sem'.Signal signalled value = .assert_failed "m_is_timeline" sem' []) ∧
      (∀ counter, sem'.GetValue counter = .assert_failed "m_is_timeline" sem' [])) ∧
    (is_timeline = true →
      (∀ waited value timeout st calls,
        sem'.Wait waited value timeout ≠ .assert_failed "m_is_timeline" st calls) ∧
      (∀ signalled value st calls,
        sem'.Signal signalled value ≠ .assert_failed "m_is_timeline" st calls) ∧
      (∀ counter st calls, sem'.GetValue counter ≠ .assert_failed "m_is_timeline" st calls)) ∧
    ((∀ answer, (sem'.Reset answer).state.m_is_timeline = sem'.m_is_timeline) ∧
      (∀ waited value timeout,
        (sem'.Wait waited value timeout).state.m_is_timeline = sem'.m_is_timeline) ∧
      (∀ signalled value, (sem'.Signal signalled value).state.m_is_timeline = sem'.m_is_timeline) ∧
      (∀ counter, (sem'.GetValue counter).state.m_is_timeline = sem'.m_is_timeline) ∧
      (∀ state, (sem'.SetCpuState state).m_is_timeline = sem'.m_is_timeline)) := by
  have h1 : sem.m_is_timeline = is_timeline := by
    have := RHI_Semaphore.construct_is_timeline created is_timeline name
    rw [hconstructed] at this
    exact this
  have h2 : sem'.m_is_timeline = is_timeline := by
    have := reset_repeatedly_is_timeline answers sem
    rw [hreset] at this
    exact this.trans h1
  refine ⟨h2, ?_, ?_, ?_⟩
  · intro hfalse
    rw [hfalse] at h2
    exact ⟨fun _ _ _ => by simp [RHI_Semaphore.Wait, h2],
      fun _ _ => by simp [RHI_Semaphore.Signal, h2],
      fun _ => by simp [RHI_Semaphore.GetValue, h2]⟩
  · intro htrue
    rw [htrue] at h2
    refine ⟨?_, ?_, ?_⟩
    · intro waited value timeout st calls h
      cases waited <;> simp [RHI_Semaphore.Wait, h2] at h
    · intro signalled value st calls h
      cases signalled <;> simp [RHI_Semaphore.Signal, h2] at h
    · intro counter st calls h
      cases counter <;> simp [RHI_Semaphore.GetValue, h2] at h
  · refine ⟨fun answer => RHI_Semaphore.Reset_is_timeline answer sem', ?_, ?_, ?_, fun _ => rfl⟩
    · intro waited value timeout
      unfold RHI_Semaphore.Wait
      split_ifs <;> rfl
    · intro signalled value
      unfold RHI_Semaphore.Signal
      split_ifs <;> rfl
    · intro counter
      unfold RHI_Semaphore.GetValue
      cases counter <;> split_ifs <;> rfl

/-- Witness for C18: a binary semaphore, constructed and reset twice, refuses `Wait`. -/
theorem timeline_flag_guards_operations_witness :
    ∃ sem' : RHI_Semaphore, ∀ waited value timeout,
      sem'.Wait waited value timeout = .assert_failed "m_is_timeline" sem' [] :=
  ⟨(reset_repeatedly [some 6, some 7] (RHI_Semaphore.construct (some 5) false none).state).state,
    (timeline_flag_guards_operations (some 5) false none [some 6, some 7]
      (RHI_Semaphore.construct (some 5) false none).state
      (reset_repeatedly [some 6, some 7] (RHI_Semaphore.construct (some 5) false none).state).state
      (RHI_Semaphore.construct (some 5) false none).calls
      (reset_repeatedly [some 6, some 7] (RHI_Semaphore.construct (some 5) false none).state).calls
      (by decide) (by decide)).2.1 rfl |>.1⟩

/-! ## The fallback of the present mode -/

/-- With none of the five present flags set, the preferred mode is FIFO. -/
theorem present_mode_preferred_of_no_flag (bits : RHI_Present_Mode) (flags : Nat)
    (h1 : flags &&& bits.RHI_Present_Immediate = 0)
    (h2 : flags &&& bits.RHI_Present_Fifo = 0)
    (h3 : flags &&& bits.RHI_Present_FifoRelaxed = 0)
    (h4 : flags &&& bits.RHI_Present_SharedDemandRefresh = 0)
    (h5 : flags &&& bits.RHI_Present_SharedDContinuousRefresh = 0) :
    present_mode_preferred bits flags = VkPresentModeKHR.VK_PRESENT_MODE_FIFO_KHR := by
  simp [present_mode_preferred, h1, h2, h3, h4, h5]

/-- C23: for every flag word and every list of supported present modes,
`get_present_mode` returns the preferred mode derived from the flags when that
mode occurs in the supported list and `VK_PRESENT_MODE_FIFO_KHR` otherwise.
The preferred mode is spelled out flag by flag: the shared-continuous mode when
its flag is set; else the shared-demand mode when its flag is set; else
Fifo-relaxed, else Mailbox (requested by `RHI_Present_Fifo`), else Immediate,
each when its flag is set; FIFO when no flag is set. With none of the present
flags set the function returns FIFO; and whenever FIFO is in the supported
list, the returned mode is a supported mode. -/
theorem get_present_mode_fallback (bits : RHI_Present_Mode)
    (surface_present_modes : List VkPresentModeKHR) (flags : Nat) :
    (∀ preferred : VkPresentModeKHR,
      (if flags &&& bits.RHI_Present_SharedDContinuousRefresh ≠ 0 then
          preferred = VkPresentModeKHR.VK_PRESENT_MODE_SHARED_CONTINUOUS_REFRESH_KHR
        else if flags &&& bits.RHI_Present_SharedDemandRefresh ≠ 0 then
          preferred = VkPresentModeKHR.VK_PRESENT_MODE_SHARED_DEMAND_REFRESH_KHR
        else if flags &&& bits.RHI_Present_FifoRelaxed ≠ 0 then
          preferred = VkPresentModeKHR.VK_PRESENT_MODE_FIFO_RELAXED_KHR
        else if flags &&& bits.RHI_Present_Fifo ≠ 0 then
          preferred = VkPresentModeKHR.VK_PRESENT_MODE_MAILBOX_KHR
        else if flags &&& bits.RHI_Present_Immediate ≠ 0 then
          preferred = VkPresentModeKHR.VK_PRESENT_MODE_IMMEDIATE_KHR
        else preferred = VkPresentModeKHR.VK_PRESENT_MODE_FIFO_KHR) →
      (preferred ∈ surface_present_modes →
        get_present_mode bits surface_present_modes flags = preferred) ∧
      (preferred ∉ surface_present_modes →
        get_present_mode bits surface_present_modes flags =
          VkPresentModeKHR.VK_PRESENT_MODE_FIFO_KHR)) ∧
    (flags &&& bits.RHI_Present_Immediate = 0 → flags &&& bits.RHI_Present_Fifo = 0 →
      flags &&& bits.RHI_Present_FifoRelaxed = 0 →
      flags &&& bits.RHI_Present_SharedDemandRefresh = 0 →
      flags &&& bits.RHI_Present_SharedDContinuousRefresh = 0 →
      get_present_mode bits surface_present_modes flags =
        VkPresentModeKHR.VK_PRESENT_MODE_FIFO_KHR) ∧
    (VkPresentModeKHR.VK_PRESENT_MODE_FIFO_KHR ∈ surface_present_modes →
      get_present_mode bits surface_present_modes flags ∈ surface_present_modes) := by
  unfold get_present_mode
  rw [find_present_mode_eq]
  refine ⟨?_, ?_, ?_⟩
  · intro preferred hpref
    have heq : preferred = present_mode_preferred bits flags := by
      rw [present_mode_preferred_eq]
      unfold present_mode_by_priority
      split_ifs at hpref ⊢ <;> exact hpref
    rw [← heq]
    exact ⟨fun h => if_pos h, fun h => if_neg h⟩
  · intro h1 h2 h3 h4 h5
    rw [present_mode_preferred_of_no_flag bits flags h1 h2 h3 h4 h5]
    exact ite_self _
  · intro hfifo
    by_cases h : present_mode_preferred bits flags ∈ surface_present_modes
    · rw [if_pos h]
      exact h
    · rw [if_neg h]
      exact hfifo

/-- Witness for C23: the surface lists FIFO and Immediate. With the Immediate flag
set the function returns Immediate; with the Fifo-relaxed flag set, a mode the
surface does not list, it returns FIFO. -/
theorem get_present_mode_fallback_witness :
    get_present_mode example_present_bits
      [VkPresentModeKHR.VK_PRESENT_MODE_FIFO_KHR, VkPresentModeKHR.VK_PRESENT_MODE_IMMEDIATE_KHR] 1 =
      VkPresentModeKHR.VK_PRESENT_MODE_IMMEDIATE_KHR ∧
    get_present_mode example_present_bits
      [VkPresentModeKHR.VK_PRESENT_MODE_FIFO_KHR, VkPresentModeKHR.VK_PRESENT_MODE_IMMEDIATE_KHR] 8 =
      VkPresentModeKHR.VK_PRESENT_MODE_FIFO_KHR :=
  ⟨((get_present_mode_fallback example_present_bits
      [VkPresentModeKHR.VK_PRESENT_MODE_FIFO_KHR, VkPresentModeKHR.VK_PRESENT_MODE_IMMEDIATE_KHR]
      1).1 VkPresentModeKHR.VK_PRESENT_MODE_IMMEDIATE_KHR (by decide)).1 (by decide),
   ((get_present_mode_fallback example_present_bits
      [VkPresentModeKHR.VK_PRESENT_MODE_FIFO_KHR, VkPresentModeKHR.VK_PRESENT_MODE_IMMEDIATE_KHR]
      8).1 VkPresentModeKHR.VK_PRESENT_MODE_FIFO_RELAXED_KHR (by decide)).2 (by decide)⟩

/-! ## Idle waits before retiring, and retiring before creating -/

theorem Call.retires_of_is_native_destroy {call : Call} (h : call.is_native_destroy = true) :
    call.retires = true := by
  cases call <;> simp_all [Call.retires, Call.is_native_destroy]

/-- The calls of a sequence are those of its first part followed, when that part
returned, by those of the second. -/
theorem Result.calls_andThen {σ α β : Type} (r : Result σ α) (f : α → σ → Result σ β) :
    ∃ tail, (r.andThen f).calls = r.calls ++ tail ∧
      (tail = [] ∨ ∃ v, tail = (f v r.state).calls) := by
  cases r with
  | ok v t c => exact ⟨(f v t).calls, Result.calls_after c (f v t), Or.inr ⟨v, rfl⟩⟩
  | assert_failed msg t c => exact ⟨[], by simp [Result.andThen, Result.calls], Or.inl rfl⟩
  | undefined t c => exact ⟨[], by simp [Result.andThen, Result.calls], Or.inl rfl⟩

/-- A property of calls that holds of the first part of a sequence, and of the
second part whenever the state it starts from has the property the first part
establishes, holds of the whole. -/
theorem Result.calls_andThen_inv {σ α β : Type} (P : σ → Prop) (Q : Call → Prop)
    (r : Result σ α) (f : α → σ → Result σ β) (hs : P r.state) (hr : ∀ c ∈ r.calls, Q c)
    (hf : ∀ v t, P t → ∀ c ∈ (f v t).calls, Q c) : ∀ c ∈ (r.andThen f).calls, Q c := by
  obtain ⟨tail, heq, htail⟩ := Result.calls_andThen r f
  intro c hc
  rw [heq, List.mem_append] at hc
  rcases hc with hc | hc
  · exact hr c hc
  · rcases htail with rfl | ⟨v, rfl⟩
    · exact absurd hc (List.not_mem_nil c)
    · exact hf v r.state hs c hc

theorem waits_before_of_head (p : Call → Bool) (rest : List Call)
    (hp : p Call.QueueWaitAll = false) : waits_before p (Call.QueueWaitAll :: rest) := by
  intro pre call post heq hcall
  cases pre with
  | nil =>
    simp only [List.nil_append, List.cons.injEq] at heq
    rw [← heq.1, hp] at hcall
    exact absurd hcall (by decide)
  | cons first pre' =>
    simp only [List.cons_append, List.cons.injEq] at heq
    rw [← heq.1]
    exact List.mem_cons_self _ _

theorem waits_before_of_none (p : Call → Bool) (calls : List Call)
    (h : ∀ c ∈ calls, p c = false) : waits_before p calls := by
  intro pre call post heq hcall
  have hmem : call ∈ calls := by rw [heq]; simp
  rw [h call hmem] at hcall
  exact absurd hcall (by decide)

theorem waits_before_append (p : Call → Bool) (a b : List Call) (ha : waits_before p a)
    (hb : waits_before p b ∨ Call.QueueWaitAll ∈ a) : waits_before p (a ++ b) := by
  intro pre call post heq hcall
  rcases List.append_eq_append_iff.1 heq with ⟨a', hpre, hb'⟩ | ⟨c', ha', hc'⟩
  · rw [hpre]
    rcases hb with hb | hmem
    · exact List.mem_append_right _ (hb a' call post hb' hcall)
    · exact List.mem_append_left _ hmem
  · cases c' with
    | nil =>
      simp only [List.nil_append, List.append_nil] at ha' hc'
      rcases hb with hb | hmem
      · exact absurd (hb [] call post hc'.symm hcall) (List.not_mem_nil _)
      · rw [← ha']; exact hmem
    | cons first c'' =>
      simp only [List.cons_append, List.cons.injEq] at hc'
      rw [← hc'.1] at ha'
      exact ha pre call c'' ha' hcall

theorem waits_before_append_none (p : Call → Bool) (a b : List Call) (ha : waits_before p a)
    (hb : ∀ c ∈ b, p c = false) : waits_before p (a ++ b) :=
  waits_before_append p a b ha (Or.inl (waits_before_of_none p b hb))

/-- If nothing is created in the first part and nothing is retired in the second,
everything is retired before anything is created. -/
theorem retired_before_created_append (a b : List Call) (ha : ∀ c ∈ a, c.creates = false)
    (hb : ∀ c ∈ b, c.retires = false) : retired_before_created (a ++ b) := by
  intro pre call post heq hcall later hlater
  rcases List.append_eq_append_iff.1 heq with ⟨a', _, hb'⟩ | ⟨c', ha', hc'⟩
  · exact hb later (by rw [hb']; simp [hlater])
  · cases c' with
    | nil =>
      simp only [List.nil_append] at hc'
      exact hb later (by rw [← hc']; exact List.mem_cons_of_mem _ hlater)
    | cons first c'' =>
      simp only [List.cons_append, List.cons.injEq] at hc'
      have hmem : call ∈ a := by rw [ha', ← hc'.1]; simp
      rw [ha call hmem] at hcall
      exact absurd hcall (by decide)

/-- What a semaphore's destructor calls: nothing, or an idle wait and a destroy. -/
theorem release_semaphore_cases (p : Option RHI_Semaphore) :
    (release_semaphore p = [] ∧ ∀ sem, p = some sem → sem.m_resource = 0) ∨
    ∃ sem, p = some sem ∧ sem.m_resource ≠ 0 ∧
      release_semaphore p = [Call.QueueWaitAll, Call.vkDestroySemaphore sem.m_resource] := by
  cases p with
  | none => exact Or.inl ⟨rfl, fun _ h => by cases h⟩
  | some sem =>
    by_cases h : sem.m_resource = 0
    · left
      refine ⟨by simp [release_semaphore, RHI_Semaphore.destruct, h], ?_⟩
      intro sem' heq
      cases heq
      exact h
    · right
      exact ⟨sem, rfl, h, by
        simp [release_semaphore, RHI_Semaphore.destruct, destroy_semaphore, h, Result.calls]⟩

/-- Releasing the acquire semaphores calls nothing when no slot holds a live
semaphore, and begins with an idle wait otherwise; it creates nothing, and each
destroy in it follows an idle wait. -/
theorem release_semaphores_cases (sems : List (Option RHI_Semaphore)) :
    ((release_semaphores sems = [] ∧ ∀ sem, some sem ∈ sems → sem.m_resource = 0) ∨
      ((∃ rest, release_semaphores sems = Call.QueueWaitAll :: rest) ∧
        ∃ sem, some sem ∈ sems ∧ sem.m_resource ≠ 0)) ∧
    (∀ c ∈ release_semaphores sems, c.creates = false) ∧
    waits_before Call.retires (release_semaphores sems) := by
  induction sems with
  | nil =>
    exact ⟨Or.inl ⟨rfl, fun _ h => absurd h (List.not_mem_nil _)⟩,
      fun _ h => absurd h (List.not_mem_nil _), waits_before_of_none _ _
      (fun _ h => absurd h (List.not_mem_nil _))⟩
  | cons p rest ih =>
    obtain ⟨hcases, hcreate, hwait⟩ := ih
    unfold release_semaphores
    rcases release_semaphore_cases p with ⟨hnil, hdead⟩ | ⟨sem, hp, hlive, hcalls⟩
    · rw [hnil, List.nil_append]
      refine ⟨?_, hcreate, hwait⟩
      rcases hcases with ⟨hr, hall⟩ | ⟨hr, sem, hmem, hlive⟩
      · left
        refine ⟨hr, ?_⟩
        intro sem hmem
        rcases List.mem_cons.1 hmem with h | h
        · exact hdead sem h.symm
        · exact hall sem h
      · right
        exact ⟨hr, sem, List.mem_cons_of_mem _ hmem, hlive⟩
    · rw [hcalls]
      refine ⟨Or.inr ⟨⟨_, rfl⟩, sem, by rw [hp]; exact List.mem_cons_self _ _, hlive⟩, ?_, ?_⟩
      · intro c hc
        simp only [List.cons_append, List.nil_append, List.mem_cons] at hc
        rcases hc with rfl | rfl | hc
        · rfl
        · rfl
        · exact hcreate c hc
      · exact waits_before_of_head _ _ rfl

theorem enqueue_image_views_cases (views : List Nat) :
    ((enqueue_image_views views = [] ∧ ∀ v ∈ views, v = 0) ∨
      ((∃ image_view rest, enqueue_image_views views =
          Call.AddToDeletionQueue_texture_view image_view :: rest) ∧ ∃ v ∈ views, v ≠ 0)) ∧
    (∀ c ∈ enqueue_image_views views, c.creates = false ∧ c.is_native_destroy = false) := by
  induction views with
  | nil =>
    exact ⟨Or.inl ⟨rfl, fun _ h => absurd h (List.not_mem_nil _)⟩,
      fun _ h => absurd h (List.not_mem_nil _)⟩
  | cons view rest ih =>
    obtain ⟨hcases, hall⟩ := ih
    unfold enqueue_image_views
    by_cases hv : view ≠ 0
    · rw [if_pos hv]
      refine ⟨Or.inr ⟨⟨view, _, rfl⟩, view, List.mem_cons_self _ _, hv⟩, ?_⟩
      intro c hc
      rcases List.mem_cons.1 hc with rfl | hc
      · exact ⟨rfl, rfl⟩
      · exact hall c hc
    · rw [if_neg hv]
      refine ⟨?_, hall⟩
      have hv0 : view = 0 := by simpa using hv
      rcases hcases with ⟨hr, hzero⟩ | ⟨hr, v, hmem, hne⟩
      · left
        refine ⟨hr, ?_⟩
        intro v hmem
        rcases List.mem_cons.1 hmem with h | h
        · rw [h]; exact hv0
        · exact hzero v h
      · right
        exact ⟨hr, v, List.mem_cons_of_mem _ hmem, hne⟩

theorem waits_before_mono (p q : Call → Bool) (calls : List Call)
    (hpq : ∀ c, q c = true → p c = true) (h : waits_before p calls) : waits_before q calls :=
  fun pre call post heq hcall => h pre call post heq (hpq call hcall)

/-- The calls of `destroy`, in order. -/
theorem destroy_calls (s : RHI_SwapChain) :
    (destroy s).calls =
      release_semaphores s.m_acquire_semaphore.toList ++
        (enqueue_image_views s.m_rhi_backbuffer_srv.toList ++
          (Call.QueueWaitAll ::
            ((if s.m_rhi_resource ≠ 0 then [Call.vkDestroySwapchainKHR s.m_rhi_resource] else []) ++
              (if s.m_surface ≠ 0 then [Call.vkDestroySurfaceKHR s.m_surface] else [])))) := by
  simp [destroy, Result.calls]

/-- The function `destroy` creates nothing. -/
theorem destroy_calls_not_creating (s : RHI_SwapChain) :
    ∀ c ∈ (destroy s).calls, c.creates = false := by
  intro c hc
  rw [destroy_calls] at hc
  simp only [List.mem_append, List.mem_cons] at hc
  rcases hc with hc | hc | rfl | hc | hc
  · exact (release_semaphores_cases _).2.1 c hc
  · exact ((enqueue_image_views_cases _).2 c hc).1
  · rfl
  · by_cases h : s.m_rhi_resource ≠ 0
    · rw [if_pos h, List.mem_singleton] at hc
      rw [hc]; rfl
    · rw [if_neg h] at hc
      exact absurd hc (List.not_mem_nil _)
  · by_cases h : s.m_surface ≠ 0
    · rw [if_pos h, List.mem_singleton] at hc
      rw [hc]; rfl
    · rw [if_neg h] at hc
      exact absurd hc (List.not_mem_nil _)

/-- In `destroy` every native destroy call follows an idle wait. -/
theorem destroy_waits_before_native_destroy (s : RHI_SwapChain) :
    waits_before Call.is_native_destroy (destroy s).calls := by
  rw [destroy_calls]
  refine waits_before_append _ _ _ (waits_before_mono Call.retires _ _
    (fun c => Call.retires_of_is_native_destroy) (release_semaphores_cases _).2.2) (Or.inl ?_)
  refine waits_before_append _ _ _ (waits_before_of_none _ _
    (fun c hc => ((enqueue_image_views_cases _).2 c hc).2)) (Or.inl ?_)
  exact waits_before_of_head _ _ rfl

/-- In `destroy` the enqueues of the image views follow an idle wait exactly when
the release of the acquire semaphores has waited, or there is no view to enqueue. -/
theorem destroy_waits_before_retiring_iff (s : RHI_SwapChain) :
    waits_before Call.retires (destroy s).calls ↔
      (holds_live_semaphore s ∨ ¬ holds_image_view s) := by
  rw [destroy_calls]
  obtain ⟨hsems, _, hwait⟩ := release_semaphores_cases s.m_acquire_semaphore.toList
  obtain ⟨hviews, _⟩ := enqueue_image_views_cases s.m_rhi_backbuffer_srv.toList
  constructor
  · intro h
    by_contra hcon
    rw [not_or, not_not] at hcon
    obtain ⟨hdead, hview⟩ := hcon
    rcases hsems with ⟨hnil, _⟩ | ⟨_, sem, hmem, hlive⟩
    · rcases hviews with ⟨_, hzero⟩ | ⟨⟨image_view, rest, heq⟩, _⟩
      · obtain ⟨v, hv, hne⟩ := hview
        exact hne (hzero v hv)
      · rw [hnil, heq] at h
        exact absurd (h [] _ _ rfl rfl) (List.not_mem_nil _)
    · exact hdead ⟨sem, hmem, hlive⟩
  · rintro (⟨sem, hmem, hlive⟩ | hnone)
    · rcases hsems with ⟨_, hall⟩ | ⟨⟨rest, heq⟩, _⟩
      · exact absurd (hall sem hmem) hlive
      · rw [heq]
        exact waits_before_of_head _ _ rfl
    · rcases hviews with ⟨hnil, _⟩ | ⟨_, v, hv, hne⟩
      · rw [hnil, List.nil_append]
        exact waits_before_append _ _ _ hwait (Or.inl (waits_before_of_head _ _ rfl))
      · exact absurd ⟨v, hv, hne⟩ hnone

/-- Whatever `AcquireNextImage` calls is an acquire. -/
theorem AcquireNextImage_calls (acquired : Option Nat) (s : RHI_SwapChain) :
    ∀ c ∈ (AcquireNextImage acquired s).calls, c.is_acquire = true := by
  intro c hc
  unfold AcquireNextImage at hc
  split_ifs at hc
  · exact absurd hc (List.not_mem_nil _)
  · exact absurd hc (List.not_mem_nil _)
  · exact absurd hc (List.not_mem_nil _)
  · revert hc
    simp only []
    split
    · intro hc; exact absurd hc (List.not_mem_nil _)
    · intro hc; exact absurd hc (List.not_mem_nil _)
    · split_ifs
      · intro hc; exact absurd hc (List.not_mem_nil _)
      · cases acquired with
        | none =>
          intro hc
          simp only [Result.calls, List.mem_singleton] at hc
          rw [hc]; rfl
        | some image_index =>
          intro hc
          simp only [Result.calls, List.mem_singleton] at hc
          rw [hc]; rfl

theorem Call.not_retires_of_is_acquire {call : Call} (h : call.is_acquire = true) :
    call.retires = false := by
  cases call <;> simp_all [Call.retires, Call.is_native_destroy, Call.is_acquire]

/-- The constructor of a semaphore retires nothing. -/
theorem RHI_Semaphore.construct_calls (created : Option Nat) (is_timeline : Bool)
    (name : Option String) :
    ∀ c ∈ (RHI_Semaphore.construct created is_timeline name).calls, c.retires = false := by
  intro c hc
  cases created <;> cases name <;>
    simp [RHI_Semaphore.construct, RHI_Semaphore.initial, create_semaphore, Result.calls] at hc <;>
    (try rcases hc with rfl | rfl) <;> rfl

theorem create_transition_layouts_calls (cmd_list : Nat) (images : List Nat) :
    ∀ (i : Nat) (s : RHI_SwapChain),
      ∀ c ∈ (create_transition_layouts cmd_list images i s).calls, c.retires = false := by
  induction images with
  | nil => intro i s c hc; exact absurd hc (List.not_mem_nil _)
  | cons image rest ih =>
    intro i s c hc
    unfold create_transition_layouts at hc
    by_cases hi : i < max_buffer_count
    · simp only [if_pos hi, Result.calls_after, List.singleton_append, List.mem_cons] at hc
      rcases hc with rfl | hc
      · rfl
      · exact ih _ _ c hc
    · simp only [if_neg hi, Result.calls, List.mem_singleton] at hc
      rw [hc]; rfl

theorem create_transition_layouts_semaphores (cmd_list : Nat) (images : List Nat) :
    ∀ (i : Nat) (s : RHI_SwapChain),
      (create_transition_layouts cmd_list images i s).state.m_acquire_semaphore =
        s.m_acquire_semaphore := by
  induction images with
  | nil => intro i s; rfl
  | cons image rest ih =>
    intro i s
    unfold create_transition_layouts
    by_cases hi : i < max_buffer_count
    · simp only [if_pos hi, Result.state_after, ih]
    · simp only [if_neg hi, Result.state]

theorem create_image_views_calls (driver : Driver) (format : Nat) (images : List Nat) :
    ∀ (i : Nat) (s : RHI_SwapChain),
      ∀ c ∈ (create_image_views driver format images i s).calls, c.retires = false := by
  induction images with
  | nil => intro i s c hc; exact absurd hc (List.not_mem_nil _)
  | cons image rest ih =>
    intro i s c hc
    unfold create_image_views at hc
    by_cases hi : i < max_buffer_count
    · simp only [if_pos hi, Result.calls_after, List.cons_append, List.nil_append,
        List.mem_cons] at hc
      rcases hc with rfl | rfl | hc
      · rfl
      · rfl
      · exact ih _ _ c hc
    · simp only [if_neg hi, Result.calls] at hc
      exact absurd hc (List.not_mem_nil _)

theorem create_image_views_semaphores (driver : Driver) (format : Nat) (images : List Nat) :
    ∀ (i : Nat) (s : RHI_SwapChain),
      (create_image_views driver format images i s).state.m_acquire_semaphore =
        s.m_acquire_semaphore := by
  induction images with
  | nil => intro i s; rfl
  | cons image rest ih =>
    intro i s
    unfold create_image_views
    by_cases hi : i < max_buffer_count
    · simp only [if_pos hi, Result.state_after, ih]
    · simp only [if_neg hi, Result.state]

theorem release_slot_set_of_ne (a : Slots (Option RHI_Semaphore)) (i j : Nat)
    (v : Option RHI_Semaphore) (h : j ≠ i) : release_slot (a.set i v) j = release_slot a j := by
  unfold release_slot
  rw [Slots.get?_set_of_ne a v h]

/-- The semaphore loop of `create` retires nothing when the slots it assigns hold
nothing to release. -/
theorem create_semaphores_calls (driver : Driver) :
    ∀ (remaining i : Nat) (s : RHI_SwapChain),
      (∀ j, i ≤ j → release_slot s.m_acquire_semaphore j = []) →
      ∀ c ∈ (create_semaphores driver remaining i s).calls, c.retires = false := by
  intro remaining
  induction remaining with
  | zero => intro i s _ c hc; exact absurd hc (List.not_mem_nil _)
  | succ remaining ih =>
    intro i s hslots c hc
    unfold create_semaphores at hc
    simp only [] at hc
    have hcon := RHI_Semaphore.construct_calls (driver.created_semaphore i) false
      (some ("swapchain_image_acquired_" ++ toString i))
    revert hc hcon
    generalize RHI_Semaphore.construct _ _ _ = r
    cases r with
    | assert_failed msg sem calls => intro hc hcon; exact hcon c hc
    | undefined sem calls => intro hc hcon; exact hcon c hc
    | ok v sem calls =>
      intro hc hcon
      by_cases hi : i < max_buffer_count
      · simp only [if_pos hi, Result.calls_after, hslots i (le_refl i), List.append_nil,
          List.mem_append] at hc
        rcases hc with hc | hc
        · exact hcon c hc
        · refine ih (i + 1) _ ?_ c hc
          intro j hj
          rw [release_slot_set_of_ne _ _ _ _ (by omega)]
          exact hslots j (by omega)
      · simp only [if_neg hi] at hc
        exact hcon c hc

theorem release_slot_fill_none (j : Nat) : release_slot (Slots.fill none) j = [] := by
  unfold release_slot
  match j with
  | 0 | 1 | 2 => rfl
  | _ + 3 => rfl

/-- Called with empty acquire slots, as it is at both call sites, `create`
retires nothing, however it ends. -/
theorem create_calls_not_retiring (driver : Driver) (s : RHI_SwapChain)
    (hslots : s.m_acquire_semaphore = Slots.fill none) :
    ∀ c ∈ (create driver s).calls, c.retires = false := by
  unfold create
  by_cases hwin : s.m_sdl_window = 0
  · simp only [if_pos hwin, Result.calls]
    intro c hc; exact absurd hc (List.not_mem_nil _)
  simp only [if_neg hwin]
  have hc1 : ∀ c ∈ [Call.SDL_Vulkan_CreateSurface s.m_sdl_window], c.retires = false := by
    intro c hc
    rw [List.mem_singleton] at hc
    rw [hc]; rfl
  cases driver.created_surface with
  | none => exact hc1
  | some surface =>
    cases driver.surface_support with
    | none => exact hc1
    | some support =>
      cases support with
      | false => exact hc1
      | true =>
        cases get_supported_surface_formats driver with
        | error msg => exact hc1
        | ok supported_formats =>
          simp only
          by_cases hfmt : (is_format_supported driver.vulkan_format driver.IsNvidia s.m_format
              (get_color_space s.IsHdr) supported_formats).1 = false
          · rw [if_pos hfmt]
            exact hc1
          rw [if_neg hfmt]
          have hc2 : ∀ (call : Call), ∀ c ∈ [Call.SDL_Vulkan_CreateSurface s.m_sdl_window] ++
              [call], call.retires = false → c.retires = false := by
            intro call c hc hcall
            simp only [List.singleton_append, List.mem_cons, List.mem_singleton,
              List.not_mem_nil, or_false] at hc
            rcases hc with rfl | rfl
            · rfl
            · exact hcall
          cases driver.created_swapchain with
          | none => exact fun c hc => hc2 _ c hc rfl
          | some swap_chain =>
            intro c hc
            simp only [Result.calls_after] at hc
            rcases List.mem_append.1 hc with hc' | hc'
            · exact hc2 _ c hc' rfl
            clear hc
            revert c
            refine Result.calls_andThen_inv
              (fun t : RHI_SwapChain => t.m_acquire_semaphore = Slots.fill none)
              (fun c => c.retires = false) _ _ ?_ ?_ ?_
            · by_cases hcmd : driver.immediate_cmd_list ≠ 0
              · rw [if_pos hcmd]
                refine Result.state_andThen_inv
                  (fun t : RHI_SwapChain => t.m_acquire_semaphore = Slots.fill none) _ _ ?_ ?_
                · simp only [Result.state_after, create_transition_layouts_semaphores]
                  exact hslots
                · intro _ t ht
                  exact ht
              · rw [if_neg hcmd]
                exact hslots
            · by_cases hcmd : driver.immediate_cmd_list ≠ 0
              · rw [if_pos hcmd]
                refine Result.calls_andThen_inv (fun _ : RHI_SwapChain => True)
                  (fun c => c.retires = false) _ _ trivial ?_ ?_
                · intro c hc
                  simp only [Result.calls_after, List.singleton_append, List.mem_cons] at hc
                  rcases hc with rfl | hc
                  · rfl
                  · exact create_transition_layouts_calls _ _ _ _ c hc
                · intro _ t _ c hc
                  simp only [Result.calls, List.mem_singleton] at hc
                  rw [hc]; rfl
              · rw [if_neg hcmd]
                intro c hc
                simp only [Result.calls, List.mem_singleton] at hc
                rw [hc]; rfl
            · intro _ t ht
              refine Result.calls_andThen_inv
                (fun t : RHI_SwapChain => t.m_acquire_semaphore = Slots.fill none)
                (fun c => c.retires = false) _ _ ?_ ?_ ?_
              · beta_reduce
                rw [create_image_views_semaphores]
                exact ht
              · exact create_image_views_calls _ _ _ _ _
              · intro _ t' ht'
                refine create_semaphores_calls driver _ 0 _ ?_
                intro j _
                beta_reduce
                simp only [ht']
                exact release_slot_fill_none j

theorem Call.not_is_native_destroy_of_not_retires {call : Call} (h : call.retires = false) :
    call.is_native_destroy = false := by
  cases hn : call.is_native_destroy with
  | false => rfl
  | true =>
    rw [Call.retires_of_is_native_destroy hn] at h
    exact absurd h (by decide)

/-- The calls of `Resize`: none at all, or those of `destroy` on the swapchain it
found followed by calls none of which retires anything. -/
theorem Resize_calls_cases (device : RHI_Device) (driver : Driver) (acquired : Option Nat)
    (width height : Nat) (force : Bool) (s : RHI_SwapChain) :
    (Resize device driver acquired width height force s).calls = [] ∨
    ∃ s3 tail, s3.m_acquire_semaphore = s.m_acquire_semaphore ∧
      s3.m_rhi_backbuffer_srv = s.m_rhi_backbuffer_srv ∧
      (Resize device driver acquired width height force s).calls = (destroy s3).calls ++ tail ∧
      ∀ c ∈ tail, c.retires = false := by
  unfold Resize
  simp only []
  by_cases hvalid : device.IsValidResolution width height = false
  · left
    rw [if_pos hvalid]
    rfl
  rw [if_neg hvalid]
  by_cases hsame : force = false ∧ s.m_width = width ∧ s.m_height = height
  · left
    rw [if_pos hsame]
    rfl
  rw [if_neg hsame]
  right
  generalize hs3 : RHI_SwapChain.mk _ _ _ _ _ _ _ _ _ _ _ _ _ _ _ _ _ _ _ = s3
  have hsems : s3.m_acquire_semaphore = s.m_acquire_semaphore := by rw [← hs3]
  have hviews : s3.m_rhi_backbuffer_srv = s.m_rhi_backbuffer_srv := by rw [← hs3]
  obtain ⟨tail, heq, htail⟩ := Result.calls_andThen (destroy s3) fun _ s4 =>
    (create driver s4).andThen fun _ s5 =>
      (AcquireNextImage acquired
        { s5 with m_image_index := uint32_max, m_image_index_previous := uint32_max }).andThen
        fun _ s8 => Result.ok true s8 []
  refine ⟨s3, tail, hsems, hviews, heq, ?_⟩
  rcases htail with rfl | ⟨v, rfl⟩
  · intro c hc; exact absurd hc (List.not_mem_nil _)
  · obtain ⟨calls, hd, _⟩ := destroy_eq s3
    rw [hd]
    simp only [Result.state]
    refine Result.calls_andThen_inv (fun _ : RHI_SwapChain => True) (fun c => c.retires = false)
      _ _ trivial (create_calls_not_retiring driver _ rfl) ?_
    intro _ t _
    refine Result.calls_andThen_inv (fun _ : RHI_SwapChain => True) (fun c => c.retires = false)
      _ _ trivial ?_ ?_
    · intro c hc
      exact Call.not_retires_of_is_acquire (AcquireNextImage_calls _ _ c hc)
    · intro _ t' _ c hc
      exact absurd hc (List.not_mem_nil _)

/-- The order of the calls of `Resize`. -/
theorem Resize_calls_order (device : RHI_Device) (driver : Driver) (acquired : Option Nat)
    (width height : Nat) (force : Bool) (s : RHI_SwapChain) :
    waits_before Call.is_native_destroy (Resize device driver acquired width height force s).calls ∧
    (holds_live_semaphore s ∨ ¬ holds_image_view s →
      waits_before Call.retires (Resize device driver acquired width height force s).calls) ∧
    retired_before_created (Resize device driver acquired width height force s).calls := by
  rcases Resize_calls_cases device driver acquired width height force s with
    hnil | ⟨s3, tail, hsems, hviews, heq, htail⟩
  · rw [hnil]
    exact ⟨waits_before_of_none _ _ (fun _ h => absurd h (List.not_mem_nil _)),
      fun _ => waits_before_of_none _ _ (fun _ h => absurd h (List.not_mem_nil _)),
      fun pre call post h => absurd h (by simp)⟩
  · rw [heq]
    refine ⟨waits_before_append_none _ _ _ (destroy_waits_before_native_destroy s3)
      (fun c hc => Call.not_is_native_destroy_of_not_retires (htail c hc)), ?_,
      retired_before_created_append _ _ (destroy_calls_not_creating s3) htail⟩
    intro hcond
    refine waits_before_append_none _ _ _ ((destroy_waits_before_retiring_iff s3).2 ?_) htail
    unfold holds_live_semaphore holds_image_view at hcond ⊢
    rw [hsems, hviews]
    exact hcond

/-- The calls of `SetHdr` are none, or those of a `Resize` of a swapchain with the
same acquire semaphores and image views. -/
theorem SetHdr_calls_cases (display_hdr : Bool) (device : RHI_Device) (driver : Driver)
    (acquired : Option Nat) (enabled : Bool) (s : RHI_SwapChain) :
    (SetHdr display_hdr device driver acquired enabled s).calls = [] ∨
    ∃ s1 width height, s1.m_acquire_semaphore = s.m_acquire_semaphore ∧
      s1.m_rhi_backbuffer_srv = s.m_rhi_backbuffer_srv ∧
      (SetHdr display_hdr device driver acquired enabled s).calls =
        (Resize device driver acquired width height true s1).calls := by
  unfold SetHdr
  by_cases hpre : enabled = true ∧ display_hdr = false
  · left
    rw [if_pos hpre]
    rfl
  rw [if_neg hpre]
  simp only []
  by_cases hfmt : (if enabled = true then RHI_Format.RHI_Format_R10G10B10A2_Unorm
      else RHI_Format.RHI_Format_R8G8B8A8_Unorm) ≠ s.m_format
  · right
    rw [if_pos hfmt]
    generalize hs1 : RHI_SwapChain.mk _ _ _ _ _ _ _ _ _ _ _ _ _ _ _ _ _ _ _ = s1
    refine ⟨s1, s.m_width, s.m_height, by rw [← hs1], by rw [← hs1], ?_⟩
    obtain ⟨tail, heq, htail⟩ := Result.calls_andThen
      (Resize device driver acquired s.m_width s.m_height true s1)
      fun _ s2 => (Result.ok () s2 [] : Result RHI_SwapChain Unit)
    rw [heq]
    rcases htail with rfl | ⟨v, rfl⟩
    · exact List.append_nil _
    · exact List.append_nil _
  · left
    rw [if_neg hfmt]
    rfl

/-- A semaphore's destructor and `Reset` wait for the queues before they destroy. -/
theorem RHI_Semaphore.waits_before_retiring (created : Option Nat) (sem : RHI_Semaphore) :
    waits_before Call.retires sem.destruct ∧
    waits_before Call.retires (sem.Reset created).calls := by
  constructor
  · rcases release_semaphore_cases (some sem) with ⟨hnil, _⟩ | ⟨_, _, _, hcalls⟩
    · have h : sem.destruct = [] := hnil
      rw [h]
      exact waits_before_of_none _ _ (fun _ h => absurd h (List.not_mem_nil _))
    · have h : sem.destruct = _ := hcalls
      rw [h]
      exact waits_before_of_head _ _ rfl
  · have h : ∃ rest, (sem.Reset created).calls = Call.QueueWaitAll :: rest := by
      unfold RHI_Semaphore.Reset destroy_semaphore create_semaphore
      by_cases h0 : sem.m_resource = 0 <;> cases created <;> simp [h0, Result.calls]
    obtain ⟨rest, hrest⟩ := h
    rw [hrest]
    exact waits_before_of_head _ _ rfl

/-! ## What a recreated chain looks like -/

/-- A call of `AcquireNextImage` that returns has left the extent, the format, the
handles, the layouts and the image views as they were. -/
theorem AcquireNextImage_ok_frame (acquired : Option Nat) (s s' : RHI_SwapChain)
    (calls : List Call) (h : AcquireNextImage acquired s = .ok () s' calls) :
    s'.m_width = s.m_width ∧ s'.m_height = s.m_height ∧ s'.m_format = s.m_format ∧
    s'.m_rhi_resource = s.m_rhi_resource ∧ s'.m_layouts = s.m_layouts ∧
    s'.m_rhi_backbuffer_srv = s.m_rhi_backbuffer_srv ∧
    s'.m_buffer_count = s.m_buffer_count ∧ s'.m_present_enabled = s.m_present_enabled ∧
    s'.m_sdl_window = s.m_sdl_window := by
  rcases AcquireNextImage_ok_cases acquired s s' calls h with
    ⟨_, _, rfl, _⟩ | ⟨sem, image_index, rfl, hn, hpath, hen, hsem, hidle, _⟩
  · exact ⟨rfl, rfl, rfl, rfl, rfl, rfl, rfl, rfl, rfl⟩
  · rw [AcquireNextImage_eq_of_idle image_index s sem hen hpath hn hsem hidle] at h
    simp only [Result.ok.injEq, true_and] at h
    rw [← h.1]
    exact ⟨rfl, rfl, rfl, rfl, rfl, rfl, rfl, rfl, rfl⟩

/-- The layout loop of `create`, when the images fit the array: every slot it
visits is recorded as `Color_Attachment_Optimal`, the slots below are kept. -/
theorem create_transition_layouts_layouts (cmd_list : Nat) (images : List Nat) :
    ∀ (i : Nat) (s : RHI_SwapChain), i + images.length ≤ max_buffer_count →
      ∃ layouts calls, create_transition_layouts cmd_list images i s =
        .ok () { s with m_layouts := layouts } calls ∧
        (∀ j, i ≤ j → j < i + images.length →
          layouts.get? j = some RHI_Image_Layout.Color_Attachment_Optimal) ∧
        (∀ j, j < i → layouts.get? j = s.m_layouts.get? j) := by
  induction images with
  | nil =>
    intro i s _
    exact ⟨s.m_layouts, [], rfl, fun j h1 h2 => absurd h2 (by simp; omega), fun _ _ => rfl⟩
  | cons image rest ih =>
    intro i s hlen
    simp only [List.length_cons] at hlen
    have hi : i < max_buffer_count := by omega
    obtain ⟨layouts, calls, heq, hfrom, hbelow⟩ := ih (i + 1)
      { s with m_layouts := s.m_layouts.set i RHI_Image_Layout.Color_Attachment_Optimal }
      (by omega)
    refine ⟨layouts, Call.image_set_layout cmd_list image RHI_Image_Layout.Undefined
      RHI_Image_Layout.Color_Attachment_Optimal :: calls, ?_, ?_, ?_⟩
    · simp only [create_transition_layouts, if_pos hi, heq, Result.after, List.singleton_append]
    · intro j h1 h2
      simp only [List.length_cons] at h2
      rcases Nat.eq_or_lt_of_le h1 with rfl | hlt
      · rw [hbelow i (by omega)]
        exact Slots.get?_set_self _ _ hi
      · exact hfrom j (by omega) (by omega)
    · intro j hj
      rw [hbelow j (by omega)]
      exact Slots.get?_set_of_ne _ _ (by omega)

/-- With a cooperating platform `create` returns, and these are the fields it
leaves: the extent clamped into the range of the surface, the format as
`is_format_supported` leaves it, the new swapchain handle, an idle semaphore
in each of the first `m_buffer_count` acquire slots and, when the immediate
command list is handed out, `Color_Attachment_Optimal` as the layout of every
image. -/
theorem create_fields (driver : Driver) (s : RHI_SwapChain) (h : driver.cooperates s) :
    ∃ s' calls swap_chain supported_formats, create driver s = .ok () s' calls ∧
      driver.created_swapchain = some swap_chain ∧
      driver.surface_formats = some supported_formats ∧
      s'.m_width = Clamp s.m_width driver.surface_capabilities.minImageExtent_width
        driver.surface_capabilities.maxImageExtent_width ∧
      s'.m_height = Clamp s.m_height driver.surface_capabilities.minImageExtent_height
        driver.surface_capabilities.maxImageExtent_height ∧
      s'.m_format = (is_format_supported driver.vulkan_format driver.IsNvidia s.m_format
        (get_color_space s.IsHdr) supported_formats).2 ∧
      s'.m_rhi_resource = swap_chain ∧
      s'.m_buffer_count = s.m_buffer_count ∧ s'.m_sync_index = s.m_sync_index ∧
      s'.m_present_enabled = s.m_present_enabled ∧ s'.m_sdl_window = s.m_sdl_window ∧
      s'.m_image_index = s.m_image_index ∧
      s'.m_image_index_previous = s.m_image_index_previous ∧
      (driver.immediate_cmd_list ≠ 0 → ∀ j, j < driver.swapchain_images.length →
        s'.m_layouts.get? j = some RHI_Image_Layout.Color_Attachment_Optimal) ∧
      (∀ j, j < s.m_buffer_count →
        ∃ sem, s'.m_acquire_semaphore.get? j = some (some sem) ∧
          sem.m_cpu_state = RHI_Sync_State.Idle) := by
  obtain ⟨hwin, hsurf, hsupp, hcount, ⟨formats, hformats, hfmt⟩, hswap, himages, hn, hsems⟩ := h
  obtain ⟨surface, hsurface⟩ := Option.isSome_iff_exists.1 hsurf
  obtain ⟨swap_chain, hswap_chain⟩ := Option.isSome_iff_exists.1 hswap
  unfold create
  simp only [if_neg hwin, hsurface, hsupp, get_supported_surface_formats, hcount, hformats,
    hfmt, hswap_chain, Bool.true_eq_false, if_false]
  generalize hs3 : RHI_SwapChain.mk _ _ _ _ _ _ _ _ _ _ _ _ _ _ _ _ _ _ _ = s3
  have hw3 : s3.m_width = Clamp s.m_width driver.surface_capabilities.minImageExtent_width
      driver.surface_capabilities.maxImageExtent_width := by rw [← hs3]
  have hh3 : s3.m_height = Clamp s.m_height driver.surface_capabilities.minImageExtent_height
      driver.surface_capabilities.maxImageExtent_height := by rw [← hs3]
  have hf3 : s3.m_format = (is_format_supported driver.vulkan_format driver.IsNvidia s.m_format
      (get_color_space s.IsHdr) formats).2 := by rw [← hs3]
  have hb3 : s3.m_buffer_count = s.m_buffer_count := by rw [← hs3]
  have hy3 : s3.m_sync_index = s.m_sync_index := by rw [← hs3]
  have he3 : s3.m_present_enabled = s.m_present_enabled := by rw [← hs3]
  have hd3 : s3.m_sdl_window = s.m_sdl_window := by rw [← hs3]
  have hi3 : s3.m_image_index = s.m_image_index := by rw [← hs3]
  have hp3 : s3.m_image_index_previous = s.m_image_index_previous := by rw [← hs3]
  generalize [Call.SDL_Vulkan_CreateSurface s.m_sdl_window] ++
    [Call.vkCreateSwapchainKHR _ _ _ _ _ _ _] = c2
  have himages0 : 0 + driver.swapchain_images.length ≤ max_buffer_count := by omega
  obtain ⟨layouts, c3, ht, hlay⟩ : ∃ layouts c3,
      (if driver.immediate_cmd_list ≠ 0 then
        ((create_transition_layouts driver.immediate_cmd_list driver.swapchain_images 0
          s3).after [Call.ImmediateBegin]).andThen
          fun _ s4 => Result.ok () s4 [Call.ImmediateSubmit driver.immediate_cmd_list]
      else Result.ok () s3 [Call.ImmediateBegin]) =
        Result.ok () { s3 with m_layouts := layouts } c3 ∧
      (driver.immediate_cmd_list ≠ 0 → ∀ j, j < driver.swapchain_images.length →
        layouts.get? j = some RHI_Image_Layout.Color_Attachment_Optimal) := by
    by_cases hcmd : driver.immediate_cmd_list ≠ 0
    · obtain ⟨layouts, c, heq, hfrom, _⟩ := create_transition_layouts_layouts
        driver.immediate_cmd_list driver.swapchain_images 0 s3 himages0
      refine ⟨layouts,
        ([Call.ImmediateBegin] ++ c) ++ [Call.ImmediateSubmit driver.immediate_cmd_list], ?_, ?_⟩
      · rw [if_pos hcmd, heq]
        rfl
      · intro _ j hj
        exact hfrom j (Nat.zero_le j) (by omega)
    · exact ⟨s3.m_layouts, [Call.ImmediateBegin], by rw [if_neg hcmd],
        fun h => absurd h hcmd⟩
  rw [ht]
  obtain ⟨textures, views, c4, hv, _⟩ := create_image_views_ok driver
    (driver.vulkan_format s3.m_format) driver.swapchain_images 0
    { s3 with m_layouts := layouts } himages0
  obtain ⟨sems, c5, hsem, _, _, hfresh⟩ := create_semaphores_ok driver s3.m_buffer_count 0
    { s3 with m_layouts := layouts, m_rhi_backbuffer_resource := textures,
              m_rhi_backbuffer_srv := views, m_surface := surface,
              m_rhi_resource := swap_chain }
    (by omega) (fun j hj => hsems j (by omega))
  refine ⟨{ s3 with m_layouts := layouts, m_rhi_backbuffer_resource := textures,
                     m_rhi_backbuffer_srv := views, m_surface := surface,
                     m_rhi_resource := swap_chain, m_acquire_semaphore := sems },
    c2 ++ (c3 ++ (c4 ++ c5)), swap_chain, formats, ?_, rfl, rfl, hw3, hh3, hf3, rfl, hb3, hy3,
    he3, hd3, hi3, hp3, hlay, ?_⟩
  · simp only [Result.andThen, hv, Result.after, hsem]
  · intro j hj
    exact hfresh j (Nat.zero_le j) (by omega)

/-- The format `is_format_supported` leaves is one it leaves alone: checking it
again gives the same answer and the same format, and the HDR mode it implies
is that of the format asked for. -/
theorem is_format_supported_stable (vulkan_format : RHI_Format → Nat) (is_nvidia : Bool)
    (format : RHI_Format) (color_space : VkColorSpaceKHR)
    (supported_formats : List VkSurfaceFormatKHR) :
    is_format_supported vulkan_format is_nvidia
      (is_format_supported vulkan_format is_nvidia format color_space supported_formats).2
      color_space supported_formats =
        is_format_supported vulkan_format is_nvidia format color_space supported_formats ∧
    ((is_format_supported vulkan_format is_nvidia format color_space supported_formats).2 =
        RHI_Format.RHI_Format_R10G10B10A2_Unorm ↔
      format = RHI_Format.RHI_Format_R10G10B10A2_Unorm) := by
  unfold is_format_supported
  by_cases h : format = RHI_Format.RHI_Format_R8G8B8A8_Unorm ∧ is_nvidia = true
  · obtain ⟨rfl, rfl⟩ := h
    simp
  · simp [if_neg h]

/-- A platform that cooperates with a swapchain cooperates with what `create`
makes of it. -/
theorem Driver.cooperates_after_create (driver : Driver) (s t : RHI_SwapChain)
    (supported_formats : List VkSurfaceFormatKHR)
    (hformats : driver.surface_formats = some supported_formats)
    (hwin : t.m_sdl_window = s.m_sdl_window) (hn : t.m_buffer_count = s.m_buffer_count)
    (hfmt : t.m_format = (is_format_supported driver.vulkan_format driver.IsNvidia s.m_format
      (get_color_space s.IsHdr) supported_formats).2)
    (h : driver.cooperates s) : driver.cooperates t := by
  obtain ⟨h1, h2, h3, h4, ⟨formats, hf, hlisted⟩, h6, h7, h8, h9⟩ := h
  rw [hformats] at hf
  cases hf
  have hstable := is_format_supported_stable driver.vulkan_format driver.IsNvidia s.m_format
    (get_color_space s.IsHdr) supported_formats
  have hhdr : t.IsHdr = s.IsHdr := by
    unfold IsHdr
    rw [hfmt]
    exact decide_eq_decide.2 hstable.2
  refine ⟨by rw [hwin]; exact h1, h2, h3, h4, ⟨supported_formats, hformats, ?_⟩, h6, h7,
    by rw [hn]; exact h8, by rw [hn]; exact h9⟩
  rw [hhdr, hfmt, hstable.1]
  exact hlisted

/-- The recreating path of `Resize`, by the fields it leaves. -/
theorem Resize_recreated_fields (device : RHI_Device) (driver : Driver) (image_index : Nat)
    (width height : Nat) (force : Bool) (s : RHI_SwapChain)
    (hvalid : device.IsValidResolution width height = true)
    (hneeded : force = true ∨ ¬ (s.m_width = width ∧ s.m_height = height))
    (hn : 1 ≤ s.m_buffer_count)
    (hdrv : driver.cooperates s) :
    ∃ s' calls swap_chain supported_formats,
      Resize device driver (some image_index) width height force s = .ok true s' calls ∧
      driver.created_swapchain = some swap_chain ∧
      driver.surface_formats = some supported_formats ∧
      s'.m_width = Clamp width driver.surface_capabilities.minImageExtent_width
        driver.surface_capabilities.maxImageExtent_width ∧
      s'.m_height = Clamp height driver.surface_capabilities.minImageExtent_height
        driver.surface_capabilities.maxImageExtent_height ∧
      s'.m_format = (is_format_supported driver.vulkan_format driver.IsNvidia s.m_format
        (get_color_space s.IsHdr) supported_formats).2 ∧
      s'.m_rhi_resource = swap_chain ∧ s'.m_present_enabled = true ∧
      s'.m_image_index = image_index ∧ s'.m_image_index_previous = uint32_max ∧
      s'.m_buffer_count = s.m_buffer_count ∧ s'.m_sdl_window = s.m_sdl_window ∧
      (driver.immediate_cmd_list ≠ 0 → ∀ j, j < driver.swapchain_images.length →
        s'.m_layouts.get? j = some RHI_Image_Layout.Color_Attachment_Optimal) := by
  obtain ⟨sd, destroyed, sc, created, s', acquire, hd, hc, ha, hres, _, _, hprev, hidx, hcount,
    hen, _⟩ :=
    Resize_recreating_path device driver image_index width height force s hvalid hneeded hn hdrv
  obtain ⟨calls, hd', _⟩ := destroy_eq
    { s with m_present_enabled := true, m_width := width, m_height := height }
  rw [hd'] at hd
  simp only [Result.ok.injEq, true_and] at hd
  have hcoop : driver.cooperates sd := by
    refine driver.cooperates_congr s sd ?_ ?_ ?_ hdrv <;> rw [← hd.1]
  obtain ⟨sc', created', swap_chain, formats, hc', hswap, hformats, hw, hh, hf, hr, hb, _, _, hwin,
    _, _, hlay, _⟩ := create_fields driver sd hcoop
  rw [hc'] at hc
  simp only [Result.ok.injEq, true_and] at hc
  obtain ⟨hw', hh', hf', hr', hl', _, _, _, hwin'⟩ := AcquireNextImage_ok_frame _ _ _ _ ha
  have hsd_w : sd.m_width = width := by rw [← hd.1]
  have hsd_h : sd.m_height = height := by rw [← hd.1]
  have hsd_f : sd.m_format = s.m_format := by rw [← hd.1]
  have hsd_hdr : sd.IsHdr = s.IsHdr := by unfold IsHdr; rw [hsd_f]
  have hsd_win : sd.m_sdl_window = s.m_sdl_window := by rw [← hd.1]
  refine ⟨s', destroyed ++ created ++ [acquire], swap_chain, formats, hres, hswap, hformats, ?_,
    ?_, ?_, ?_, hen, hidx, hprev, hcount, ?_, ?_⟩
  · rw [hw', ← hc.1, hw, hsd_w]
  · rw [hh', ← hc.1, hh, hsd_h]
  · rw [hf', ← hc.1, hf, hsd_f, hsd_hdr]
  · rw [hr', ← hc.1, hr]
  · rw [hwin', ← hc.1, hwin, hsd_win]
  · intro hcmd j hj
    rw [hl', ← hc.1]
    exact hlay hcmd j hj

/-- The clamp of a value into a non-empty range lies in the range, is the value
when the value is in the range, and differs from it otherwise. -/
theorem Clamp_spec (x a b : Nat) (hab : a ≤ b) :
    a ≤ Clamp x a b ∧ Clamp x a b ≤ b ∧
    (a ≤ x ∧ x ≤ b → Clamp x a b = x) ∧ (¬ (a ≤ x ∧ x ≤ b) → Clamp x a b ≠ x) := by
  unfold Clamp
  by_cases h1 : x < a
  · rw [if_pos h1]
    exact ⟨le_refl a, hab, fun h => absurd h.1 (by omega), fun _ => by omega⟩
  · rw [if_neg h1]
    by_cases h2 : x > b
    · rw [if_pos h2]
      exact ⟨hab, le_refl b, fun h => absurd h.2 (by omega), fun _ => by omega⟩
    · rw [if_neg h2]
      exact ⟨by omega, by omega, fun _ => rfl, fun h => absurd ⟨by omega, by omega⟩ h⟩

/-- On a swapchain with presenting enabled, at least one buffer and an idle
semaphore in each of its acquire slots, `AcquireNextImage` returns when the
driver hands out an image. -/
theorem AcquireNextImage_returns (image_index : Nat) (s : RHI_SwapChain)
    (hen : s.m_present_enabled = true) (hn : 1 ≤ s.m_buffer_count)
    (hsems : ∀ j, j < s.m_buffer_count →
      ∃ sem, s.m_acquire_semaphore.get? j = some (some sem) ∧
        sem.m_cpu_state = RHI_Sync_State.Idle) :
    ∃ s' calls, AcquireNextImage (some image_index) s = .ok () s' calls := by
  by_cases hpath : s.m_buffer_count = 1 ∧ s.m_image_index ≠ uint32_max
  · exact ⟨s, [], AcquireNextImage_early_return _ s hen hpath.1 hpath.2⟩
  · have hne : s.m_buffer_count ≠ 0 := by omega
    obtain ⟨sem, hsem, hidle⟩ := hsems s.next_sync_index (next_sync_index_lt s hne)
    obtain ⟨s', hacq, _⟩ := AcquireNextImage_ok_of_idle image_index s sem hen hpath hne hsem
      (by rw [hidle]; decide)
    exact ⟨s', _, hacq⟩

/-- A construction with a valid resolution on a cooperating platform, by the
fields it leaves. -/
theorem construct_fields (device : RHI_Device) (driver : Driver) (image_index : Nat)
    (sdl_window width height : Nat) (format : RHI_Format) (buffer_count flags : Nat)
    (name : String) (fresh : RHI_SwapChain)
    (hvalid : device.IsValidResolution width height = true)
    (hen : fresh.m_present_enabled = true)
    (hn : 1 ≤ buffer_count)
    (hdrv : driver.cooperates
      { fresh with m_sdl_window := sdl_window, m_format := format,
                   m_buffer_count := buffer_count }) :
    ∃ s' calls swap_chain supported_formats,
      construct device driver (some image_index) sdl_window width height format buffer_count
        flags name fresh = .ok () s' calls ∧
      driver.created_swapchain = some swap_chain ∧
      driver.surface_formats = some supported_formats ∧
      s'.m_width = Clamp width driver.surface_capabilities.minImageExtent_width
        driver.surface_capabilities.maxImageExtent_width ∧
      s'.m_height = Clamp height driver.surface_capabilities.minImageExtent_height
        driver.surface_capabilities.maxImageExtent_height ∧
      s'.m_format = (is_format_supported driver.vulkan_format driver.IsNvidia format
        (get_color_space (decide (format = RHI_Format.RHI_Format_R10G10B10A2_Unorm)))
        supported_formats).2 ∧
      s'.m_rhi_resource = swap_chain ∧ s'.m_present_enabled = true ∧
      s'.m_buffer_count = buffer_count ∧ s'.m_sdl_window = sdl_window ∧
      (driver.immediate_cmd_list ≠ 0 → ∀ j, j < driver.swapchain_images.length →
        s'.m_layouts.get? j = some RHI_Image_Layout.Color_Attachment_Optimal) := by
  unfold construct
  simp only [hvalid, Bool.true_eq_false, if_false]
  generalize hs7 : RHI_SwapChain.mk _ _ _ _ _ _ _ _ _ _ _ _ _ _ _ _ _ _ _ = s7
  have h7w : s7.m_width = width := by rw [← hs7]
  have h7h : s7.m_height = height := by rw [← hs7]
  have h7f : s7.m_format = format := by rw [← hs7]
  have h7b : s7.m_buffer_count = buffer_count := by rw [← hs7]
  have h7d : s7.m_sdl_window = sdl_window := by rw [← hs7]
  have h7e : s7.m_present_enabled = true := by rw [← hs7]; exact hen
  have h7hdr : s7.IsHdr = decide (format = RHI_Format.RHI_Format_R10G10B10A2_Unorm) := by
    unfold IsHdr; rw [h7f]
  have hcoop : driver.cooperates s7 :=
    driver.cooperates_congr _ s7 (by rw [h7d]) (by rw [h7f]) (by rw [h7b]) hdrv
  obtain ⟨sc, created, swap_chain, formats, hc, hswap, hformats, hw, hh, hf, hr, hb, _, he, hwin,
    _, _, hlay, hsems⟩ := create_fields driver s7 hcoop
  obtain ⟨s', acquire, ha⟩ := AcquireNextImage_returns image_index sc (by rw [he, h7e])
    (by rw [hb, h7b]; exact hn) (fun j hj => hsems j (by rw [← hb]; exact hj))
  obtain ⟨hw', hh', hf', hr', hl', _, hb', he', hwin'⟩ := AcquireNextImage_ok_frame _ _ _ _ ha
  refine ⟨s', release_semaphores fresh.m_acquire_semaphore.toList ++ (created ++ acquire),
    swap_chain, formats, ?_, hswap, hformats, ?_, ?_, ?_, ?_, ?_, ?_, ?_, ?_⟩
  · rw [hc]
    simp only [Result.andThen, ha, Result.after]
  · rw [hw', hw, h7w]
  · rw [hh', hh, h7h]
  · rw [hf', hf, h7f, h7hdr]
  · rw [hr', hr]
  · rw [he', he, h7e]
  · rw [hb', hb, h7b]
  · rw [hwin', hwin, h7d]
  · intro hcmd j hj
    rw [hl']
    exact hlay hcmd j hj

/-- C22: the requested extent is clamped into the range of the surface. For every
requested (w, h) and every surface capability with
`minImageExtent <= maxImageExtent` componentwise, a `Resize` that recreates
the chain and a construction, on a cooperating platform, return with
`m_width` and `m_height` equal to w and h clamped into the range: they lie
within the range, equal the request when it is in range and differ from it
otherwise, in which case a repeated `Resize(w, h, false)` is not recognised as
unchanged and recreates the chain again. -/
theorem extent_clamped (device : RHI_Device) (driver : Driver) (image_index : Nat)
    (width height : Nat)
    (hvalid : device.IsValidResolution width height = true)
    (hcapw : driver.surface_capabilities.minImageExtent_width ≤
      driver.surface_capabilities.maxImageExtent_width)
    (hcaph : driver.surface_capabilities.minImageExtent_height ≤
      driver.surface_capabilities.maxImageExtent_height) :
    (∀ (force : Bool) (s : RHI_SwapChain),
      (force = true ∨ ¬ (s.m_width = width ∧ s.m_height = height)) → 1 ≤ s.m_buffer_count →
      driver.cooperates s →
      ∃ s' calls, Resize device driver (some image_index) width height force s =
          .ok true s' calls ∧
        s'.m_width = Clamp width driver.surface_capabilities.minImageExtent_width
          driver.surface_capabilities.maxImageExtent_width ∧
        s'.m_height = Clamp height driver.surface_capabilities.minImageExtent_height
          driver.surface_capabilities.maxImageExtent_height ∧
        (¬ ((driver.surface_capabilities.minImageExtent_width ≤ width ∧
              width ≤ driver.surface_capabilities.maxImageExtent_width) ∧
            (driver.surface_capabilities.minImageExtent_height ≤ height ∧
              height ≤ driver.surface_capabilities.maxImageExtent_height)) →
          ¬ (s'.m_width = width ∧ s'.m_height = height) ∧
          ∀ image_index', ∃ s'' calls',
            Resize device driver (some image_index') width height false s' =
              .ok true s'' calls')) ∧
    (∀ (sdl_window : Nat) (format : RHI_Format) (buffer_count flags : Nat) (name : String)
        (fresh : RHI_SwapChain),
      fresh.m_present_enabled = true → 1 ≤ buffer_count →
      driver.cooperates { fresh with m_sdl_window := sdl_window, m_format := format,
                                     m_buffer_count := buffer_count } →
      ∃ s' calls, construct device driver (some image_index) sdl_window width height format
          buffer_count flags name fresh = .ok () s' calls ∧
        s'.m_width = Clamp width driver.surface_capabilities.minImageExtent_width
          driver.surface_capabilities.maxImageExtent_width ∧
        s'.m_height = Clamp height driver.surface_capabilities.minImageExtent_height
          driver.surface_capabilities.maxImageExtent_height) ∧
    (driver.surface_capabilities.minImageExtent_width ≤
        Clamp width driver.surface_capabilities.minImageExtent_width
          driver.surface_capabilities.maxImageExtent_width ∧
      Clamp width driver.surface_capabilities.minImageExtent_width
          driver.surface_capabilities.maxImageExtent_width ≤
        driver.surface_capabilities.maxImageExtent_width ∧
      driver.surface_capabilities.minImageExtent_height ≤
        Clamp height driver.surface_capabilities.minImageExtent_height
          driver.surface_capabilities.maxImageExtent_height ∧
      Clamp height driver.surface_capabilities.minImageExtent_height
          driver.surface_capabilities.maxImageExtent_height ≤
        driver.surface_capabilities.maxImageExtent_height) ∧
    ((driver.surface_capabilities.minImageExtent_width ≤ width ∧
        width ≤ driver.surface_capabilities.maxImageExtent_width) →
      Clamp width driver.surface_capabilities.minImageExtent_width
        driver.surface_capabilities.maxImageExtent_width = width) ∧
    ((driver.surface_capabilities.minImageExtent_height ≤ height ∧
        height ≤ driver.surface_capabilities.maxImageExtent_height) →
      Clamp height driver.surface_capabilities.minImageExtent_height
        driver.surface_capabilities.maxImageExtent_height = height) ∧
    (¬ (driver.surface_capabilities.minImageExtent_width ≤ width ∧
        width ≤ driver.surface_capabilities.maxImageExtent_width) →
      Clamp width driver.surface_capabilities.minImageExtent_width
        driver.surface_capabilities.maxImageExtent_width ≠ width) ∧
    (¬ (driver.surface_capabilities.minImageExtent_height ≤ height ∧
        height ≤ driver.surface_capabilities.maxImageExtent_height) →
      Clamp height driver.surface_capabilities.minImageExtent_height
        driver.surface_capabilities.maxImageExtent_height ≠ height) := by
  obtain ⟨hw1, hw2, hw3, hw4⟩ := Clamp_spec width _ _ hcapw
  obtain ⟨hh1, hh2, hh3, hh4⟩ := Clamp_spec height _ _ hcaph
  refine ⟨?_, ?_, ⟨hw1, hw2, hh1, hh2⟩, hw3, hh3, hw4, hh4⟩
  · intro force s hneeded hn hdrv
    obtain ⟨s', calls, _, formats, hres, _, hformats, hw, hh, hf, _, _, _, _, hcount, hwin, _⟩ :=
      Resize_recreated_fields device driver image_index width height force s hvalid hneeded hn
        hdrv
    refine ⟨s', calls, hres, hw, hh, ?_⟩
    intro hout
    have hdiff : ¬ (s'.m_width = width ∧ s'.m_height = height) := by
      rintro ⟨h1, h2⟩
      rw [hw] at h1
      rw [hh] at h2
      by_cases hin : driver.surface_capabilities.minImageExtent_width ≤ width ∧
          width ≤ driver.surface_capabilities.maxImageExtent_width
      · exact hh4 (fun hin' => hout ⟨hin, hin'⟩) h2
      · exact hw4 hin h1
    refine ⟨hdiff, ?_⟩
    intro image_index'
    have hcoop : driver.cooperates s' :=
      driver.cooperates_after_create s s' formats hformats hwin hcount hf hdrv
    obtain ⟨s'', calls', _, _, hres', _⟩ :=
      Resize_recreated_fields device driver image_index' width height false s' hvalid
        (Or.inr hdiff) (by rw [hcount]; exact hn) hcoop
    exact ⟨s'', calls', hres'⟩
  · intro sdl_window format buffer_count flags name fresh hen hn hdrv
    obtain ⟨s', calls, _, _, hres, _, _, hw, hh, _⟩ :=
      construct_fields device driver image_index sdl_window width height format buffer_count
        flags name fresh hvalid hen hn hdrv
    exact ⟨s', calls, hres, hw, hh⟩

/-- Witness for C22: the triple-buffered example resized to 5000x768 on a surface
that allows at most 4096x4096. -/
theorem extent_clamped_witness :
    ∃ s' calls, Resize example_device example_driver (some 0) 5000 768 false
        example_triple_buffered = .ok true s' calls ∧
      s'.m_width = 4096 ∧ s'.m_height = 768 ∧
      ¬ (s'.m_width = 5000 ∧ s'.m_height = 768) :=
  have ⟨s', calls, h1, h2, h3, h4⟩ :=
    (extent_clamped example_device example_driver 0 5000 768 (by decide) (by decide)
      (by decide)).1 false example_triple_buffered (Or.inr (by decide)) (by decide)
      example_driver_cooperates
  ⟨s', calls, h1, h2, h3, (h4 (by decide)).1⟩

/-! ## The layouts a new chain starts with -/

/-- With the first three preconditions met and the acquired image in another
layout than `Present_Src`, `Present` fails its layout assertion. -/
theorem Present_fails_layout (device : RHI_Device) (cmd_pools : List RHI_CommandPool)
    (acquired : Option Nat) (s : RHI_SwapChain) (layout : RHI_Image_Layout)
    (h1 : s.m_rhi_resource ≠ 0) (h2 : s.m_present_enabled = true)
    (h3 : s.m_image_index ≠ s.m_image_index_previous)
    (h4 : s.m_layouts.get? s.m_image_index = some layout)
    (h5 : layout ≠ RHI_Image_Layout.Present_Src) :
    Present device cmd_pools acquired s =
      .assert_failed "The layout must be Present_Src" s [] := by
  unfold Present
  rw [if_neg h1, if_neg (by rw [h2]; decide), if_neg h3]
  simp only [h4]
  rw [if_pos h5]

/-- C24: after a `Resize` that recreates the chain and after a construction, on
a cooperating platform that hands out the immediate command list, the recorded
layout of every swapchain image slot `i < image_count` is
`Color_Attachment_Optimal`, not `Present_Src`; consequently a `Present` that
is called before a `SetLayout(Present_Src)` on the acquired image fails the
layout precondition (the swapchain handle being non-null and the acquired
index being that of an image of the chain). -/
theorem layouts_after_create (device : RHI_Device) (driver : Driver) (image_index : Nat)
    (width height : Nat)
    (hvalid : device.IsValidResolution width height = true)
    (hcmd : driver.immediate_cmd_list ≠ 0) :
    (∀ (force : Bool) (s : RHI_SwapChain),
      (force = true ∨ ¬ (s.m_width = width ∧ s.m_height = height)) → 1 ≤ s.m_buffer_count →
      driver.cooperates s →
      ∃ s' calls, Resize device driver (some image_index) width height force s =
          .ok true s' calls ∧
        (∀ i, i < driver.swapchain_images.length →
          s'.m_layouts.get? i = some RHI_Image_Layout.Color_Attachment_Optimal) ∧
        (image_index < driver.swapchain_images.length → driver.created_swapchain ≠ some 0 →
          ∀ device' cmd_pools acquired', Present device' cmd_pools acquired' s' =
            .assert_failed "The layout must be Present_Src" s' [])) ∧
    (∀ (sdl_window : Nat) (format : RHI_Format) (buffer_count flags : Nat) (name : String)
        (fresh : RHI_SwapChain),
      fresh.m_present_enabled = true → 1 ≤ buffer_count →
      driver.cooperates { fresh with m_sdl_window := sdl_window, m_format := format,
                                     m_buffer_count := buffer_count } →
      ∃ s' calls, construct device driver (some image_index) sdl_window width height format
          buffer_count flags name fresh = .ok () s' calls ∧
        (∀ i, i < driver.swapchain_images.length →
          s'.m_layouts.get? i = some RHI_Image_Layout.Color_Attachment_Optimal) ∧
        (s'.m_image_index < driver.swapchain_images.length →
          s'.m_image_index ≠ s'.m_image_index_previous → driver.created_swapchain ≠ some 0 →
          ∀ device' cmd_pools acquired', Present device' cmd_pools acquired' s' =
            .assert_failed "The layout must be Present_Src" s' [])) := by
  constructor
  · intro force s hneeded hn hdrv
    obtain ⟨s', calls, swap_chain, _, hres, hswap, _, _, _, _, hr, hen, hidx, hprev, _, _, hlay⟩ :=
      Resize_recreated_fields device driver image_index width height force s hvalid hneeded hn
        hdrv
    refine ⟨s', calls, hres, hlay hcmd, ?_⟩
    intro hlt hhandle device' cmd_pools acquired'
    have himages : driver.swapchain_images.length ≤ max_buffer_count := hdrv.2.2.2.2.2.2.1
    refine Present_fails_layout device' cmd_pools acquired' s'
      RHI_Image_Layout.Color_Attachment_Optimal ?_ hen ?_ ?_ (by decide)
    · rw [hr]
      intro h0
      exact hhandle (by rw [hswap, h0])
    · rw [hidx, hprev]
      unfold max_buffer_count at himages
      unfold uint32_max
      omega
    · rw [hidx]
      exact hlay hcmd image_index hlt
  · intro sdl_window format buffer_count flags name fresh hen hn hdrv
    obtain ⟨s', calls, swap_chain, _, hres, hswap, _, _, _, _, hr, hen', _, _, hlay⟩ :=
      construct_fields device driver image_index sdl_window width height format buffer_count
        flags name fresh hvalid hen hn hdrv
    refine ⟨s', calls, hres, hlay hcmd, ?_⟩
    intro hlt hne hhandle device' cmd_pools acquired'
    refine Present_fails_layout device' cmd_pools acquired' s'
      RHI_Image_Layout.Color_Attachment_Optimal ?_ hen' hne (hlay hcmd _ hlt) (by decide)
    rw [hr]
    intro h0
    exact hhandle (by rw [hswap, h0])

/-- Witness for C24: the triple-buffered example resized to 1024x768; the driver
hands out image 0, and a `Present` right after fails the layout assertion. -/
theorem layouts_after_create_witness :
    ∃ s' calls, Resize example_device example_driver (some 0) 1024 768 false
        example_triple_buffered = .ok true s' calls ∧
      s'.m_layouts.get? 0 = some RHI_Image_Layout.Color_Attachment_Optimal ∧
      Present example_device [] (some 1) s' =
        .assert_failed "The layout must be Present_Src" s' [] :=
  have ⟨s', calls, h1, h2, h3⟩ :=
    (layouts_after_create example_device example_driver 0 1024 768 (by decide) (by decide)).1
      false example_triple_buffered (Or.inr (by decide)) (by decide) example_driver_cooperates
  ⟨s', calls, h1, h2 0 (by decide), h3 (by decide) (by decide) example_device [] (some 1)⟩

/-! ## SetHdr on an Nvidia device, and a driver with more images than slots -/

/-- C27, the code at the failing input: on an Nvidia device, `SetHdr(false)` on
the HDR example returns and leaves `m_format` at `B8R8G8A8_Unorm`, the format
`create` substitutes; the immediately following `SetHdr(false)` finds its
target `R8G8B8A8_Unorm` different from `m_format` and resizes again: it
destroys the swapchain the first call created and creates another. On a
device of another vendor the second call does nothing. -/
theorem SetHdr_twice_on_nvidia :
    (SetHdr false example_device example_nvidia_driver (some 0) false example_hdr).returned
      = true ∧
    (SetHdr false example_device example_nvidia_driver (some 0) false example_hdr).state.m_format
      = RHI_Format.RHI_Format_B8R8G8A8_Unorm ∧
    (SetHdr false example_device example_nvidia_driver (some 1) false
      (SetHdr false example_device example_nvidia_driver (some 0) false example_hdr).state).returned
      = true ∧
    Call.vkDestroySwapchainKHR 60 ∈
      (SetHdr false example_device example_nvidia_driver (some 1) false
        (SetHdr false example_device example_nvidia_driver (some 0) false example_hdr).state).calls ∧
    Call.vkCreateSwapchainKHR 50 3 44 VkColorSpaceKHR.VK_COLOR_SPACE_SRGB_NONLINEAR_KHR 800 600
        VkPresentModeKHR.VK_PRESENT_MODE_FIFO_KHR ∈
      (SetHdr false example_device example_nvidia_driver (some 1) false
        (SetHdr false example_device example_nvidia_driver (some 0) false example_hdr).state).calls ∧
    (SetHdr false example_device example_driver (some 1) false
      (SetHdr false example_device example_driver (some 0) false example_hdr).state).calls = [] := by
  refine ⟨?_, ?_, ?_, ?_, ?_, ?_⟩ <;> decide

/-- C28, the code at the failing input: the chain is asked for three buffers, the
capacity of the per-slot arrays, and the driver hands out four images. The
`Resize` does not return: after the layout transition of the fourth image the
write to `(*layouts)[3]` is past the end of the array. -/
theorem create_writes_past_the_slot_arrays :
    example_triple_buffered.m_buffer_count ≤ max_buffer_count ∧
    example_driver_four_images.swapchain_images.length = 4 ∧
    (∃ state calls, Resize example_device example_driver_four_images (some 0) 1024 768 false
        example_triple_buffered =
      .undefined state (calls ++ [Call.image_set_layout 80 73 RHI_Image_Layout.Undefined
        RHI_Image_Layout.Color_Attachment_Optimal])) := by
  refine ⟨by decide, rfl,
    (Resize example_device example_driver_four_images (some 0) 1024 768 false
      example_triple_buffered).state,
    (Resize example_device example_driver_four_images (some 0) 1024 768 false
      example_triple_buffered).calls.dropLast, ?_⟩
  decide

/-! ## When create returns, and what it then leaves -/

/-- A sequence returns only if both of its parts do. -/
theorem Result.andThen_ok_inv {σ α β : Type} (r : Result σ α) (f : α → σ → Result σ β)
    (v : β) (s : σ) (c : List Call) (h : r.andThen f = .ok v s c) :
    ∃ v1 s1 c1 c2, r = .ok v1 s1 c1 ∧ f v1 s1 = .ok v s c2 ∧ c = c1 ++ c2 := by
  cases r with
  | ok v1 s1 c1 =>
    simp only [Result.andThen] at h
    cases hf : f v1 s1 with
    | ok v2 s2 c2 =>
      rw [hf] at h
      simp only [Result.after, Result.ok.injEq] at h
      obtain ⟨rfl, rfl, rfl⟩ := h
      exact ⟨v1, s1, c1, c2, rfl, hf, rfl⟩
    | assert_failed msg s2 c2 => rw [hf] at h; simp [Result.after] at h
    | undefined s2 c2 => rw [hf] at h; simp [Result.after] at h
  | assert_failed msg s1 c1 => simp [Result.andThen] at h
  | undefined s1 c1 => simp [Result.andThen] at h

theorem Result.after_ok_inv {σ α : Type} (pre : List Call) (r : Result σ α)
    (v : α) (s : σ) (c : List Call) (h : r.after pre = .ok v s c) :
    ∃ c', r = .ok v s c' ∧ c = pre ++ c' := by
  cases r with
  | ok v1 s1 c1 =>
    simp only [Result.after, Result.ok.injEq] at h
    obtain ⟨rfl, rfl, rfl⟩ := h
    exact ⟨c1, rfl, rfl⟩
  | assert_failed msg s1 c1 => simp [Result.after] at h
  | undefined s1 c1 => simp [Result.after] at h

/-- The layout loop of `create` returns only when the images fit the array. -/
theorem create_transition_layouts_ok_inv (cmd_list : Nat) (images : List Nat) :
    ∀ (i : Nat) (s s' : RHI_SwapChain) (calls : List Call),
      create_transition_layouts cmd_list images i s = .ok () s' calls →
      images = [] ∨ i + images.length ≤ max_buffer_count := by
  induction images with
  | nil => intro i s s' calls _; exact Or.inl rfl
  | cons image rest ih =>
    intro i s s' calls h
    right
    unfold create_transition_layouts at h
    by_cases hi : i < max_buffer_count
    · simp only [if_pos hi] at h
      obtain ⟨c', hrec, _⟩ := Result.after_ok_inv _ _ _ _ _ h
      rcases ih _ _ _ _ hrec with hnil | hle
      · rw [hnil]
        simp only [List.length_cons, List.length_nil]
        omega
      · simp only [List.length_cons]
        omega
    · simp [if_neg hi] at h

/-- The image-view loop of `create` returns only when the images fit the arrays. -/
theorem create_image_views_ok_inv (driver : Driver) (format : Nat) (images : List Nat) :
    ∀ (i : Nat) (s s' : RHI_SwapChain) (calls : List Call),
      create_image_views driver format images i s = .ok () s' calls →
      images = [] ∨ i + images.length ≤ max_buffer_count := by
  induction images with
  | nil => intro i s s' calls _; exact Or.inl rfl
  | cons image rest ih =>
    intro i s s' calls h
    right
    unfold create_image_views at h
    by_cases hi : i < max_buffer_count
    · simp only [if_pos hi] at h
      obtain ⟨c', hrec, _⟩ := Result.after_ok_inv _ _ _ _ _ h
      rcases ih _ _ _ _ hrec with hnil | hle
      · rw [hnil]
        simp only [List.length_cons, List.length_nil]
        omega
      · simp only [List.length_cons]
        omega
    · simp [if_neg hi] at h

/-- The semaphore loop of `create` returns only when the slots fit the array and
the driver creates every semaphore. -/
theorem create_semaphores_ok_inv (driver : Driver) :
    ∀ (remaining i : Nat) (s s' : RHI_SwapChain) (calls : List Call),
      create_semaphores driver remaining i s = .ok () s' calls →
      (remaining = 0 ∨ i + remaining ≤ max_buffer_count) ∧
      ∀ j, i ≤ j → j < i + remaining → (driver.created_semaphore j).isSome = true := by
  intro remaining
  induction remaining with
  | zero =>
    intro i s s' calls _
    exact ⟨Or.inl rfl, fun j h1 h2 => absurd h2 (by omega)⟩
  | succ remaining ih =>
    intro i s s' calls h
    unfold create_semaphores at h
    simp only [] at h
    cases hcreated : driver.created_semaphore i with
    | none =>
      simp [hcreated, RHI_Semaphore.construct, RHI_Semaphore.initial, create_semaphore] at h
    | some handle =>
      simp only [hcreated, RHI_Semaphore.construct, RHI_Semaphore.initial, create_semaphore,
        ne_eq, not_true_eq_false, if_false] at h
      by_cases hi : i < max_buffer_count
      · simp only [if_pos hi] at h
        obtain ⟨c', hrec, _⟩ := Result.after_ok_inv _ _ _ _ _ h
        obtain ⟨hfit, hall⟩ := ih _ _ _ _ hrec
        refine ⟨Or.inr ?_, ?_⟩
        · rcases hfit with h0 | hle
          · rw [h0]; omega
          · omega
        · intro j h1 h2
          rcases Nat.eq_or_lt_of_le h1 with rfl | hlt
          · rw [hcreated]; rfl
          · exact hall j (by omega) (by omega)
      · simp [if_neg hi] at h

theorem create_transition_layouts_buffer_count (cmd_list : Nat) (images : List Nat) :
    ∀ (i : Nat) (s : RHI_SwapChain),
      (create_transition_layouts cmd_list images i s).state.m_buffer_count =
        s.m_buffer_count := by
  induction images with
  | nil => intro i s; rfl
  | cons image rest ih =>
    intro i s
    unfold create_transition_layouts
    by_cases hi : i < max_buffer_count
    · simp only [if_pos hi, Result.state_after, ih]
    · simp only [if_neg hi, Result.state]

theorem create_image_views_buffer_count (driver : Driver) (format : Nat) (images : List Nat) :
    ∀ (i : Nat) (s : RHI_SwapChain),
      (create_image_views driver format images i s).state.m_buffer_count =
        s.m_buffer_count := by
  induction images with
  | nil => intro i s; rfl
  | cons image rest ih =>
    intro i s
    unfold create_image_views
    by_cases hi : i < max_buffer_count
    · simp only [if_pos hi, Result.state_after, ih]
    · simp only [if_neg hi, Result.state]

/-- The function `create` returns only on a platform that cooperates: the
conditions of `Driver.cooperates` are exactly those under which it returns. -/
theorem create_ok_cooperates (driver : Driver) (s s' : RHI_SwapChain) (calls : List Call)
    (h : create driver s = .ok () s' calls) : driver.cooperates s := by
  unfold create at h
  by_cases hwin : s.m_sdl_window = 0
  · simp [if_pos hwin] at h
  simp only [if_neg hwin] at h
  cases hsurf : driver.created_surface with
  | none => simp [hsurf] at h
  | some surface =>
    simp only [hsurf] at h
    cases hsupp : driver.surface_support with
    | none => simp [hsupp] at h
    | some support =>
      cases support with
      | false => simp [hsupp] at h
      | true =>
        simp only [hsupp] at h
        by_cases hcount : driver.surface_format_count_ok = false
        · simp [get_supported_surface_formats, hcount] at h
        cases hformats : driver.surface_formats with
        | none => simp [get_supported_surface_formats, hcount, hformats] at h
        | some supported_formats =>
          simp only [get_supported_surface_formats, if_neg hcount, hformats] at h
          by_cases hfmt : (is_format_supported driver.vulkan_format driver.IsNvidia s.m_format
              (get_color_space s.IsHdr) supported_formats).1 = false
          · simp [if_pos hfmt] at h
          simp only [if_neg hfmt] at h
          cases hswap : driver.created_swapchain with
          | none => simp [hswap] at h
          | some swap_chain =>
            simp only [hswap] at h
            obtain ⟨c', h1, _⟩ := Result.after_ok_inv _ _ _ _ _ h
            obtain ⟨_, s4, c4, c5, ht, h2, _⟩ := Result.andThen_ok_inv _ _ _ _ _ h1
            obtain ⟨_, s5, c6, c7, hv, h3, _⟩ := Result.andThen_ok_inv _ _ _ _ _ h2
            have himages : driver.swapchain_images.length ≤ max_buffer_count := by
              rcases create_image_views_ok_inv _ _ _ _ _ _ _ hv with hnil | hle
              · rw [hnil]; exact Nat.zero_le _
              · omega
            have hb5 : s5.m_buffer_count = s4.m_buffer_count := by
              have := create_image_views_buffer_count driver (driver.vulkan_format s4.m_format)
                driver.swapchain_images 0 s4
              rw [hv] at this
              exact this
            have hb4 : s4.m_buffer_count = s.m_buffer_count := by
              by_cases hcmd : driver.immediate_cmd_list ≠ 0
              · rw [if_pos hcmd] at ht
                obtain ⟨_, s4', _, _, ht1, ht2, _⟩ := Result.andThen_ok_inv _ _ _ _ _ ht
                simp only [Result.ok.injEq, true_and] at ht2
                obtain ⟨_, ht3, _⟩ := Result.after_ok_inv _ _ _ _ _ ht1
                have := create_transition_layouts_buffer_count driver.immediate_cmd_list
                  driver.swapchain_images 0
                  { s with
                    m_width := Clamp s.m_width driver.surface_capabilities.minImageExtent_width
                      driver.surface_capabilities.maxImageExtent_width
                    m_height := Clamp s.m_height
                      driver.surface_capabilities.minImageExtent_height
                      driver.surface_capabilities.maxImageExtent_height
                    m_format := (is_format_supported driver.vulkan_format driver.IsNvidia
                      s.m_format (get_color_space s.IsHdr) supported_formats).2 }
                rw [ht3] at this
                rw [← ht2.1]
                exact this
              · rw [if_neg hcmd] at ht
                simp only [Result.ok.injEq, true_and] at ht
                rw [← ht.1]
            obtain ⟨hfit, hall⟩ := create_semaphores_ok_inv driver _ _ _ _ _ h3
            simp only [hb5, hb4] at hfit hall
            refine ⟨hwin, by rw [hsurf]; rfl, hsupp, by simpa using hcount,
              ⟨supported_formats, hformats, by simpa using hfmt⟩, by rw [hswap]; rfl, himages,
              ?_, fun i hi => hall i (Nat.zero_le i) (by omega)⟩
            rcases hfit with h0 | hle
            · rw [h0]; exact Nat.zero_le _
            · omega

/-- The image-view loop of `create`, when the images fit the arrays: image `k` of
the list and the view the driver makes for it are stored in slot `i + k`, and
the view was asked for with the given format. -/
theorem create_image_views_stored (driver : Driver) (format : Nat) (images : List Nat) :
    ∀ (i : Nat) (s : RHI_SwapChain), i + images.length ≤ max_buffer_count →
      ∃ textures views calls, create_image_views driver format images i s =
        .ok () { s with m_rhi_backbuffer_resource := textures, m_rhi_backbuffer_srv := views }
          calls ∧
        (∀ k image, images.get? k = some image →
          textures.get? (i + k) = some image ∧
          views.get? (i + k) = some (driver.created_image_view image) ∧
          Call.image_view_create image format ∈ calls) ∧
        (∀ j, j < i → textures.get? j = s.m_rhi_backbuffer_resource.get? j ∧
          views.get? j = s.m_rhi_backbuffer_srv.get? j) := by
  induction images with
  | nil =>
    intro i s _
    exact ⟨s.m_rhi_backbuffer_resource, s.m_rhi_backbuffer_srv, [], rfl,
      fun k image h => by simp at h, fun _ _ => ⟨rfl, rfl⟩⟩
  | cons image rest ih =>
    intro i s hlen
    simp only [List.length_cons] at hlen
    have hi : i < max_buffer_count := by omega
    obtain ⟨textures, views, calls, heq, hstored, hbelow⟩ := ih (i + 1)
      { s with m_rhi_backbuffer_resource := s.m_rhi_backbuffer_resource.set i image,
               m_rhi_backbuffer_srv := s.m_rhi_backbuffer_srv.set i
                 (driver.created_image_view image) }
      (by omega)
    refine ⟨textures, views, Call.set_object_name image ("swapchain_image_" ++ toString i) ::
      Call.image_view_create image format :: calls, ?_, ?_, ?_⟩
    · simp only [create_image_views, if_pos hi, heq, Result.after, List.cons_append,
        List.nil_append]
    · intro k img hk
      cases k with
      | zero =>
        simp only [List.get?_cons_zero, Option.some.injEq] at hk
        subst hk
        obtain ⟨h1, h2⟩ := hbelow i (by omega)
        refine ⟨?_, ?_, by simp⟩
        · rw [Nat.add_zero, h1]
          exact Slots.get?_set_self _ _ hi
        · rw [Nat.add_zero, h2]
          exact Slots.get?_set_self _ _ hi
      | succ k =>
        simp only [List.get?_cons_succ] at hk
        obtain ⟨h1, h2, h3⟩ := hstored k img hk
        have hidx : i + (k + 1) = i + 1 + k := by omega
        rw [hidx]
        exact ⟨h1, h2, List.mem_cons_of_mem _ (List.mem_cons_of_mem _ h3)⟩
    · intro j hj
      obtain ⟨h1, h2⟩ := hbelow j (by omega)
      rw [h1, h2]
      exact ⟨Slots.get?_set_of_ne _ _ (by omega), Slots.get?_set_of_ne _ _ (by omega)⟩

/-- The semaphore loop of `create`, when it returns: each slot it visits holds an
idle semaphore whose native handle is the one the driver created for it, made
by a `vkCreateSemaphore` call. -/
theorem create_semaphores_handles (driver : Driver) :
    ∀ (remaining i : Nat) (s : RHI_SwapChain), i + remaining ≤ max_buffer_count →
      (∀ j, j < i + remaining → (driver.created_semaphore j).isSome = true) →
      ∃ sems calls, create_semaphores driver remaining i s =
        .ok () { s with m_acquire_semaphore := sems } calls ∧
        (∀ j, j < i → sems.get? j = s.m_acquire_semaphore.get? j) ∧
        (∀ j, i ≤ j → j < i + remaining →
          ∃ sem, sems.get? j = some (some sem) ∧ sem.m_cpu_state = RHI_Sync_State.Idle ∧
            driver.created_semaphore j = some sem.m_resource) ∧
        (0 < remaining → Call.vkCreateSemaphore false ∈ calls) := by
  intro remaining
  induction remaining with
  | zero =>
    intro i s _ _
    exact ⟨s.m_acquire_semaphore, [], rfl, fun _ _ => rfl,
      fun j h1 h2 => absurd h2 (by omega), fun h => absurd h (by omega)⟩
  | succ remaining ih =>
    intro i s hlen hdrv
    have hi : i < max_buffer_count := by omega
    obtain ⟨handle, hhandle⟩ := Option.isSome_iff_exists.1 (hdrv i (by omega))
    obtain ⟨sem, hsem⟩ : ∃ sem : RHI_Semaphore, sem =
        { m_resource := handle, m_is_timeline := false, m_cpu_state := RHI_Sync_State.Idle,
          m_name := "swapchain_image_acquired_" ++ toString i } := ⟨_, rfl⟩
    obtain ⟨sems, calls, heq, hbelow, hfrom, _⟩ := ih (i + 1)
      { s with m_acquire_semaphore := s.m_acquire_semaphore.set i (some sem) }
      (by omega) (fun j hj => hdrv j (by omega))
    refine ⟨sems, ([Call.vkCreateSemaphore false, Call.set_object_name handle
        ("swapchain_image_acquired_" ++ toString i)] ++ release_slot s.m_acquire_semaphore i) ++
        calls, ?_, ?_, ?_, fun _ => by simp⟩
    · simp only [create_semaphores, RHI_Semaphore.construct, RHI_Semaphore.initial,
        create_semaphore, hhandle, if_pos hi, heq, Result.after, List.cons_append,
        List.nil_append, ne_eq, not_true_eq_false, if_false, List.singleton_append, ← hsem]
    · intro j hj
      rw [hbelow j (by omega)]
      exact Slots.get?_set_of_ne _ _ (by omega)
    · intro j h1 h2
      rcases Nat.eq_or_lt_of_le h1 with rfl | hlt
      · rw [hbelow i (by omega)]
        exact ⟨sem, Slots.get?_set_self _ _ hi, by rw [hsem], by rw [hsem]; exact hhandle⟩
      · exact hfrom j (by omega) (by omega)

/-- With a cooperating platform `create` returns; this is what it stores and
what it calls. -/
theorem create_result (driver : Driver) (s : RHI_SwapChain) (h : driver.cooperates s) :
    ∃ s' calls surface swap_chain,
      create driver s = .ok () s' calls ∧
      driver.created_surface = some surface ∧ driver.created_swapchain = some swap_chain ∧
      s'.m_surface = surface ∧ s'.m_rhi_resource = swap_chain ∧
      (∀ k image, driver.swapchain_images.get? k = some image →
        s'.m_rhi_backbuffer_resource.get? k = some image ∧
        s'.m_rhi_backbuffer_srv.get? k = some (driver.created_image_view image) ∧
        Call.image_view_create image (driver.vulkan_format s'.m_format) ∈ calls) ∧
      (∀ j, j < s.m_buffer_count →
        ∃ sem, s'.m_acquire_semaphore.get? j = some (some sem) ∧
          sem.m_cpu_state = RHI_Sync_State.Idle ∧
          driver.created_semaphore j = some sem.m_resource) ∧
      Call.SDL_Vulkan_CreateSurface s.m_sdl_window ∈ calls ∧
      Call.vkCreateSwapchainKHR surface s.m_buffer_count (driver.vulkan_format s'.m_format)
        (get_color_space s.IsHdr) s'.m_width s'.m_height
        (get_present_mode driver.present_bits driver.surface_present_modes s.m_flags) ∈ calls ∧
      (0 < s.m_buffer_count → Call.vkCreateSemaphore false ∈ calls) := by
  obtain ⟨hwin, hsurf, hsupp, hcount, ⟨formats, hformats, hfmt⟩, hswap, himages, hn, hsems⟩ := h
  obtain ⟨surface, hsurface⟩ := Option.isSome_iff_exists.1 hsurf
  obtain ⟨swap_chain, hswap_chain⟩ := Option.isSome_iff_exists.1 hswap
  unfold create
  simp only [if_neg hwin, hsurface, hsupp, get_supported_surface_formats, hcount, hformats,
    hfmt, hswap_chain, Bool.true_eq_false, if_false]
  generalize hs3 : RHI_SwapChain.mk _ _ _ _ _ _ _ _ _ _ _ _ _ _ _ _ _ _ _ = s3
  have hw3 : s3.m_width = Clamp s.m_width driver.surface_capabilities.minImageExtent_width
      driver.surface_capabilities.maxImageExtent_width := by rw [← hs3]
  have hh3 : s3.m_height = Clamp s.m_height driver.surface_capabilities.minImageExtent_height
      driver.surface_capabilities.maxImageExtent_height := by rw [← hs3]
  have hf3 : s3.m_format = (is_format_supported driver.vulkan_format driver.IsNvidia s.m_format
      (get_color_space s.IsHdr) formats).2 := by rw [← hs3]
  have hb3 : s3.m_buffer_count = s.m_buffer_count := by rw [← hs3]
  generalize hc2 : [Call.SDL_Vulkan_CreateSurface s.m_sdl_window] ++
    [Call.vkCreateSwapchainKHR _ _ _ _ _ _ _] = c2
  have himages0 : 0 + driver.swapchain_images.length ≤ max_buffer_count := by omega
  obtain ⟨layouts, c3, ht⟩ : ∃ layouts c3,
      (if driver.immediate_cmd_list ≠ 0 then
        ((create_transition_layouts driver.immediate_cmd_list driver.swapchain_images 0
          s3).after [Call.ImmediateBegin]).andThen
          fun _ s4 => Result.ok () s4 [Call.ImmediateSubmit driver.immediate_cmd_list]
      else Result.ok () s3 [Call.ImmediateBegin]) =
        Result.ok () { s3 with m_layouts := layouts } c3 := by
    by_cases hcmd : driver.immediate_cmd_list ≠ 0
    · obtain ⟨layouts, c, heq, _⟩ := create_transition_layouts_layouts
        driver.immediate_cmd_list driver.swapchain_images 0 s3 himages0
      refine ⟨layouts,
        ([Call.ImmediateBegin] ++ c) ++ [Call.ImmediateSubmit driver.immediate_cmd_list], ?_⟩
      rw [if_pos hcmd, heq]
      rfl
    · exact ⟨s3.m_layouts, [Call.ImmediateBegin], by rw [if_neg hcmd]⟩
  rw [ht]
  obtain ⟨textures, views, c4, hv, hstored, _⟩ := create_image_views_stored driver
    (driver.vulkan_format s3.m_format) driver.swapchain_images 0
    { s3 with m_layouts := layouts } himages0
  obtain ⟨sems, c5, hsem, _, hfresh, hmade⟩ := create_semaphores_handles driver s3.m_buffer_count 0
    { s3 with m_layouts := layouts, m_rhi_backbuffer_resource := textures,
              m_rhi_backbuffer_srv := views, m_surface := surface,
              m_rhi_resource := swap_chain }
    (by omega) (fun j hj => hsems j (by omega))
  refine ⟨{ s3 with m_layouts := layouts, m_rhi_backbuffer_resource := textures,
                     m_rhi_backbuffer_srv := views, m_surface := surface,
                     m_rhi_resource := swap_chain, m_acquire_semaphore := sems },
    c2 ++ (c3 ++ (c4 ++ c5)), surface, swap_chain, ?_, rfl, rfl, rfl, rfl, ?_, ?_, ?_, ?_, ?_⟩
  · simp only [Result.andThen, hv, Result.after, hsem]
  · intro k image hk
    obtain ⟨h1, h2, h3⟩ := hstored k image hk
    rw [Nat.zero_add] at h1 h2
    exact ⟨h1, h2, by simp [h3]⟩
  · intro j hj
    exact hfresh j (Nat.zero_le j) (by omega)
  · rw [← hc2]
    simp
  · rw [← hc2, ← hs3]
    simp
  · intro hpos
    have := hmade (by omega)
    simp [this]

/-! ## Resize: what is retired, what is created, what is stored -/

/-- Releasing the acquire semaphores destroys the handle of every live one. -/
theorem release_semaphores_destroys (sems : List (Option RHI_Semaphore)) (sem : RHI_Semaphore)
    (hmem : some sem ∈ sems) (hlive : sem.m_resource ≠ 0) :
    Call.vkDestroySemaphore sem.m_resource ∈ release_semaphores sems := by
  induction sems with
  | nil => exact absurd hmem (List.not_mem_nil _)
  | cons p rest ih =>
    unfold release_semaphores
    rcases List.mem_cons.1 hmem with h | h
    · rw [← h]
      simp [release_semaphore, RHI_Semaphore.destruct, destroy_semaphore, hlive, Result.calls]
    · exact List.mem_append_right _ (ih h)

/-- The image-view loop of `destroy` enqueues every view that is held. -/
theorem enqueue_image_views_enqueues (views : List Nat) (image_view : Nat)
    (hmem : image_view ∈ views) (hne : image_view ≠ 0) :
    Call.AddToDeletionQueue_texture_view image_view ∈ enqueue_image_views views := by
  induction views with
  | nil => exact absurd hmem (List.not_mem_nil _)
  | cons view rest ih =>
    unfold enqueue_image_views
    rcases List.mem_cons.1 hmem with h | h
    · rw [← h, if_pos hne]
      exact List.mem_cons_self _ _
    · by_cases hv : view ≠ 0
      · rw [if_pos hv]
        exact List.mem_cons_of_mem _ (ih h)
      · rw [if_neg hv]
        exact ih h

/-- A call of `AcquireNextImage` that returns has left the surface and the
backbuffer images as they were, and every acquire semaphore keeps its native
handle. -/
theorem AcquireNextImage_ok_handles (acquired : Option Nat) (s s' : RHI_SwapChain)
    (calls : List Call) (h : AcquireNextImage acquired s = .ok () s' calls) :
    s'.m_surface = s.m_surface ∧
    s'.m_rhi_backbuffer_resource = s.m_rhi_backbuffer_resource ∧
    ∀ j sem, s.m_acquire_semaphore.get? j = some (some sem) →
      ∃ sem', s'.m_acquire_semaphore.get? j = some (some sem') ∧
        sem'.m_resource = sem.m_resource := by
  rcases AcquireNextImage_ok_cases acquired s s' calls h with
    ⟨_, _, rfl, _⟩ | ⟨sem0, image_index, rfl, hn, hpath, hen, hsem, hidle, _⟩
  · exact ⟨rfl, rfl, fun j sem hj => ⟨sem, hj, rfl⟩⟩
  · rw [AcquireNextImage_eq_of_idle image_index s sem0 hen hpath hn hsem hidle] at h
    simp only [Result.ok.injEq, true_and] at h
    rw [← h.1]
    refine ⟨rfl, rfl, ?_⟩
    intro j sem hj
    by_cases hjs : j = s.next_sync_index
    · subst hjs
      rw [hsem] at hj
      simp only [Option.some.injEq] at hj
      subst hj
      exact ⟨sem0.SetCpuState RHI_Sync_State.Submitted,
        Slots.get?_set_self _ _ (Slots.lt_of_get?_eq_some hsem), rfl⟩
    · exact ⟨sem, by
        show (s.m_acquire_semaphore.set s.next_sync_index _).get? j = _
        rw [Slots.get?_set_of_ne _ _ hjs]
        exact hj, rfl⟩

/-- C9: for a valid resolution, with `force` set or the extent different from the
stored one, on a swapchain with at least one buffer and a platform on which
`create` returns, `Resize` returns true after, in this order, the calls of
`destroy` on the old resources, the calls of `create`, and exactly one
acquire issued from a state whose two image indices are the sentinel.
Destroying retires every old resource: each live acquire semaphore is
destroyed, each held image view is enqueued for deletion, the queues are
waited for, the old swapchain and surface are destroyed, nothing is created
meanwhile, and the handles, views and semaphore slots are nulled. Creating
makes a surface for the window, a swapchain with the clamped new extent, a
view per image and a semaphore per buffer, retires nothing, and stores them.
On return `m_image_index_previous` is the sentinel, `m_image_index` is the
index the acquire returned, and the acquire semaphore at `m_sync_index` is
`Submitted`. -/
theorem Resize_recreates (device : RHI_Device) (driver : Driver) (image_index : Nat)
    (width height : Nat) (force : Bool) (s : RHI_SwapChain)
    (hvalid : device.IsValidResolution width height = true)
    (hneeded : force = true ∨ ¬ (s.m_width = width ∧ s.m_height = height))
    (hn : 1 ≤ s.m_buffer_count)
    (hdrv : driver.cooperates s) :
    ∃ sd destroyed sc created s' acquire surface swap_chain,
      destroy { s with m_present_enabled := true, m_width := width, m_height := height } =
        .ok () sd destroyed ∧
      create driver sd = .ok () sc created ∧
      AcquireNextImage (some image_index)
        { sc with m_image_index := uint32_max, m_image_index_previous := uint32_max } =
        .ok () s' [acquire] ∧
      Resize device driver (some image_index) width height force s =
        .ok true s' (destroyed ++ created ++ [acquire]) ∧
      acquire.is_acquire = true ∧ (∀ call ∈ destroyed ++ created, call.is_acquire = false) ∧
      s'.m_image_index_previous = uint32_max ∧ s'.m_image_index = image_index ∧
      (∃ sem, s'.m_acquire_semaphore.get? s'.m_sync_index = some (some sem) ∧
        sem.m_cpu_state = RHI_Sync_State.Submitted) ∧
      Call.QueueWaitAll ∈ destroyed ∧
      (∀ sem, some sem ∈ s.m_acquire_semaphore.toList → sem.m_resource ≠ 0 →
        Call.vkDestroySemaphore sem.m_resource ∈ destroyed) ∧
      (∀ image_view ∈ s.m_rhi_backbuffer_srv.toList, image_view ≠ 0 →
        Call.AddToDeletionQueue_texture_view image_view ∈ destroyed) ∧
      (s.m_rhi_resource ≠ 0 → Call.vkDestroySwapchainKHR s.m_rhi_resource ∈ destroyed) ∧
      (s.m_surface ≠ 0 → Call.vkDestroySurfaceKHR s.m_surface ∈ destroyed) ∧
      (∀ call ∈ destroyed, call.creates = false) ∧
      sd.m_rhi_resource = 0 ∧ sd.m_surface = 0 ∧ sd.m_rhi_backbuffer_srv = Slots.fill 0 ∧
      sd.m_acquire_semaphore = Slots.fill none ∧
      driver.created_surface = some surface ∧ driver.created_swapchain = some swap_chain ∧
      (∀ call ∈ created, call.retires = false) ∧
      Call.SDL_Vulkan_CreateSurface s.m_sdl_window ∈ created ∧
      Call.vkCreateSwapchainKHR surface s.m_buffer_count (driver.vulkan_format s'.m_format)
        (get_color_space s.IsHdr) s'.m_width s'.m_height
        (get_present_mode driver.present_bits driver.surface_present_modes s.m_flags) ∈
        created ∧
      Call.vkCreateSemaphore false ∈ created ∧
      s'.m_width = Clamp width driver.surface_capabilities.minImageExtent_width
        driver.surface_capabilities.maxImageExtent_width ∧
      s'.m_height = Clamp height driver.surface_capabilities.minImageExtent_height
        driver.surface_capabilities.maxImageExtent_height ∧
      s'.m_surface = surface ∧ s'.m_rhi_resource = swap_chain ∧
      (∀ k image, driver.swapchain_images.get? k = some image →
        Call.image_view_create image (driver.vulkan_format s'.m_format) ∈ created ∧
        s'.m_rhi_backbuffer_resource.get? k = some image ∧
        s'.m_rhi_backbuffer_srv.get? k = some (driver.created_image_view image)) ∧
      (∀ j, j < s.m_buffer_count →
        ∃ sem, s'.m_acquire_semaphore.get? j = some (some sem) ∧
          driver.created_semaphore j = some sem.m_resource) := by
  obtain ⟨sd, destroyed, sc, created, s', acquire, hd, hc, ha, hres, hacq, hno, hprev, hidx, _,
    _, _, hsub, _⟩ :=
    Resize_recreating_path device driver image_index width height force s hvalid hneeded hn hdrv
  obtain ⟨S, hS⟩ : ∃ S : RHI_SwapChain,
      S = { s with m_present_enabled := true, m_width := width, m_height := height } :=
    ⟨_, rfl⟩
  have hd0 := hd
  rw [← hS] at hd
  have hSsem : S.m_acquire_semaphore = s.m_acquire_semaphore := by rw [hS]
  have hSsrv : S.m_rhi_backbuffer_srv = s.m_rhi_backbuffer_srv := by rw [hS]
  have hSres : S.m_rhi_resource = s.m_rhi_resource := by rw [hS]
  have hSsurf : S.m_surface = s.m_surface := by rw [hS]
  have hdcalls : destroyed = (destroy S).calls := by rw [hd]; rfl
  have hdc := destroy_calls S
  rw [← hdcalls, hSsem, hSsrv, hSres, hSsurf] at hdc
  obtain ⟨calls', hd', _⟩ := destroy_eq S
  rw [hd'] at hd
  simp only [Result.ok.injEq, true_and] at hd
  have hsd_w : sd.m_width = width := by rw [← hd.1, hS]
  have hsd_h : sd.m_height = height := by rw [← hd.1, hS]
  have hsd_f : sd.m_format = s.m_format := by rw [← hd.1, hS]
  have hsd_hdr : sd.IsHdr = s.IsHdr := by unfold IsHdr; rw [hsd_f]
  have hsd_win : sd.m_sdl_window = s.m_sdl_window := by rw [← hd.1, hS]
  have hsd_n : sd.m_buffer_count = s.m_buffer_count := by rw [← hd.1, hS]
  have hsd_fl : sd.m_flags = s.m_flags := by rw [← hd.1, hS]
  have hsd_sem : sd.m_acquire_semaphore = Slots.fill none := by rw [← hd.1]
  have hcoop : driver.cooperates sd :=
    driver.cooperates_congr s sd hsd_win hsd_f hsd_n hdrv
  obtain ⟨sc1, created1, swap_chain1, formats, hc1, _, _, hw, hh, _⟩ :=
    create_fields driver sd hcoop
  obtain ⟨sc2, created2, surface, swap_chain, hc2, hsurface, hswap, hsurf2, hres2, hstored,
    hsems, hcall1, hcall2, hcall3⟩ := create_result driver sd hcoop
  rw [hc] at hc1 hc2
  simp only [Result.ok.injEq, true_and] at hc1 hc2
  obtain ⟨hsc1, _⟩ := hc1
  obtain ⟨hsc2, hcr2⟩ := hc2
  subst hsc1 hsc2 hcr2
  obtain ⟨hw', hh', hf', hr', _, hsrv', _, _, _⟩ := AcquireNextImage_ok_frame _ _ _ _ ha
  obtain ⟨hsurf', hres', hkeep⟩ := AcquireNextImage_ok_handles _ _ _ _ ha
  have hretire := create_calls_not_retiring driver sd hsd_sem
  rw [hc] at hretire
  refine ⟨sd, destroyed, sc, created, s', acquire, surface, swap_chain, hd0, hc, ha, hres, hacq,
    hno, hprev, hidx, hsub, ?_, ?_, ?_, ?_, ?_, ?_, by rw [← hd.1], by rw [← hd.1], by rw [← hd.1],
    hsd_sem, hsurface, hswap, hretire, ?_, ?_, ?_, ?_, ?_, ?_, ?_, ?_, ?_⟩
  · rw [hdc]; simp
  · intro sem hmem hlive
    rw [hdc]
    exact List.mem_append_left _ (release_semaphores_destroys _ sem hmem hlive)
  · intro image_view hmem hne
    rw [hdc]
    exact List.mem_append_right _ (List.mem_append_left _
      (enqueue_image_views_enqueues _ image_view hmem hne))
  · intro hne
    rw [hdc, if_pos hne]
    simp
  · intro hne
    rw [hdc, if_pos hne]
    simp
  · have := destroy_calls_not_creating S
    rw [← hdcalls] at this
    exact this
  · rw [← hsd_win]; exact hcall1
  · have h1 : s'.m_format = sc.m_format := hf'
    have h2 : s'.m_width = sc.m_width := hw'
    have h3 : s'.m_height = sc.m_height := hh'
    rw [h1, h2, h3, ← hsd_n, ← hsd_hdr, ← hsd_fl]
    exact hcall2
  · exact hcall3 (by rw [hsd_n]; exact hn)
  · rw [hw', hw, hsd_w]
  · rw [hh', hh, hsd_h]
  · rw [hsurf']; exact hsurf2
  · rw [hr']; exact hres2
  · intro k image hk
    obtain ⟨h1, h2, h3⟩ := hstored k image hk
    have hfmt : s'.m_format = sc.m_format := hf'
    rw [hfmt, hres', hsrv']
    exact ⟨h3, h1, h2⟩
  · intro j hj
    obtain ⟨sem, hsem, _, hhandle⟩ := hsems j (by rw [hsd_n]; exact hj)
    obtain ⟨sem', hsem', hsame⟩ := hkeep j sem hsem
    exact ⟨sem', hsem', by rw [hsame]; exact hhandle⟩

/-- Witness for C9: the triple-buffered example resized from 800x600 to 1024x768.
The old swapchain 3 and surface 2 are destroyed, the three old views enqueued,
and the new swapchain 60 on surface 50 is stored. -/
theorem Resize_recreates_witness :
    ∃ s' destroyed created acquire,
      Resize example_device example_driver (some 0) 1024 768 false example_triple_buffered =
        .ok true s' (destroyed ++ created ++ [acquire]) ∧
      s'.m_image_index_previous = uint32_max ∧ s'.m_image_index = 0 ∧
      Call.vkDestroySwapchainKHR 3 ∈ destroyed ∧ Call.vkDestroySurfaceKHR 2 ∈ destroyed ∧
      Call.AddToDeletionQueue_texture_view 21 ∈ destroyed ∧
      Call.vkDestroySemaphore 31 ∈ destroyed ∧
      Call.SDL_Vulkan_CreateSurface 1 ∈ created ∧
      s'.m_surface = 50 ∧ s'.m_rhi_resource = 60 ∧
      s'.m_rhi_backbuffer_srv.get? 1 = some 91 :=
  have ⟨_, destroyed, _, created, s', acquire, surface, swap_chain, _, _, _, h4, _, _, h7, h8, _,
    _, h11, h12, h13, h14, _, _, _, _, _, h20, h21, _, h23, _, _, _, _, h28, h29, h30, _⟩ :=
    Resize_recreates example_device example_driver 0 1024 768 false example_triple_buffered
      (by decide) (Or.inr (by decide)) (by decide) example_driver_cooperates
  ⟨s', destroyed, created, acquire, h4, h7, h8, h13 (by decide), h14 (by decide),
    h12 21 (by decide) (by decide),
    h11 (example_semaphore 31 RHI_Sync_State.Idle) (by decide) (by decide), h23,
    h28.trans (Option.some.inj h20.symm), h29.trans (Option.some.inj h21.symm),
    (h30 1 71 rfl).2.2⟩

/-! ## Every reachable swapchain waits before it retires -/

theorem Slots.mem_toList_iff {α : Type} (a : Slots α) (x : α) :
    x ∈ a.toList ↔ ∃ j, a.get? j = some x := by
  constructor
  · intro h
    simp only [Slots.toList, List.mem_cons, List.mem_singleton, List.not_mem_nil, or_false] at h
    rcases h with h | h | h
    · exact ⟨0, by rw [h]; rfl⟩
    · exact ⟨1, by rw [h]; rfl⟩
    · exact ⟨2, by rw [h]; rfl⟩
  · rintro ⟨j, hj⟩
    match j, hj with
    | 0, hj => simp only [Slots.get?, Option.some.injEq] at hj; simp [Slots.toList, hj]
    | 1, hj => simp only [Slots.get?, Option.some.injEq] at hj; simp [Slots.toList, hj]
    | 2, hj => simp only [Slots.get?, Option.some.injEq] at hj; simp [Slots.toList, hj]
    | _ + 3, hj => simp [Slots.get?] at hj

/-- The condition under which `destroy` waits before it enqueues depends on the
acquire semaphores and the image views only. -/
theorem waits_condition_congr (s t : RHI_SwapChain)
    (hsems : t.m_acquire_semaphore = s.m_acquire_semaphore)
    (hviews : t.m_rhi_backbuffer_srv = s.m_rhi_backbuffer_srv)
    (h : holds_live_semaphore s ∨ ¬ holds_image_view s) :
    holds_live_semaphore t ∨ ¬ holds_image_view t := by
  unfold holds_live_semaphore holds_image_view at h ⊢
  rw [hsems, hviews]
  exact h

/-- A live acquire semaphore stays one when every slot keeps its native handle. -/
theorem holds_live_semaphore_of_handles (s t : RHI_SwapChain)
    (hkeep : ∀ j sem, s.m_acquire_semaphore.get? j = some (some sem) →
      ∃ sem', t.m_acquire_semaphore.get? j = some (some sem') ∧
        sem'.m_resource = sem.m_resource)
    (h : holds_live_semaphore s) : holds_live_semaphore t := by
  obtain ⟨sem, hmem, hlive⟩ := h
  obtain ⟨j, hj⟩ := (Slots.mem_toList_iff _ _).1 hmem
  obtain ⟨sem', hj', hsame⟩ := hkeep j sem hj
  exact ⟨sem', (Slots.mem_toList_iff _ _).2 ⟨j, hj'⟩, by rw [hsame]; exact hlive⟩

/-- A call of `AcquireNextImage` that returns keeps the condition. -/
theorem AcquireNextImage_keeps_condition (acquired : Option Nat) (s s' : RHI_SwapChain)
    (calls : List Call) (h : AcquireNextImage acquired s = .ok () s' calls)
    (hinv : holds_live_semaphore s ∨ ¬ holds_image_view s) :
    holds_live_semaphore s' ∨ ¬ holds_image_view s' := by
  obtain ⟨_, _, hkeep⟩ := AcquireNextImage_ok_handles acquired s s' calls h
  obtain ⟨_, _, _, _, _, hviews, _⟩ := AcquireNextImage_ok_frame acquired s s' calls h
  rcases hinv with hlive | hnone
  · exact Or.inl (holds_live_semaphore_of_handles s s' hkeep hlive)
  · right
    unfold holds_image_view at hnone ⊢
    rw [hviews]
    exact hnone

/-- An `AcquireNextImage` that returns ran on a swapchain with at least one buffer. -/
theorem AcquireNextImage_ok_buffer_count (acquired : Option Nat) (s s' : RHI_SwapChain)
    (calls : List Call) (h : AcquireNextImage acquired s = .ok () s' calls) :
    1 ≤ s.m_buffer_count := by
  rcases AcquireNextImage_ok_cases acquired s s' calls h with
    ⟨h1, _⟩ | ⟨_, _, _, hn, _⟩
  · omega
  · omega

/-- When `create` and the acquire that follows it return, on a conformant driver,
the swapchain holds a live acquire semaphore. -/
theorem create_then_acquire_live (driver : Driver) (acquired : Option Nat)
    (s sc t s' : RHI_SwapChain) (created calls : List Call)
    (hconf : driver.conformant)
    (hc : create driver s = .ok () sc created)
    (hsems : t.m_acquire_semaphore = sc.m_acquire_semaphore)
    (hcount : t.m_buffer_count = sc.m_buffer_count)
    (ha : AcquireNextImage acquired t = .ok () s' calls) :
    holds_live_semaphore s' := by
  have hcoop := create_ok_cooperates driver s sc created hc
  obtain ⟨sc1, created1, _, _, hc1, _, _, _, _, _, _, hb, _⟩ := create_fields driver s hcoop
  obtain ⟨sc2, created2, _, _, hc2, _, _, _, _, _, hslots, _⟩ := create_result driver s hcoop
  rw [hc] at hc1 hc2
  simp only [Result.ok.injEq, true_and] at hc1 hc2
  obtain ⟨hsc1, _⟩ := hc1
  obtain ⟨hsc2, _⟩ := hc2
  subst hsc1 hsc2
  have hn := AcquireNextImage_ok_buffer_count acquired t s' calls ha
  rw [hcount, hb] at hn
  obtain ⟨sem, hsem, _, hhandle⟩ := hslots 0 (by omega)
  have hlive : holds_live_semaphore t :=
    ⟨sem, (Slots.mem_toList_iff _ _).2 ⟨0, by rw [hsems]; exact hsem⟩, hconf 0 _ hhandle⟩
  obtain ⟨_, _, hkeep⟩ := AcquireNextImage_ok_handles acquired t s' calls ha
  exact holds_live_semaphore_of_handles t s' hkeep hlive

/-- A `Resize` that returns, on a conformant driver, keeps the condition. -/
theorem Resize_keeps_condition (device : RHI_Device) (driver : Driver) (acquired : Option Nat)
    (width height : Nat) (force : Bool) (s s' : RHI_SwapChain) (resized : Bool)
    (calls : List Call) (hconf : driver.conformant)
    (h : Resize device driver acquired width height force s = .ok resized s' calls)
    (hinv : holds_live_semaphore s ∨ ¬ holds_image_view s) :
    holds_live_semaphore s' ∨ ¬ holds_image_view s' := by
  unfold Resize at h
  simp only [] at h
  by_cases hvalid : device.IsValidResolution width height = false
  · rw [if_pos hvalid] at h
    simp only [Result.ok.injEq] at h
    rw [← h.2.1]
    exact waits_condition_congr s _ rfl rfl hinv
  rw [if_neg hvalid] at h
  by_cases hsame : force = false ∧ s.m_width = width ∧ s.m_height = height
  · rw [if_pos hsame] at h
    simp only [Result.ok.injEq] at h
    rw [← h.2.1]
    exact waits_condition_congr s _ rfl rfl hinv
  rw [if_neg hsame] at h
  obtain ⟨_, sd, c1, c2, _, h2, _⟩ := Result.andThen_ok_inv _ _ _ _ _ h
  obtain ⟨_, sc, c3, c4, hc, h3, _⟩ := Result.andThen_ok_inv _ _ _ _ _ h2
  obtain ⟨_, s8, c5, c6, ha, h4, _⟩ := Result.andThen_ok_inv _ _ _ _ _ h3
  simp only [Result.ok.injEq] at h4
  rw [← h4.2.1]
  refine Or.inl (create_then_acquire_live driver acquired sd sc _ s8 c3 c5 hconf hc ?_ ?_ ha) <;> rfl

/-- A construction with a valid resolution that returns, on a conformant driver,
leaves a swapchain that holds a live acquire semaphore. -/
theorem construct_live (device : RHI_Device) (driver : Driver) (acquired : Option Nat)
    (sdl_window width height : Nat) (format : RHI_Format) (buffer_count flags : Nat)
    (name : String) (fresh s : RHI_SwapChain) (calls : List Call)
    (hconf : driver.conformant) (hvalid : device.IsValidResolution width height = true)
    (h : construct device driver acquired sdl_window width height format buffer_count flags
      name fresh = .ok () s calls) :
    holds_live_semaphore s := by
  unfold construct at h
  simp only [hvalid, Bool.true_eq_false, if_false] at h
  obtain ⟨c', h1, _⟩ := Result.after_ok_inv _ _ _ _ _ h
  obtain ⟨_, sc, c3, c4, hc, ha, _⟩ := Result.andThen_ok_inv _ _ _ _ _ h1
  refine create_then_acquire_live driver acquired _ sc _ s c3 c4 hconf hc ?_ ?_ ha <;> rfl

theorem after_QueuePresent_handles (device : RHI_Device) (s : RHI_SwapChain) :
    (after_QueuePresent device s).m_rhi_backbuffer_srv = s.m_rhi_backbuffer_srv ∧
    ∀ j sem, s.m_acquire_semaphore.get? j = some (some sem) →
      ∃ sem', (after_QueuePresent device s).m_acquire_semaphore.get? j = some (some sem') ∧
        sem'.m_resource = sem.m_resource := by
  unfold after_QueuePresent
  split
  · rename_i sem0 hsem0
    refine ⟨rfl, ?_⟩
    intro j sem hj
    by_cases hjs : j = s.m_sync_index
    · subst hjs
      rw [hsem0] at hj
      simp only [Option.some.injEq] at hj
      subst hj
      exact ⟨_, Slots.get?_set_self _ _ (Slots.lt_of_get?_eq_some hsem0), rfl⟩
    · exact ⟨sem, by
        show (s.m_acquire_semaphore.set s.m_sync_index _).get? j = _
        rw [Slots.get?_set_of_ne _ _ hjs]
        exact hj, rfl⟩
  · exact ⟨rfl, fun j sem hj => ⟨sem, hj, rfl⟩⟩

/-- A `Present` that returns keeps the condition. -/
theorem Present_keeps_condition (device : RHI_Device) (cmd_pools : List RHI_CommandPool)
    (acquired : Option Nat) (s s' : RHI_SwapChain) (calls : List Call)
    (h : Present device cmd_pools acquired s = .ok () s' calls)
    (hinv : holds_live_semaphore s ∨ ¬ holds_image_view s) :
    holds_live_semaphore s' ∨ ¬ holds_image_view s' := by
  obtain ⟨hpre, a, ha⟩ := Present_ok_inv device cmd_pools acquired s s' calls h
  rw [Present_eq_of_preconditions device cmd_pools acquired s a hpre ha] at h
  obtain ⟨c', hacq, _⟩ := Result.after_ok_inv _ _ _ _ _ h
  refine AcquireNextImage_keeps_condition acquired _ s' c' hacq ?_
  obtain ⟨hviews, hkeep⟩ := after_QueuePresent_handles device
    { s with m_wait_semaphores := specified_wait_semaphores s a cmd_pools }
  rcases hinv with hlive | hnone
  · exact Or.inl (holds_live_semaphore_of_handles s _ hkeep hlive)
  · right
    unfold holds_image_view at hnone ⊢
    rw [hviews]
    exact hnone

/-- A `SetLayout` that returns writes the layouts only. -/
theorem SetLayout_keeps_condition (layout : RHI_Image_Layout) (cmd_list : Nat)
    (s s' : RHI_SwapChain) (calls : List Call)
    (h : SetLayout layout cmd_list s = .ok () s' calls)
    (hinv : holds_live_semaphore s ∨ ¬ holds_image_view s) :
    holds_live_semaphore s' ∨ ¬ holds_image_view s' := by
  unfold SetLayout at h
  cases hl : s.m_layouts.get? s.m_image_index with
  | none => simp [hl] at h
  | some current =>
    simp only [hl] at h
    by_cases hc : current = layout
    · rw [if_pos hc] at h
      simp only [Result.ok.injEq, true_and] at h
      rw [← h.1]
      exact hinv
    · rw [if_neg hc] at h
      cases hr : s.m_rhi_backbuffer_resource.get? s.m_image_index with
      | none => simp [hr] at h
      | some image =>
        simp only [hr, Result.ok.injEq, true_and] at h
        rw [← h.1]
        exact waits_condition_congr s _ rfl rfl hinv

/-- A `SetHdr` that returns, on a conformant driver, keeps the condition. -/
theorem SetHdr_keeps_condition (display_hdr : Bool) (device : RHI_Device) (driver : Driver)
    (acquired : Option Nat) (enabled : Bool) (s s' : RHI_SwapChain) (calls : List Call)
    (hconf : driver.conformant)
    (h : SetHdr display_hdr device driver acquired enabled s = .ok () s' calls)
    (hinv : holds_live_semaphore s ∨ ¬ holds_image_view s) :
    holds_live_semaphore s' ∨ ¬ holds_image_view s' := by
  unfold SetHdr at h
  by_cases hpre : enabled = true ∧ display_hdr = false
  · simp [if_pos hpre] at h
  rw [if_neg hpre] at h
  simp only [] at h
  by_cases hfmt : (if enabled = true then RHI_Format.RHI_Format_R10G10B10A2_Unorm
      else RHI_Format.RHI_Format_R8G8B8A8_Unorm) ≠ s.m_format
  · rw [if_pos hfmt] at h
    obtain ⟨resized, s2, c1, c2, hres, h2, _⟩ := Result.andThen_ok_inv _ _ _ _ _ h
    simp only [Result.ok.injEq, true_and] at h2
    rw [← h2.1]
    exact Resize_keeps_condition device driver acquired _ _ true _ s2 resized c1 hconf hres
      (waits_condition_congr s _ rfl rfl hinv)
  · rw [if_neg hfmt] at h
    simp only [Result.ok.injEq, true_and] at h
    rw [← h.1]
    exact hinv

/-- Every reachable swapchain holds a live acquire semaphore, or no image view. -/
theorem reachable_condition (s : RHI_SwapChain) (h : reachable s) :
    holds_live_semaphore s ∨ ¬ holds_image_view s := by
  induction h with
  | construct device driver acquired sdl_window width height format buffer_count flags name
      fresh s calls hconf hvalid hc =>
    exact Or.inl (construct_live device driver acquired sdl_window width height format
      buffer_count flags name fresh s calls hconf hvalid hc)
  | construct_invalid device driver acquired sdl_window width height format buffer_count flags
      name fresh s calls hinvalid hnone hc =>
    simp only [construct, hinvalid, if_true, Result.ok.injEq, true_and] at hc
    rw [← hc.1]
    exact Or.inr hnone
  | Resize device driver acquired width height force s s' resized calls _ hconf hr ih =>
    exact Resize_keeps_condition device driver acquired width height force s s' resized calls
      hconf hr ih
  | SetHdr display_hdr device driver acquired enabled s s' calls _ hconf hr ih =>
    exact SetHdr_keeps_condition display_hdr device driver acquired enabled s s' calls hconf hr ih
  | AcquireNextImage acquired s s' calls _ hr ih =>
    exact AcquireNextImage_keeps_condition acquired s s' calls hr ih
  | Present device cmd_pools acquired s s' calls _ hr ih =>
    exact Present_keeps_condition device cmd_pools acquired s s' calls hr ih
  | SetLayout layout cmd_list s s' calls _ hr ih =>
    exact SetLayout_keeps_condition layout cmd_list s s' calls hr ih

/-- The function `destroy` retires every resource the swapchain holds. -/
theorem destroy_retires_resources (s : RHI_SwapChain) :
    retires_resources_of s (destroy s).calls := by
  rw [destroy_calls]
  refine ⟨?_, ?_, ?_, ?_⟩
  · intro sem hmem hlive
    exact List.mem_append_left _ (release_semaphores_destroys _ sem hmem hlive)
  · intro image_view hmem hne
    exact List.mem_append_right _
      (List.mem_append_left _ (enqueue_image_views_enqueues _ image_view hmem hne))
  · intro h
    simp [if_pos h]
  · intro h
    simp [if_pos h]

/-- The calls of `Resize`: none at all, or those of `destroy` on a swapchain that
holds the resources of the one it found, followed by more calls. -/
theorem Resize_calls_split (device : RHI_Device) (driver : Driver) (acquired : Option Nat)
    (width height : Nat) (force : Bool) (s : RHI_SwapChain) :
    (Resize device driver acquired width height force s).calls = [] ∨
    ∃ s3 tail, s3.m_acquire_semaphore = s.m_acquire_semaphore ∧
      s3.m_rhi_backbuffer_srv = s.m_rhi_backbuffer_srv ∧
      s3.m_rhi_resource = s.m_rhi_resource ∧ s3.m_surface = s.m_surface ∧
      (Resize device driver acquired width height force s).calls =
        (destroy s3).calls ++ tail := by
  unfold Resize
  simp only []
  by_cases hvalid : device.IsValidResolution width height = false
  · left
    rw [if_pos hvalid]
    rfl
  rw [if_neg hvalid]
  by_cases hsame : force = false ∧ s.m_width = width ∧ s.m_height = height
  · left
    rw [if_pos hsame]
    rfl
  rw [if_neg hsame]
  right
  generalize hs3 : RHI_SwapChain.mk _ _ _ _ _ _ _ _ _ _ _ _ _ _ _ _ _ _ _ = s3
  have hsems : s3.m_acquire_semaphore = s.m_acquire_semaphore := by rw [← hs3]
  have hviews : s3.m_rhi_backbuffer_srv = s.m_rhi_backbuffer_srv := by rw [← hs3]
  have hres : s3.m_rhi_resource = s.m_rhi_resource := by rw [← hs3]
  have hsurf : s3.m_surface = s.m_surface := by rw [← hs3]
  obtain ⟨tail, heq, _⟩ := Result.calls_andThen (destroy s3) fun _ s4 =>
    (create driver s4).andThen fun _ s5 =>
      (AcquireNextImage acquired
        { s5 with m_image_index := uint32_max, m_image_index_previous := uint32_max }).andThen
        fun _ s8 => Result.ok true s8 []
  exact ⟨s3, tail, hsems, hviews, hres, hsurf, heq⟩

/-- In a list that starts with calls none of which creates anything, whatever
comes before a creating call holds all of those first calls. -/
theorem prefix_before_creating (first tail pre post : List Call) (call : Call)
    (hfirst : ∀ c ∈ first, c.creates = false) (hcall : call.creates = true)
    (h : first ++ tail = pre ++ call :: post) : ∀ c ∈ first, c ∈ pre := by
  rcases List.append_eq_append_iff.1 h with ⟨mid, hpre, _⟩ | ⟨mid, hfirst_eq, htail⟩
  · intro c hc
    rw [hpre]
    exact List.mem_append_left _ hc
  · cases mid with
    | nil =>
      intro c hc
      rw [hfirst_eq, List.append_nil] at hc
      exact hc
    | cons m rest =>
      simp only [List.cons_append, List.cons.injEq] at htail
      have hmem : call ∈ first := by
        rw [hfirst_eq, ← htail.1]
        exact List.mem_append_right _ (List.mem_cons_self _ _)
      rw [hfirst call hmem] at hcall
      exact absurd hcall (by decide)

/-- In `Resize`, what comes before a creating call retires every resource the
swapchain held. -/
theorem Resize_retires_before_creating (device : RHI_Device) (driver : Driver)
    (acquired : Option Nat) (width height : Nat) (force : Bool) (s : RHI_SwapChain)
    (pre post : List Call) (call : Call)
    (h : (Resize device driver acquired width height force s).calls = pre ++ call :: post)
    (hcall : call.creates = true) : retires_resources_of s pre := by
  rcases Resize_calls_split device driver acquired width height force s with
    hnil | ⟨s3, tail, hsems, hviews, hres, hsurf, heq⟩
  · rw [hnil] at h
    exact absurd h (by simp)
  · rw [heq] at h
    have hsub := prefix_before_creating _ tail pre post call (destroy_calls_not_creating s3)
      hcall h
    obtain ⟨h1, h2, h3, h4⟩ := destroy_retires_resources s3
    rw [hsems] at h1
    rw [hviews] at h2
    rw [hres] at h3
    rw [hsurf] at h4
    exact ⟨fun sem hmem hlive => hsub _ (h1 sem hmem hlive),
      fun v hmem hne => hsub _ (h2 v hmem hne), fun hne => hsub _ (h3 hne),
      fun hne => hsub _ (h4 hne)⟩

/-- The example driver hands out non-null semaphore handles. -/
theorem example_driver_conformant : example_driver.conformant := by
  intro i handle h
  simp only [example_driver, Option.some.injEq] at h
  omega

/-- C21: on every swapchain a program can reach through the constructor, `Resize`,
`SetHdr`, `AcquireNextImage`, `Present` and `SetLayout` (the drivers handing out
non-null semaphore handles), and for every semaphore, no resource is retired
before the queues have been waited for: in the destructor and `Reset` of the
semaphore and in the destructor, `Resize` and `SetHdr` of the swapchain,
however the operation ends, each native destroy call (semaphore, swapchain,
surface) and each enqueue of an image view on the deletion queue has a
`QueueWaitAll` call before it within the operation. In `Resize` and `SetHdr`
nothing is retired after the first resource is created, and in `Resize` the
calls that come before a creating call hold the retirement of every old
resource: each live acquire semaphore, each image view, the swapchain and the
surface. -/
theorem retirement_order (device : RHI_Device) (driver : Driver) (acquired created : Option Nat)
    (width height : Nat) (force display_hdr enabled : Bool) (sem : RHI_Semaphore)
    (s : RHI_SwapChain) (hs : reachable s) :
    waits_before Call.retires sem.destruct ∧
    waits_before Call.retires (sem.Reset created).calls ∧
    waits_before Call.retires (destruct s).calls ∧
    waits_before Call.retires (Resize device driver acquired width height force s).calls ∧
    waits_before Call.retires (SetHdr display_hdr device driver acquired enabled s).calls ∧
    retired_before_created (Resize device driver acquired width height force s).calls ∧
    retired_before_created (SetHdr display_hdr device driver acquired enabled s).calls ∧
    ∀ pre call post,
      (Resize device driver acquired width height force s).calls = pre ++ call :: post →
      call.creates = true → retires_resources_of s pre := by
  have hcond := reachable_condition s hs
  have hsem := RHI_Semaphore.waits_before_retiring created sem
  have hresize := Resize_calls_order device driver acquired width height force s
  have hhdr : waits_before Call.retires
        (SetHdr display_hdr device driver acquired enabled s).calls ∧
      retired_before_created (SetHdr display_hdr device driver acquired enabled s).calls := by
    rcases SetHdr_calls_cases display_hdr device driver acquired enabled s with
      hnil | ⟨s1, w, h, hsems, hviews, heq⟩
    · rw [hnil]
      exact ⟨waits_before_of_none _ _ (fun _ h => absurd h (List.not_mem_nil _)),
        fun pre call post h => absurd h (by simp)⟩
    · rw [heq]
      obtain ⟨_, h2, h3⟩ := Resize_calls_order device driver acquired w h true s1
      exact ⟨h2 (waits_condition_congr s s1 hsems hviews hcond), h3⟩
  exact ⟨hsem.1, hsem.2, (destroy_waits_before_retiring_iff s).2 hcond, hresize.2.1 hcond,
    hhdr.1, hresize.2.2, hhdr.2,
    fun pre call post h hcall =>
      Resize_retires_before_creating device driver acquired width height force s pre post call
        h hcall⟩

/-- Witness for C21: the example swapchain as its constructor leaves it is
reachable; in its destructor and in its resize to 1024x768 every retirement
follows a wait for the queues. -/
theorem retirement_order_witness :
    reachable example_constructed ∧
    waits_before Call.retires (destruct example_constructed).calls ∧
    waits_before Call.retires
      (Resize example_device example_driver (some 0) 1024 768 false example_constructed).calls :=
  have hreach : reachable example_constructed :=
    reachable.construct example_device example_driver (some 0) 1 800 600
      RHI_Format.RHI_Format_R8G8B8A8_Unorm 3 0 "main" example_fresh example_constructed
      (construct example_device example_driver (some 0) 1 800 600
        RHI_Format.RHI_Format_R8G8B8A8_Unorm 3 0 "main" example_fresh).calls
      example_driver_conformant
      (by decide) (by decide)
  have h := retirement_order example_device example_driver (some 0) none 1024 768 false false
    false (example_semaphore 30 RHI_Sync_State.Idle) example_constructed hreach
  ⟨hreach, h.2.2.1, h.2.2.2.1⟩

open RHI_VertexBuffer

/-! ## The vertex buffer -/

/-- The mappable path of `_create`. -/
theorem RHI_VertexBuffer._create_eq_of_null (device : BufferDevice) (b : RHI_VertexBuffer) :
    _create device 0 b =
      .ok () { b with m_rhi_resource := device.created_buffer, m_is_mappable := true,
                      m_mapped_data := device.mapped_data device.created_buffer }
        (retire_backing_buffer b ++
          [Call.CreateBuffer b.m_object_size_gpu device.VK_BUFFER_USAGE_VERTEX_BUFFER_BIT
            device.VK_MEMORY_PROPERTY_HOST_VISIBLE_BIT 0,
           Call.GetMappedDataFromBuffer device.created_buffer,
           Call.set_object_name device.created_buffer b.m_name]) := by
  by_cases h : b.m_rhi_resource = 0
  · simp [_create, retire_backing_buffer, h]
  · simp [_create, retire_backing_buffer, h]

/-- The staged path of `_create`, when `ImmediateBegin` hands out a command list. -/
theorem RHI_VertexBuffer._create_eq_of_data (device : BufferDevice) (vertices : Nat)
    (b : RHI_VertexBuffer) (hdata : vertices ≠ 0) (hcmd : device.immediate_cmd_list ≠ 0) :
    _create device vertices b =
      .ok () { b with m_rhi_resource := device.created_buffer, m_is_mappable := false }
        (retire_backing_buffer b ++
          [Call.CreateBuffer b.m_object_size_gpu device.VK_BUFFER_USAGE_TRANSFER_SRC_BIT
            (device.VK_MEMORY_PROPERTY_HOST_VISIBLE_BIT |||
              device.VK_MEMORY_PROPERTY_HOST_COHERENT_BIT) vertices,
           Call.CreateBuffer b.m_object_size_gpu
            (device.VK_BUFFER_USAGE_TRANSFER_DST_BIT ||| device.VK_BUFFER_USAGE_VERTEX_BUFFER_BIT)
            device.VK_MEMORY_PROPERTY_DEVICE_LOCAL_BIT 0,
           Call.ImmediateBegin_Copy,
           Call.vkCmdCopyBuffer device.cmd_list_resource device.created_staging
            device.created_buffer b.m_object_size_gpu,
           Call.ImmediateSubmit device.immediate_cmd_list,
           Call.DestroyBuffer device.created_staging,
           Call.set_object_name device.created_buffer b.m_name]) := by
  by_cases h : b.m_rhi_resource = 0
  · simp [_create, retire_backing_buffer, h, hdata, hcmd]
  · simp [_create, retire_backing_buffer, h, hdata, hcmd]

/-- C19, counterexample: a vertex buffer that was created without source data
(mapped at 1150) and is then respecified with source data becomes
non-mappable, but `Map` does not return a null pointer: it returns the stale
pointer 1150 of the buffer that was retired. -/
theorem Map_after_respecification_is_stale :
    example_mapped_vertex_buffer.m_is_mappable = true ∧
    (_create example_buffer_device 5000 example_mapped_vertex_buffer).returned = true ∧
    (_create example_buffer_device 5000 example_mapped_vertex_buffer).state.m_is_mappable
      = false ∧
    Map (_create example_buffer_device 5000 example_mapped_vertex_buffer).state =
      .ok 1150 (_create example_buffer_device 5000 example_mapped_vertex_buffer).state [] ∧
    (1150 : Nat) ≠ 0 := by
  decide

/-- C19, amended: after `_create` with non-null source data the buffer is
non-mappable and `Map` returns whatever `m_mapped_data` held before the call,
which `_create` does not touch on this path: null on an object that was never
mapped, the stale pointer of the retired buffer after a respecification.
After `_create` with null source data the buffer is mappable and `Map` returns
the pointer the device returned for the new buffer. `Map` and `Unmap` change
no field and make no call, so every later `Map` returns the same pointer. -/
theorem create_then_Map (device : BufferDevice) (vertices : Nat) (b : RHI_VertexBuffer) :
    (vertices ≠ 0 → device.immediate_cmd_list ≠ 0 →
      ∃ b' calls, _create device vertices b = .ok () b' calls ∧
        b'.m_is_mappable = false ∧ Map b' = .ok b.m_mapped_data b' [] ∧
        (b.m_mapped_data = 0 → Map b' = .ok 0 b' [])) ∧
    (vertices = 0 →
      ∃ b' calls, _create device vertices b = .ok () b' calls ∧
        b'.m_is_mappable = true ∧ b'.m_rhi_resource = device.created_buffer ∧
        Map b' = .ok (device.mapped_data device.created_buffer) b' []) ∧
    (∀ b' : RHI_VertexBuffer, Map b' = .ok b'.m_mapped_data b' [] ∧ Unmap b' = .ok () b' []) := by
  refine ⟨fun hdata hcmd => ?_, fun hnull => ?_, fun b' => ⟨rfl, rfl⟩⟩
  · refine ⟨_, _, RHI_VertexBuffer._create_eq_of_data device vertices b hdata hcmd, rfl, rfl, ?_⟩
    intro h
    simp only [Map, h]
  · subst hnull
    exact ⟨_, _, RHI_VertexBuffer._create_eq_of_null device b, rfl, rfl, rfl⟩

/-- Witness for C19 (amended): the never-created example buffer, created from
source data: `Map` returns null. -/
theorem create_then_Map_witness :
    ∃ b' calls, _create example_buffer_device 5000 example_vertex_buffer = .ok () b' calls ∧
      b'.m_is_mappable = false ∧ Map b' = .ok 0 b' [] :=
  have ⟨b', calls, h1, h2, _, h4⟩ :=
    (create_then_Map example_buffer_device 5000 example_vertex_buffer).1 (by decide) (by decide)
  ⟨b', calls, h1, h2, h4 rfl⟩

/-- C20: the backing buffer is only ever handed to the deletion queue. `_create`
first enqueues the handle it finds, once, when it is non-null, and nothing
when it is null, and only then creates buffers; on the staged path the one
`DestroyBuffer` call is for the staging buffer, created once, and comes after
the copy was recorded and submitted. The destructor enqueues the handle
exactly when it is non-null and then nulls it. -/
theorem vertex_buffer_deferred_deletion (device : BufferDevice) (vertices : Nat)
    (b : RHI_VertexBuffer) :
    (vertices = 0 →
      (_create device vertices b).calls =
        (if b.m_rhi_resource ≠ 0 then [Call.AddToDeletionQueue_buffer b.m_rhi_resource] else []) ++
          [Call.CreateBuffer b.m_object_size_gpu device.VK_BUFFER_USAGE_VERTEX_BUFFER_BIT
            device.VK_MEMORY_PROPERTY_HOST_VISIBLE_BIT 0,
           Call.GetMappedDataFromBuffer device.created_buffer,
           Call.set_object_name device.created_buffer b.m_name]) ∧
    (vertices ≠ 0 → device.immediate_cmd_list ≠ 0 →
      (_create device vertices b).calls =
        (if b.m_rhi_resource ≠ 0 then [Call.AddToDeletionQueue_buffer b.m_rhi_resource] else []) ++
          [Call.CreateBuffer b.m_object_size_gpu device.VK_BUFFER_USAGE_TRANSFER_SRC_BIT
            (device.VK_MEMORY_PROPERTY_HOST_VISIBLE_BIT |||
              device.VK_MEMORY_PROPERTY_HOST_COHERENT_BIT) vertices,
           Call.CreateBuffer b.m_object_size_gpu
            (device.VK_BUFFER_USAGE_TRANSFER_DST_BIT ||| device.VK_BUFFER_USAGE_VERTEX_BUFFER_BIT)
            device.VK_MEMORY_PROPERTY_DEVICE_LOCAL_BIT 0,
           Call.ImmediateBegin_Copy,
           Call.vkCmdCopyBuffer device.cmd_list_resource device.created_staging
            device.created_buffer b.m_object_size_gpu,
           Call.ImmediateSubmit device.immediate_cmd_list,
           Call.DestroyBuffer device.created_staging,
           Call.set_object_name device.created_buffer b.m_name]) ∧
    (∀ buffer, Call.DestroyBuffer buffer ∈ (_create device vertices b).calls →
      buffer = device.created_staging ∧ vertices ≠ 0) ∧
    (b.m_rhi_resource ≠ 0 →
      destruct b = .ok () { b with m_rhi_resource := 0 }
        [Call.AddToDeletionQueue_buffer b.m_rhi_resource]) ∧
    (b.m_rhi_resource = 0 → destruct b = .ok () b []) := by
  refine ⟨fun hnull => ?_, fun hdata hcmd => ?_, ?_, fun h => ?_, fun h => ?_⟩
  · subst hnull
    rw [RHI_VertexBuffer._create_eq_of_null]
    rfl
  · rw [RHI_VertexBuffer._create_eq_of_data device vertices b hdata hcmd]
    rfl
  · intro buffer hmem
    by_cases hnull : vertices = 0
    · subst hnull
      rw [RHI_VertexBuffer._create_eq_of_null] at hmem
      unfold retire_backing_buffer at hmem
      split_ifs at hmem <;> simp [Result.calls] at hmem
    · by_cases hcmd : device.immediate_cmd_list = 0
      · exfalso
        by_cases h : b.m_rhi_resource = 0
        · simp [_create, h, hnull, hcmd, Result.calls] at hmem
        · simp [_create, h, hnull, hcmd, Result.calls] at hmem
      · rw [RHI_VertexBuffer._create_eq_of_data device vertices b hnull hcmd] at hmem
        unfold retire_backing_buffer at hmem
        refine ⟨?_, hnull⟩
        split_ifs at hmem <;> simpa [Result.calls] using hmem
  · simp [RHI_VertexBuffer.destruct, h]
  · simp [RHI_VertexBuffer.destruct, h]

/-- Witness for C20: the mapped example buffer, respecified from source data. -/
theorem vertex_buffer_deferred_deletion_witness :
    (_create example_buffer_device 5000 example_mapped_vertex_buffer).calls =
      [Call.AddToDeletionQueue_buffer 150, Call.CreateBuffer 96 1 6 5000,
       Call.CreateBuffer 96 130 1 0, Call.ImmediateBegin_Copy,
       Call.vkCmdCopyBuffer 81 201 200 96, Call.ImmediateSubmit 80, Call.DestroyBuffer 201,
       Call.set_object_name 200 "vertices"] :=
  (vertex_buffer_deferred_deletion example_buffer_device 5000 example_mapped_vertex_buffer).2.1
    (by decide) (by decide)

/-! ## Descriptors -/

/-- C25: `ComputeHash` depends only on type, slot, stage and array size: two
descriptors that agree on these four fields have equal hashes, whatever their
name, layout, mip, mip range, dynamic offset, range and data are; and the
result is the left fold of `rhi_hash_combine` over (type, slot, stage,
array size), in that order, starting from 0. -/
theorem ComputeHash_depends_on_four_fields (rhi_hash_combine : Nat → Nat → Nat)
    (type_value : RHI_Descriptor_Type → Nat) (a b : RHI_Descriptor)
    (htype : a.type = b.type) (hslot : a.slot = b.slot) (hstage : a.stage = b.stage)
    (harray : a.array_size = b.array_size) :
    a.ComputeHash rhi_hash_combine type_value = b.ComputeHash rhi_hash_combine type_value ∧
    a.ComputeHash rhi_hash_combine type_value =
      List.foldl rhi_hash_combine 0 [type_value a.type, a.slot, a.stage, a.array_size] := by
  refine ⟨?_, rfl⟩
  unfold RHI_Descriptor.ComputeHash
  rw [htype, hslot, hstage, harray]

/-- Witness for C25: the two example descriptors differ in name, layout, mip, mip
range, dynamic offset, range and data, and hash alike. -/
theorem ComputeHash_depends_on_four_fields_witness :
    example_descriptor ≠ example_descriptor_other ∧
    example_descriptor.ComputeHash example_hash_combine example_type_value =
      example_descriptor_other.ComputeHash example_hash_combine example_type_value :=
  ⟨by decide, (ComputeHash_depends_on_four_fields example_hash_combine example_type_value
    example_descriptor example_descriptor_other rfl rfl rfl rfl).1⟩

/-- C29: the copy constructor copies exactly type, layout, slot, stage, name, mip
and array size from the source and leaves the dynamic offset, the range, the mip
range and the data pointer at their defaults (0, 0, 0, null); for every
descriptor the copy has the same `ComputeHash`, `IsStorage` and `IsArray`
results as the source. -/
theorem construct_copy_spec (rhi_hash_combine : Nat → Nat → Nat)
    (type_value : RHI_Descriptor_Type → Nat) (d : RHI_Descriptor) :
    RHI_Descriptor.construct_copy d =
      { type := d.type, layout := d.layout, slot := d.slot, stage := d.stage, name := d.name,
        mip := d.mip, array_size := d.array_size,
        dynamic_offset := 0, range := 0, mip_range := 0, data := 0 } ∧
    (RHI_Descriptor.construct_copy d).ComputeHash rhi_hash_combine type_value =
      d.ComputeHash rhi_hash_combine type_value ∧
    (RHI_Descriptor.construct_copy d).IsStorage = d.IsStorage ∧
    (RHI_Descriptor.construct_copy d).IsArray = d.IsArray :=
  ⟨rfl, rfl, rfl, rfl⟩

/-! ## The editor's combo box -/

/-- The loop of `combo_box` returns when the indices it visits are indices of the
options: the flag it returns says whether an entry of the visited range was
clicked, and the selection is the last clicked entry of the range, or the
incoming one when none was clicked. -/
theorem combo_box_loop_ok (options : List String) (clicked : Nat → Bool) :
    ∀ (remaining i : Nat) (selection_made : Bool) (selection_index : Nat),
      i + remaining ≤ options.length →
      ∃ made final calls,
        combo_box_loop options clicked remaining i selection_made selection_index =
          .ok made final calls ∧
        (made = true ↔
          selection_made = true ∨ ∃ j, i ≤ j ∧ j < i + remaining ∧ clicked j = true) ∧
        ((∀ j, i ≤ j → j < i + remaining → clicked j = false) → final = selection_index) ∧
        ((∃ j, i ≤ j ∧ j < i + remaining ∧ clicked j = true) →
          i ≤ final ∧ final < i + remaining ∧ clicked final = true) := by
  intro remaining
  induction remaining with
  | zero =>
    intro i selection_made selection_index _
    refine ⟨selection_made, selection_index, [], rfl, ?_, fun _ => rfl, ?_⟩
    · constructor
      · intro h; exact Or.inl h
      · rintro (h | ⟨j, h1, h2, _⟩)
        · exact h
        · omega
    · rintro ⟨j, h1, h2, _⟩
      omega
  | succ remaining ih =>
    intro i selection_made selection_index hlen
    have hi : i < options.length := by omega
    obtain ⟨option, hoption⟩ : ∃ option, options.get? i = some option :=
      ⟨options.get ⟨i, hi⟩, List.get?_eq_get hi⟩
    obtain ⟨made, final, calls, heq, hmade, hnone, hsome⟩ := ih (i + 1)
      (if clicked i = true then true else selection_made)
      (if clicked i = true then i else selection_index) (by omega)
    refine ⟨made, final, ([Call.ImGui_Selectable option (decide (selection_index = i))] ++
      (if decide (selection_index = i) = true then [Call.ImGui_SetItemDefaultFocus] else [])) ++
      calls, ?_, ?_, ?_, ?_⟩
    · simp only [combo_box_loop, hoption, heq, Result.after]
    · rw [hmade]
      constructor
      · rintro (h | ⟨j, h1, h2, h3⟩)
        · by_cases hc : clicked i = true
          · exact Or.inr ⟨i, le_refl i, by omega, hc⟩
          · rw [if_neg hc] at h
            exact Or.inl h
        · exact Or.inr ⟨j, by omega, by omega, h3⟩
      · rintro (h | ⟨j, h1, h2, h3⟩)
        · left
          by_cases hc : clicked i = true
          · rw [if_pos hc]
          · rw [if_neg hc]; exact h
        · rcases Nat.eq_or_lt_of_le h1 with rfl | hlt
          · left
            rw [if_pos h3]
          · exact Or.inr ⟨j, hlt, by omega, h3⟩
    · intro hno
      rw [hnone (fun j h1 h2 => hno j (by omega) (by omega))]
      have hc : ¬ clicked i = true := by
        rw [hno i (le_refl i) (by omega)]
        decide
      rw [if_neg hc]
    · rintro ⟨j, h1, h2, h3⟩
      by_cases hlater : ∃ k, i + 1 ≤ k ∧ k < i + 1 + remaining ∧ clicked k = true
      · obtain ⟨h4, h5, h6⟩ := hsome hlater
        exact ⟨by omega, by omega, h6⟩
      · have hfirst : j = i := by
          by_contra hne
          exact hlater ⟨j, by omega, by omega, h3⟩
        rw [hfirst] at h3
        have hfinal := hnone (fun k h1 h2 => by
          by_contra hk
          have hk' : clicked k = true := by simpa using hk
          exact hlater ⟨k, h1, h2, hk'⟩)
        rw [if_pos h3] at hfinal
        rw [hfinal]
        exact ⟨le_refl i, by omega, h3⟩

/-- The index `combo_box` reads the preview string with: the incoming index, or
`option_count - 1` in `uint32_t` arithmetic when the incoming index is not
below the option count, itself the size of the options cast to `uint32_t`.
For a non-empty options list it is below the size of the list. -/
theorem combo_box_clamped_lt (options : List String) (selection_index : Nat)
    (hne : options ≠ []) :
    (if selection_index ≥ options.length % 2 ^ 32 then
      (options.length % 2 ^ 32 + 2 ^ 32 - 1) % 2 ^ 32 else selection_index) <
      options.length := by
  have hpos : 0 < options.length := List.length_pos.2 hne
  have hle : options.length % 2 ^ 32 ≤ options.length := Nat.mod_le _ _
  by_cases h : selection_index ≥ options.length % 2 ^ 32
  · rw [if_pos h]
    by_cases h0 : options.length % 2 ^ 32 = 0
    · rw [h0]
      have hdvd : 2 ^ 32 ∣ options.length := Nat.dvd_of_mod_eq_zero h0
      have hge : 2 ^ 32 ≤ options.length := Nat.le_of_dvd hpos hdvd
      have hlt : (0 + 2 ^ 32 - 1) % 2 ^ 32 < 2 ^ 32 := Nat.mod_lt _ (by norm_num)
      omega
    · have hlt : options.length % 2 ^ 32 < 2 ^ 32 := Nat.mod_lt _ (by norm_num)
      have h2 : options.length % 2 ^ 32 + 2 ^ 32 - 1 =
          (options.length % 2 ^ 32 - 1) + 2 ^ 32 := by omega
      rw [h2, Nat.add_mod_right, Nat.mod_eq_of_lt (by omega)]
      omega
  · rw [if_neg h]
    omega

/-- C30: for every non-empty options list and every incoming `*selection_index`,
`combo_box` clamps before it reads: it returns, the index with which it reads
the preview string is below `options.size()`, and so is `*selection_index`
on return; it returns true exactly when the combo was open and an entry was
selected in this call, and `*selection_index` is then a selected entry;
when no entry was selected, `*selection_index` is the clamped index, which
is the incoming index when that was below the option count. When the size of
the list fits the `uint32_t` it is cast to, the option count is the size and
the clamped index is the smaller of the incoming index and the last index, so
an in-range index is left unchanged. For an empty options list the clamp
computes `option_count - 1` in unsigned 32-bit arithmetic, leaving
`2 ^ 32 - 1`, and the read of `options` is out of bounds. -/
theorem combo_box_clamps (combo_open : Bool) (clicked : Nat → Bool) (label : String)
    (options : List String) (selection_index : Nat) :
    (options ≠ [] →
      ∃ selection_string made final calls,
        options.get? (if selection_index ≥ options.length % 2 ^ 32 then
          (options.length % 2 ^ 32 + 2 ^ 32 - 1) % 2 ^ 32 else selection_index) =
          some selection_string ∧
        (if selection_index ≥ options.length % 2 ^ 32 then
          (options.length % 2 ^ 32 + 2 ^ 32 - 1) % 2 ^ 32 else selection_index) <
          options.length ∧
        combo_box combo_open clicked label options selection_index =
          .ok made final (Call.ImGui_BeginCombo label selection_string :: calls) ∧
        final < options.length ∧
        (made = true ↔
          combo_open = true ∧ ∃ j, j < options.length % 2 ^ 32 ∧ clicked j = true) ∧
        (made = true → clicked final = true) ∧
        (made = false → final = if selection_index ≥ options.length % 2 ^ 32 then
          (options.length % 2 ^ 32 + 2 ^ 32 - 1) % 2 ^ 32 else selection_index) ∧
        (made = false → selection_index < options.length % 2 ^ 32 →
          final = selection_index)) ∧
    (options ≠ [] → options.length < 2 ^ 32 →
      options.length % 2 ^ 32 = options.length ∧
      (if selection_index ≥ options.length % 2 ^ 32 then
        (options.length % 2 ^ 32 + 2 ^ 32 - 1) % 2 ^ 32 else selection_index) =
        min selection_index (options.length - 1)) ∧
    combo_box combo_open clicked label [] selection_index = .undefined (2 ^ 32 - 1) [] := by
  refine ⟨?_, ?_, ?_⟩
  · intro hne
    have hle : options.length % 2 ^ 32 ≤ options.length := Nat.mod_le _ _
    have hlt := combo_box_clamped_lt options selection_index hne
    generalize hclamped : (if selection_index ≥ options.length % 2 ^ 32 then
      (options.length % 2 ^ 32 + 2 ^ 32 - 1) % 2 ^ 32 else selection_index) = clamped at hlt
    obtain ⟨selection_string, hstring⟩ :
        ∃ selection_string, options.get? clamped = some selection_string :=
      ⟨options.get ⟨_, hlt⟩, List.get?_eq_get hlt⟩
    have hin : selection_index < options.length % 2 ^ 32 → clamped = selection_index := by
      intro h
      rw [← hclamped, if_neg (by omega)]
    cases combo_open with
    | false =>
      refine ⟨selection_string, false, clamped, [], hstring, hlt,
        ?_, hlt, by simp, by simp, fun _ => rfl, fun _ h => hin h⟩
      simp only [combo_box, hclamped, hstring, Bool.false_eq_true, if_false]
    | true =>
      obtain ⟨made, final, calls, heq, hmade, hnone, hsome⟩ := combo_box_loop_ok options clicked
        (options.length % 2 ^ 32) 0 false clamped (by omega)
      have hiff : made = true ↔ ∃ j, j < options.length % 2 ^ 32 ∧ clicked j = true := by
        rw [hmade]
        constructor
        · rintro (h | ⟨j, _, h2, h3⟩)
          · exact absurd h (by decide)
          · exact ⟨j, by omega, h3⟩
        · rintro ⟨j, h2, h3⟩
          exact Or.inr ⟨j, Nat.zero_le j, by omega, h3⟩
      have hnot : made = false →
          ∀ j, 0 ≤ j → j < 0 + options.length % 2 ^ 32 → clicked j = false := by
        intro hfalse j _ hj
        by_contra hc
        have hc' : clicked j = true := by simpa using hc
        have := hiff.2 ⟨j, by omega, hc'⟩
        rw [hfalse] at this
        exact absurd this (by decide)
      refine ⟨selection_string, made, final, calls ++ [Call.ImGui_EndCombo], hstring, hlt, ?_, ?_,
        by simpa using hiff, ?_, ?_, ?_⟩
      · simp only [combo_box, hclamped, hstring, if_true, heq, Result.after,
          Result.andThen, List.singleton_append, List.cons_append, List.nil_append]
      · by_cases hc : ∃ j, 0 ≤ j ∧ j < 0 + options.length % 2 ^ 32 ∧ clicked j = true
        · have := (hsome hc).2.1
          omega
        · have hfinal := hnone (fun j h1 h2 => by
            by_contra hk
            have hk' : clicked j = true := by simpa using hk
            exact hc ⟨j, h1, h2, hk'⟩)
          rw [hfinal]
          exact hlt
      · intro hm
        obtain ⟨j, h2, h3⟩ := hiff.1 hm
        exact (hsome ⟨j, Nat.zero_le j, by omega, h3⟩).2.2
      · intro hm
        exact hnone (hnot hm)
      · intro hm hsel
        rw [hnone (hnot hm)]
        exact hin hsel
  · intro hne hfit
    have hpos : 0 < options.length := List.length_pos.2 hne
    have hcount : options.length % 2 ^ 32 = options.length := Nat.mod_eq_of_lt hfit
    refine ⟨hcount, ?_⟩
    rw [hcount]
    by_cases h : selection_index ≥ options.length
    · rw [if_pos h]
      have h2 : options.length + 2 ^ 32 - 1 = (options.length - 1) + 2 ^ 32 := by omega
      rw [h2, Nat.add_mod_right, Nat.mod_eq_of_lt (by omega)]
      exact (Nat.min_eq_right (by omega)).symm
    · rw [if_neg h]
      exact (Nat.min_eq_left (by omega)).symm
  · simp [combo_box]

/-- Witness for C30: three options, an incoming index of 7, the combo open and the
second entry clicked. -/
theorem combo_box_clamps_witness :
    ∃ selection_string made final calls,
      combo_box true (fun i => decide (i = 1)) "mode" ["low", "medium", "high"] 7 =
        .ok made final (Call.ImGui_BeginCombo "mode" selection_string :: calls) ∧
      final < 3 :=
  have ⟨selection_string, made, final, calls, _, _, h3, h4, _⟩ :=
    (combo_box_clamps true (fun i => decide (i = 1)) "mode" ["low", "medium", "high"] 7).1
      (by decide)
  ⟨selection_string, made, final, calls, h3, h4⟩

/-! ## The display-mode list -/

theorem DisplayMode.agrees_iff_eq (a b : DisplayMode) : a.agrees b ↔ a = b := by
  obtain ⟨w, h, hz, idx⟩ := a
  obtain ⟨w', h', hz', idx'⟩ := b
  simp [DisplayMode.agrees]

theorem display_modes_distinct_iff_nodup (l : List DisplayMode) :
    display_modes_distinct l ↔ l.Nodup := by
  unfold display_modes_distinct List.Nodup
  constructor
  · exact List.Pairwise.imp fun {a b} h hab => h ((DisplayMode.agrees_iff_eq a b).2 hab)
  · exact List.Pairwise.imp fun {a b} h hab => h ((DisplayMode.agrees_iff_eq a b).1 hab)

/-- The early-exit loop finds a mode exactly when the list holds it. -/
theorem is_registered_iff (width height hz display_index : Nat) (l : List DisplayMode) :
    is_registered width height hz display_index l = true ↔
      DisplayMode.mk width height hz display_index ∈ l := by
  induction l with
  | nil => simp [is_registered]
  | cons display_mode rest ih =>
    obtain ⟨w, h, z, idx⟩ := display_mode
    unfold is_registered
    by_cases hc : w = width ∧ h = height ∧ z = hz ∧ idx = display_index
    · obtain ⟨rfl, rfl, rfl, rfl⟩ := hc
      simp
    · rw [if_neg hc, ih, List.mem_cons]
      constructor
      · exact Or.inr
      · rintro (heq | hmem)
        · exfalso
          apply hc
          injection heq with h1 h2 h3 h4
          exact ⟨h1.symm, h2.symm, h3.symm, h4.symm⟩
        · exact hmem

/-- Registering a mode the list holds returns at once. -/
theorem RegisterDisplayMode_of_registered (env : DisplayEnvironment)
    (width height hz display_index : Nat) (l : List DisplayMode)
    (hw : width ≠ 0) (hh : height ≠ 0) (hz0 : hz ≠ 0)
    (hreg : is_registered width height hz display_index l = true) :
    RegisterDisplayMode env width height hz display_index l = .ok () l [] := by
  simp [RegisterDisplayMode, hw, hh, hz0, hreg]

/-- Registering a mode the list does not hold leaves the sorted extension of the
list, however the refresh-rate queries end. -/
theorem RegisterDisplayMode_state_of_new (env : DisplayEnvironment)
    (width height hz display_index : Nat) (l : List DisplayMode)
    (hw : width ≠ 0) (hh : height ≠ 0) (hz0 : hz ≠ 0)
    (hreg : is_registered width height hz display_index l = false) :
    (RegisterDisplayMode env width height hz display_index l).state =
      env.sort (l ++ [DisplayMode.mk width height hz display_index]) := by
  unfold RegisterDisplayMode
  rw [if_neg hw, if_neg hh, if_neg hz0, if_neg (by rw [hreg]; decide)]
  cases env.refresh_rate_first with
  | none => rfl
  | some refresh_rate =>
    by_cases hex : env.exceeds_fps_limit refresh_rate = true
    · simp only [if_pos hex]
      cases env.refresh_rate_second with
      | none => rfl
      | some fps_limit => rfl
    · simp only [if_neg hex]
      rfl

/-- The state a call leaves is the list it found or its sorted extension by a
mode the list did not hold. -/
theorem RegisterDisplayMode_state_cases (env : DisplayEnvironment)
    (width height hz display_index : Nat) (l : List DisplayMode) :
    (RegisterDisplayMode env width height hz display_index l).state = l ∨
    (DisplayMode.mk width height hz display_index ∉ l ∧
      (RegisterDisplayMode env width height hz display_index l).state =
        env.sort (l ++ [DisplayMode.mk width height hz display_index])) := by
  by_cases hw : width = 0
  · left; simp [RegisterDisplayMode, hw, Result.state]
  by_cases hh : height = 0
  · left; simp [RegisterDisplayMode, hw, hh, Result.state]
  by_cases hz0 : hz = 0
  · left; simp [RegisterDisplayMode, hw, hh, hz0, Result.state]
  by_cases hreg : is_registered width height hz display_index l = true
  · left
    rw [RegisterDisplayMode_of_registered env width height hz display_index l hw hh hz0 hreg]
    rfl
  · right
    have hfalse : is_registered width height hz display_index l = false := by simpa using hreg
    exact ⟨fun hmem => hreg ((is_registered_iff width height hz display_index l).2 hmem),
      RegisterDisplayMode_state_of_new env width height hz display_index l hw hh hz0 hfalse⟩

/-- One call keeps the list duplicate-free and sorted by descending width. -/
theorem RegisterDisplayMode_keeps_invariant (env : DisplayEnvironment)
    (width height hz display_index : Nat) (l : List DisplayMode)
    (hsort : std_sort_contract env.sort)
    (hinv : display_modes_distinct l ∧ widths_descending l) :
    display_modes_distinct (RegisterDisplayMode env width height hz display_index l).state ∧
    widths_descending (RegisterDisplayMode env width height hz display_index l).state := by
  rcases RegisterDisplayMode_state_cases env width height hz display_index l with h | ⟨hnew, h⟩
  · rw [h]
    exact hinv
  · rw [h]
    obtain ⟨hperm, hsorted⟩ := hsort (l ++ [DisplayMode.mk width height hz display_index])
    constructor
    · rw [display_modes_distinct_iff_nodup, hperm.nodup_iff]
      have hnodup := (display_modes_distinct_iff_nodup l).1 hinv.1
      rw [List.nodup_append]
      refine ⟨hnodup, List.nodup_singleton _, ?_⟩
      intro a ha hb
      rw [List.mem_singleton] at hb
      exact hnew (hb ▸ ha)
    · exact hsorted.imp fun {a b} hab => Nat.le_of_not_lt hab

/-- Any run of calls from a list that is duplicate-free and sorted ends in one. -/
theorem register_repeatedly_keeps_invariant (calls : List RegisterDisplayMode_call) :
    ∀ l : List DisplayMode, (∀ call ∈ calls, std_sort_contract call.env.sort) →
      display_modes_distinct l ∧ widths_descending l →
      display_modes_distinct (register_repeatedly calls l).state ∧
        widths_descending (register_repeatedly calls l).state := by
  induction calls with
  | nil => intro l _ hinv; exact hinv
  | cons call rest ih =>
    intro l hsort hinv
    unfold register_repeatedly
    refine Result.state_andThen_inv
      (fun t : List DisplayMode => display_modes_distinct t ∧ widths_descending t) _ _ ?_ ?_
    · exact RegisterDisplayMode_keeps_invariant call.env call.width call.height call.hz
        call.display_index l (hsort call (List.mem_cons_self _ _)) hinv
    · intro _ t ht
      exact ih t (fun c hc => hsort c (List.mem_cons_of_mem _ hc)) ht

/-- With non-zero arguments and refresh-rate queries that succeed, a call returns. -/
theorem RegisterDisplayMode_returns (env : DisplayEnvironment)
    (width height hz display_index : Nat) (l : List DisplayMode)
    (hw : width ≠ 0) (hh : height ≠ 0) (hz0 : hz ≠ 0)
    (hfirst : env.refresh_rate_first.isSome = true)
    (hsecond : env.refresh_rate_second.isSome = true) :
    (RegisterDisplayMode env width height hz display_index l).returned = true := by
  obtain ⟨first, hf⟩ := Option.isSome_iff_exists.1 hfirst
  obtain ⟨second, hs⟩ := Option.isSome_iff_exists.1 hsecond
  by_cases hreg : is_registered width height hz display_index l = true
  · rw [RegisterDisplayMode_of_registered env width height hz display_index l hw hh hz0 hreg]
    rfl
  · unfold RegisterDisplayMode
    rw [if_neg hw, if_neg hh, if_neg hz0, if_neg hreg]
    simp only [hf, hs]
    by_cases hex : env.exceeds_fps_limit first = true
    · rw [if_pos hex]; rfl
    · rw [if_neg hex]; rfl

/-- A run of calls with non-zero arguments and successful refresh-rate queries
returns. -/
theorem register_repeatedly_returns (calls : List RegisterDisplayMode_call) :
    ∀ l : List DisplayMode,
      (∀ call ∈ calls, call.width ≠ 0 ∧ call.height ≠ 0 ∧ call.hz ≠ 0 ∧
        call.env.refresh_rate_first.isSome = true ∧
        call.env.refresh_rate_second.isSome = true) →
      (register_repeatedly calls l).returned = true := by
  induction calls with
  | nil => intro l _; rfl
  | cons call rest ih =>
    intro l hok
    obtain ⟨hw, hh, hz0, hfirst, hsecond⟩ := hok call (List.mem_cons_self _ _)
    have hret := RegisterDisplayMode_returns call.env call.width call.height call.hz
      call.display_index l hw hh hz0 hfirst hsecond
    unfold register_repeatedly
    cases hr : RegisterDisplayMode call.env call.width call.height call.hz call.display_index l with
    | assert_failed msg t c => rw [hr] at hret; exact absurd hret (by simp [Result.returned])
    | undefined t c => rw [hr] at hret; exact absurd hret (by simp [Result.returned])
    | ok v t c =>
      have hrest := ih t (fun c hc => hok c (List.mem_cons_of_mem _ hc))
      simp only [Result.andThen]
      cases hq : register_repeatedly rest t with
      | assert_failed msg t' c' => rw [hq] at hrest; exact absurd hrest (by simp [Result.returned])
      | undefined t' c' => rw [hq] at hrest; exact absurd hrest (by simp [Result.returned])
      | ok v' t' c' => rfl

/-- The insertion sort of the example environment meets the contract of `std::sort`. -/
theorem example_sort_contract : std_sort_contract example_display_environment.sort := by
  intro l
  haveI : IsTotal DisplayMode (fun a b => a.width ≥ b.width) :=
    ⟨fun a b => Nat.le_total b.width a.width⟩
  haveI : IsTrans DisplayMode (fun a b => a.width ≥ b.width) :=
    ⟨fun a b c hab hbc => Nat.le_trans hbc hab⟩
  refine ⟨List.perm_insertionSort _ l, ?_⟩
  have hsorted := List.sorted_insertionSort (fun a b : DisplayMode => a.width ≥ b.width) l
  exact List.Pairwise.imp (fun {a b} hab => Nat.not_lt.2 hab) hsorted

/-- C26: `RegisterDisplayMode` keeps the display-mode list duplicate-free and
sorted. Starting from the empty list, after any sequence of calls (with non-zero
width, height and hz the sequence runs to its end when the refresh-rate queries
succeed), no two entries agree on (width, height, hz, display_index) and the
widths are in non-increasing order; registering a mode that is already present
returns with the list unchanged; registering a new mode increases the length
by exactly one, keeps every earlier entry and adds the new one. -/
theorem RegisterDisplayMode_duplicate_free_sorted (calls : List RegisterDisplayMode_call)
    (hsort : ∀ call ∈ calls, std_sort_contract call.env.sort) :
    display_modes_distinct (register_repeatedly calls []).state ∧
    widths_descending (register_repeatedly calls []).state ∧
    ((∀ call ∈ calls, call.width ≠ 0 ∧ call.height ≠ 0 ∧ call.hz ≠ 0 ∧
        call.env.refresh_rate_first.isSome = true ∧
        call.env.refresh_rate_second.isSome = true) →
      (register_repeatedly calls []).returned = true) ∧
    ∀ (env : DisplayEnvironment) (width height hz display_index : Nat) (l : List DisplayMode),
      std_sort_contract env.sort → width ≠ 0 → height ≠ 0 → hz ≠ 0 →
      (DisplayMode.mk width height hz display_index ∈ l →
        RegisterDisplayMode env width height hz display_index l = .ok () l []) ∧
      (DisplayMode.mk width height hz display_index ∉ l →
        (RegisterDisplayMode env width height hz display_index l).state.length = l.length + 1 ∧
        (∀ display_mode ∈ l,
          display_mode ∈ (RegisterDisplayMode env width height hz display_index l).state) ∧
        DisplayMode.mk width height hz display_index ∈
          (RegisterDisplayMode env width height hz display_index l).state ∧
        (env.refresh_rate_first.isSome = true → env.refresh_rate_second.isSome = true →
          (RegisterDisplayMode env width height hz display_index l).returned = true)) := by
  have hinv := register_repeatedly_keeps_invariant calls [] hsort
    ⟨List.Pairwise.nil, List.Pairwise.nil⟩
  refine ⟨hinv.1, hinv.2, register_repeatedly_returns calls [], ?_⟩
  intro env width height hz display_index l henv hw hh hz0
  constructor
  · intro hmem
    exact RegisterDisplayMode_of_registered env width height hz display_index l hw hh hz0
      ((is_registered_iff width height hz display_index l).2 hmem)
  · intro hnew
    have hfalse : is_registered width height hz display_index l = false := by
      by_contra h
      have h' : is_registered width height hz display_index l = true := by simpa using h
      exact hnew ((is_registered_iff width height hz display_index l).1 h')
    rw [RegisterDisplayMode_state_of_new env width height hz display_index l hw hh hz0 hfalse]
    obtain ⟨hperm, _⟩ := henv (l ++ [DisplayMode.mk width height hz display_index])
    refine ⟨by rw [hperm.length_eq, List.length_append, List.length_singleton], ?_, ?_,
      RegisterDisplayMode_returns env width height hz display_index l hw hh hz0⟩
    · intro display_mode hm
      exact hperm.mem_iff.2 (List.mem_append_left _ hm)
    · exact hperm.mem_iff.2 (List.mem_append_right _ (List.mem_singleton_self _))

/-- Witness for C26: five registrations, one a repetition, leave four modes,
widest first. -/
theorem RegisterDisplayMode_duplicate_free_sorted_witness :
    (register_repeatedly example_registrations []).state =
      [⟨1920, 1080, 60, 0⟩, ⟨1920, 1080, 144, 0⟩, ⟨1280, 720, 60, 0⟩, ⟨800, 600, 60, 1⟩] ∧
    display_modes_distinct (register_repeatedly example_registrations []).state ∧
    widths_descending (register_repeatedly example_registrations []).state :=
  have h := RegisterDisplayMode_duplicate_free_sorted example_registrations
    (fun call hcall => by
      simp only [example_registrations, List.mem_cons, List.mem_singleton, List.not_mem_nil,
        or_false] at hcall
      rcases hcall with rfl | rfl | rfl | rfl | rfl <;> exact example_sort_contract)
  ⟨by decide, h.1, h.2.1⟩

end Spartan
